import Mathlib

/-!
OOP-DJ-APP: the per-deck signal path and the crossfader law.

A shallow embedding of `DJAudioPlayer` (src/DJAudioPlayer.h, src/DJAudioPlayer.cpp), of
`MainComponent::sliderValueChanged` (src/MainComponent.cpp), of the handlers of `DeckGUI`
(src/DeckGUI.h, src/DeckGUI.cpp) and of the mouse handlers of its three displays
(src/WaveformDisplay.cpp, src/ZoomedWaveform.cpp, src/JogWheel.cpp), of
`track::getLengthString` (src/Track.h) and of the selection logic of `PlaylistComponent`
and `Library` (src/PlaylistComponent.cpp, src/Library.cpp).

Conventions.
* C++ `double` and `float` values (gains, positions in seconds, frequencies, ratios) are
  idealised as rationals `ℚ`: every arithmetic step of the source is kept, rounding is not
  modelled. The exception is `track::getLengthString`, whose printed digits depend on the
  rounding: it is computed in binary64 (`F64`).
* A `void` member function that mutates `*this` becomes a function returning the new object.
* The JUCE classes the player is built from are not part of the repository; the little of
  their state the player touches is modelled in namespace `juce`.
* What the environment decides (whether a file can be decoded, what the library has
  selected, what `rand()` returns, where the mouse is) is an argument of the handler.
-/

namespace DJApp

namespace juce

/-- Modelled from the spec: `juce::AudioTransportSource` (JUCE library class, its source is
not in the repository). The state is the spec's "Transport state": the read position in
seconds, the play flag and the gain, together with the length of the attached source
(0 when no source is attached). -/
structure AudioTransportSource where
  lengthInSeconds : ℚ := 0
  currentPosition : ℚ := 0
  gain : ℚ := 1
  playing : Bool := false
  deriving DecidableEq

/-- Modelled from the spec: `getLengthInSeconds()` of the JUCE transport, the length of the
attached source, 0 when there is none. -/
def AudioTransportSource.getLengthInSeconds (t : AudioTransportSource) : ℚ :=
  t.lengthInSeconds

/-- Modelled from the spec: `getCurrentPosition()` of the JUCE transport, the read position
in seconds. -/
def AudioTransportSource.getCurrentPosition (t : AudioTransportSource) : ℚ :=
  t.currentPosition

/-- Modelled from the spec: `setGain(newGain)` of the JUCE transport stores the gain that is
applied to the following blocks. -/
def AudioTransportSource.setGain (t : AudioTransportSource) (newGain : ℚ) :
    AudioTransportSource :=
  { t with gain := newGain }

/-- Modelled from the spec: `setPosition(seconds)` of the JUCE transport. Spec 4.1:
"seek(positionSeconds): clamps to [0, length]; effective immediately". -/
def AudioTransportSource.setPosition (t : AudioTransportSource) (newPosition : ℚ) :
    AudioTransportSource :=
  { t with currentPosition := max 0 (min newPosition t.lengthInSeconds) }

/-- Modelled from the spec: `juce::ResamplingAudioSource` (JUCE library class). Only the
resampling ratio is state the player touches; it starts at 1. -/
structure ResamplingAudioSource where
  resamplingRatio : ℚ := 1
  deriving DecidableEq

/-- Modelled from the spec: `setResamplingRatio(r)` of the JUCE resampler stores the ratio
it is given. -/
def ResamplingAudioSource.setResamplingRatio (_s : ResamplingAudioSource) (r : ℚ) :
    ResamplingAudioSource :=
  { resamplingRatio := r }

/-- Modelled from the spec: the Q argument of the band filters. The source passes
`1.0 / juce::MathConstants<double>::sqrt2`, which is irrational and kept symbolic. -/
inductive QFactor where
  | invSqrt2
  | rational (q : ℚ)
  deriving DecidableEq

/-- Modelled from the spec: `juce::IIRCoefficients` (JUCE library class). A coefficient set
is represented by the design call that produced it ("FilterParameters: type,
cutoffOrCenterFrequencyHz, Q, gain"), not by the five numbers JUCE computes from it. -/
inductive IIRCoefficients where
  | none
  | makeLowPass (sampleRate frequency : ℚ)
  | makeHighPass (sampleRate frequency : ℚ)
  | makeLowShelf (sampleRate cutOffFrequency : ℚ) (q : QFactor) (gainFactor : ℚ)
  | makePeakFilter (sampleRate centreFrequency : ℚ) (q : QFactor) (gainFactor : ℚ)
  | makeHighShelf (sampleRate cutOffFrequency : ℚ) (q : QFactor) (gainFactor : ℚ)
  deriving DecidableEq

/-- The cutoff (or centre) frequency a coefficient set was designed for. -/
def IIRCoefficients.frequency? : IIRCoefficients → Option ℚ
  | .none => Option.none
  | .makeLowPass _ f => some f
  | .makeHighPass _ f => some f
  | .makeLowShelf _ f _ _ => some f
  | .makePeakFilter _ f _ _ => some f
  | .makeHighShelf _ f _ _ => some f

/-- Modelled from the spec: `juce::IIRFilterAudioSource` (JUCE library class): one filter
stage with its `active` flag and its current coefficient set. A new stage is inactive and
passes its input through unchanged. -/
structure IIRFilterAudioSource where
  active : Bool := false
  coefficients : IIRCoefficients := .none
  deriving DecidableEq

/-- Modelled from the spec: `setCoefficients(c)` installs the coefficient set and makes the
stage active. -/
def IIRFilterAudioSource.setCoefficients (_f : IIRFilterAudioSource) (c : IIRCoefficients) :
    IIRFilterAudioSource :=
  { active := true, coefficients := c }

/-- Modelled from the spec: `makeInactive()` switches the stage to pass-through; the
coefficient set it holds is left as it is. -/
def IIRFilterAudioSource.makeInactive (f : IIRFilterAudioSource) : IIRFilterAudioSource :=
  { f with active := false }

/-- Modelled from the spec: `start()` of the JUCE transport ("start()/stop(): toggle
isPlaying; no-op if already in that state"). -/
def AudioTransportSource.start (t : AudioTransportSource) : AudioTransportSource :=
  { t with playing := true }

/-- Modelled from the spec: `stop()` of the JUCE transport. -/
def AudioTransportSource.stop (t : AudioTransportSource) : AudioTransportSource :=
  { t with playing := false }

/-- Modelled from the spec: `isPlaying()` of the JUCE transport. -/
def AudioTransportSource.isPlaying (t : AudioTransportSource) : Bool :=
  t.playing

/-- Modelled from the spec: `juce::AudioFormatReader`, the "AudioSource" of the data model:
an open, decodable handle to one track with its sample rate and total length in samples. -/
structure AudioFormatReader where
  sampleRate : ℚ
  lengthInSamples : ℕ
  deriving DecidableEq

/-- The length in seconds of a decoded source. -/
def AudioFormatReader.lengthInSeconds (r : AudioFormatReader) : ℚ :=
  if r.sampleRate > 0 then (r.lengthInSamples : ℚ) / r.sampleRate else 0

/-- Modelled from the spec: `juce::AudioFormatManager::createReaderFor`, the external
"decodable-audio-source provider": given a locator it returns a reader, or nothing when
the source cannot be opened or decoded. `juce::URL`, `juce::File` and `juce::String`
locators are all strings here. -/
abbrev AudioFormatManager := String → Option AudioFormatReader

/-- Modelled from the spec: `setSource` of the JUCE transport ("load(source): replaces
current source atomically; resets position to 0"); a null source leaves a transport of
length 0. -/
def AudioTransportSource.setSource (t : AudioTransportSource)
    (newSource : Option AudioFormatReader) : AudioTransportSource :=
  { t with
    lengthInSeconds := (newSource.map AudioFormatReader.lengthInSeconds).getD 0
    currentPosition := 0 }

/-- Modelled from the spec: `juce::URL::getFileName()`, the text after the last slash. -/
def URL.getFileName (url : String) : String :=
  (url.splitOn "/").getLastD ""

/-- Modelled from the spec: `juce::Slider`, of which only the current value is read. -/
structure Slider where
  value : ℚ := 0
  deriving DecidableEq

/-- Modelled from the spec: `Slider::getValue()`. -/
def Slider.getValue (s : Slider) : ℚ := s.value

/-- Modelled from the spec: `Slider::setValue(v)` on a slider whose range was set to
[lo, hi] by `setRange(lo, hi)`: the value is constrained to the range. -/
def Slider.setValue (s : Slider) (lo hi v : ℚ) : Slider :=
  { s with value := max lo (min v hi) }

end juce

/-! ## DJAudioPlayer -/

/-- The data members of `DJAudioPlayer` (src/DJAudioPlayer.h, lines 137-210) with their
in-class initialisers. `thisSampleRate` and `level` are uninitialised in the source and are
given 0 here. The two reader sources are the readers they own, `mixerSource` is the list of
its input sources. -/
structure DJAudioPlayer where
  transportSource : juce.AudioTransportSource := {}
  resampleSource : juce.ResamplingAudioSource := {}
  audioLBFilter : juce.IIRFilterAudioSource := {}
  loadedFileName : String := ""
  thisSampleRate : ℚ := 0
  loaded : Bool := false
  playerVol : ℚ := 1
  crossFadeVol : ℚ := 1
  currentAudioURL : String := ""
  audioMBFilter : juce.IIRFilterAudioSource := {}
  audioHBFilter : juce.IIRFilterAudioSource := {}
  audioHPFilter : juce.IIRFilterAudioSource := {}
  audioLPFilter : juce.IIRFilterAudioSource := {}
  level : ℚ := 0
  readerSource : Option juce.AudioFormatReader := none
  mixerSource : List juce.AudioFormatReader := []
  drumReaderSource : Option juce.AudioFormatReader := none
  drumTransportSource : juce.AudioTransportSource := {}
  deriving DecidableEq

namespace DJAudioPlayer

/-- `DJAudioPlayer::setGain(gain, isVol)` (src/DJAudioPlayer.cpp, lines 169-190): the factor
selected by `isVol` is assigned first; the range test comes afterwards and only decides
whether the product is handed to the transport. -/
def setGain (p : DJAudioPlayer) (gain : ℚ) (isVol : Bool) : DJAudioPlayer :=
  let p1 : DJAudioPlayer :=
    if isVol then { p with playerVol := gain } else { p with crossFadeVol := gain }
  if gain < 0 ∨ gain > 1 then
    p1
  else
    { p1 with transportSource := p1.transportSource.setGain (p1.playerVol * p1.crossFadeVol) }

/-- `DJAudioPlayer::setSpeed(ratio)` (src/DJAudioPlayer.cpp, lines 193-204). -/
def setSpeed (p : DJAudioPlayer) (r : ℚ) : DJAudioPlayer :=
  if r < 0 ∨ r > 100 then
    p
  else
    { p with resampleSource := p.resampleSource.setResamplingRatio r }

/-- `DJAudioPlayer::setPosition(posInSecs)` (src/DJAudioPlayer.cpp, lines 209-212). -/
def setPosition (p : DJAudioPlayer) (posInSecs : ℚ) : DJAudioPlayer :=
  { p with transportSource := p.transportSource.setPosition posInSecs }

/-- `DJAudioPlayer::setPositionRelative(pos)` (src/DJAudioPlayer.cpp, lines 215-228). -/
def setPositionRelative (p : DJAudioPlayer) (pos : ℚ) : DJAudioPlayer :=
  if pos < 0 ∨ pos > 1 then
    p
  else
    let posInSecs : ℚ := p.transportSource.getLengthInSeconds * pos
    p.setPosition posInSecs

/-- `DJAudioPlayer::getPositionRelative()` (src/DJAudioPlayer.cpp, lines 158-163). -/
def getPositionRelative (p : DJAudioPlayer) : ℚ :=
  if p.transportSource.getLengthInSeconds = 0 then 0
  else p.transportSource.getCurrentPosition / p.transportSource.getLengthInSeconds

/-- A division that reports a zero divisor instead of producing a value. -/
def checkedDiv (a b : ℚ) : Option ℚ :=
  if b = 0 then none else some (a / b)

/-- `DJAudioPlayer::getPositionRelative()` once more, with the division of the source
replaced by `checkedDiv`: the result is `none` exactly when a division by zero is
evaluated. -/
def getPositionRelativeChecked (p : DJAudioPlayer) : Option ℚ :=
  if p.transportSource.getLengthInSeconds = 0 then some 0
  else checkedDiv p.transportSource.getCurrentPosition p.transportSource.getLengthInSeconds

/-- `DJAudioPlayer::setFilter(freq)` (src/DJAudioPlayer.cpp, lines 233-262). -/
def setFilter (p : DJAudioPlayer) (freq : ℚ) : DJAudioPlayer :=
  if freq > 0 ∧ freq < 20000 then
    let p1 : DJAudioPlayer := { p with audioHPFilter := p.audioHPFilter.makeInactive }
    let lp := p1.audioLPFilter.setCoefficients
      (juce.IIRCoefficients.makeLowPass p1.thisSampleRate freq)
    { p1 with audioLPFilter := lp }
  else if freq < 0 ∧ freq > -20000 then
    let p1 : DJAudioPlayer := { p with audioLPFilter := p.audioLPFilter.makeInactive }
    let hp := p1.audioHPFilter.setCoefficients
      (juce.IIRCoefficients.makeHighPass p1.thisSampleRate (-freq))
    { p1 with audioHPFilter := hp }
  else if freq = 0 then
    let p1 : DJAudioPlayer := { p with audioHPFilter := p.audioHPFilter.makeInactive }
    { p1 with audioLPFilter := p1.audioLPFilter.makeInactive }
  else
    p

/-- `DJAudioPlayer::setLBFilter(gain)` (src/DJAudioPlayer.cpp, lines 267-275). -/
def setLBFilter (p : DJAudioPlayer) (gain : ℚ) : DJAudioPlayer :=
  { p with audioLBFilter :=
      p.audioLBFilter.setCoefficients (.makeLowShelf p.thisSampleRate 500 .invSqrt2 gain) }

/-- `DJAudioPlayer::setMBFilter(gain)` (src/DJAudioPlayer.cpp, lines 351-359). -/
def setMBFilter (p : DJAudioPlayer) (gain : ℚ) : DJAudioPlayer :=
  { p with audioMBFilter :=
      p.audioMBFilter.setCoefficients (.makePeakFilter p.thisSampleRate 3250 .invSqrt2 gain) }

/-- `DJAudioPlayer::setHBFilter(gain)` (src/DJAudioPlayer.cpp, lines 362-370). -/
def setHBFilter (p : DJAudioPlayer) (gain : ℚ) : DJAudioPlayer :=
  { p with audioHBFilter :=
      p.audioHBFilter.setCoefficients (.makeHighShelf p.thisSampleRate 5000 .invSqrt2 gain) }

/-- `DJAudioPlayer::start()` (src/DJAudioPlayer.cpp, lines 84-86). -/
def start (p : DJAudioPlayer) : DJAudioPlayer :=
  { p with transportSource := p.transportSource.start }

/-- `DJAudioPlayer::stop()` (src/DJAudioPlayer.cpp, lines 90-93). -/
def stop (p : DJAudioPlayer) : DJAudioPlayer :=
  { p with transportSource := p.transportSource.stop }

/-- `DJAudioPlayer::isPlaying()` (src/DJAudioPlayer.cpp, lines 96-100). -/
def isPlaying (p : DJAudioPlayer) : Bool :=
  p.transportSource.isPlaying

/-- `DJAudioPlayer::isLoaded()` (src/DJAudioPlayer.cpp, lines 103-107). -/
def isLoaded (p : DJAudioPlayer) : Bool :=
  p.loaded

/-- `DJAudioPlayer::getRMSLevel()` (src/DJAudioPlayer.cpp, lines 152-155). -/
def getRMSLevel (p : DJAudioPlayer) : ℚ :=
  p.level

/-- `DJAudioPlayer::loadURL(audioURL)` (src/DJAudioPlayer.cpp, lines 118-146), with the
format manager the player was constructed with as first argument. -/
def loadURL (formatManager : juce.AudioFormatManager) (p : DJAudioPlayer) (audioURL : String) :
    DJAudioPlayer :=
  match formatManager audioURL with
  | some reader =>
    { p with
      transportSource := p.transportSource.setSource (some reader)
      readerSource := some reader
      loadedFileName := juce.URL.getFileName audioURL
      loaded := true
      currentAudioURL := audioURL }
  | none =>
    { p with loaded := false }

/-- `DJAudioPlayer::playDrumSample(drumSamplePath)` (src/DJAudioPlayer.cpp, lines 373-405):
the new reader source replaces the previous one among the inputs of `mixerSource`. -/
def playDrumSample (formatManager : juce.AudioFormatManager) (p : DJAudioPlayer)
    (drumSamplePath : String) : DJAudioPlayer :=
  match formatManager drumSamplePath with
  | none => p
  | some reader =>
    let p1 : DJAudioPlayer :=
      match p.drumReaderSource with
      | some old =>
        { p with mixerSource := p.mixerSource.filter (fun r => r ≠ old), drumReaderSource := none }
      | none => p
    let p2 : DJAudioPlayer := { p1 with drumReaderSource := some reader }
    { p2 with mixerSource := p2.mixerSource ++ [reader] }

/-- `DJAudioPlayer::loadDrumSample(drumSamplePath)` (src/DJAudioPlayer.cpp, lines 408-462);
a file that does not exist is one for which the format manager has no reader. -/
def loadDrumSample (formatManager : juce.AudioFormatManager) (p : DJAudioPlayer)
    (drumSamplePath : String) : DJAudioPlayer :=
  match formatManager drumSamplePath with
  | some reader =>
    let p1 : DJAudioPlayer :=
      match p.drumReaderSource with
      | some _ =>
        { p with
          drumTransportSource := p.drumTransportSource.setSource none
          drumReaderSource := none }
      | none => p
    let p2 : DJAudioPlayer := { p1 with drumReaderSource := some reader }
    { p2 with drumTransportSource := p2.drumTransportSource.setSource (some reader) }
  | none => p

/-- `DJAudioPlayer::playDrum()` (src/DJAudioPlayer.cpp, lines 468-480). -/
def playDrum (p : DJAudioPlayer) : DJAudioPlayer :=
  if p.drumTransportSource.isPlaying then
    { p with drumTransportSource := p.drumTransportSource.setPosition 0 }
  else
    { p with drumTransportSource := p.drumTransportSource.start }

end DJAudioPlayer

/-! ## The source chain of a deck

JUCE audio sources are pulled: `getNextAudioBlock` of a wrapping source first asks its input
source for the block and then processes that block. Which source wraps which is fixed by the
member initialisers of `DJAudioPlayer` (src/DJAudioPlayer.h, lines 143-198). -/

/-- The five `juce::IIRFilterAudioSource` members of `DJAudioPlayer`. -/
inductive FilterMember where
  | audioLBFilter
  | audioMBFilter
  | audioHBFilter
  | audioHPFilter
  | audioLPFilter
  deriving DecidableEq

/-- The state of a filter member inside a player. -/
def FilterMember.state (p : DJAudioPlayer) : FilterMember → juce.IIRFilterAudioSource
  | .audioLBFilter => p.audioLBFilter
  | .audioMBFilter => p.audioMBFilter
  | .audioHBFilter => p.audioHBFilter
  | .audioHPFilter => p.audioHPFilter
  | .audioLPFilter => p.audioLPFilter

/-- A node of the source chain: the transport (which reads the decoded file), a resampler
around an input source, or a filter member around an input source. -/
inductive AudioSource where
  | audioTransportSource
  | resamplingAudioSource (input : AudioSource)
  | iirFilterAudioSource (self : FilterMember) (input : AudioSource)
  deriving DecidableEq

/-- The signal processing of the JUCE sources, which is not part of the repository, taken as
a parameter over an arbitrary type of blocks: the block the transport delivers, what the
resampler makes of a block, and what an active filter with given coefficients makes of a
block. -/
structure DSP (Block : Type) where
  transport : juce.AudioTransportSource → Block
  resample : juce.ResamplingAudioSource → Block → Block
  iir : juce.IIRCoefficients → Block → Block

/-- One filter stage applied to a block: an inactive stage passes the block through
unchanged (spec 4.3), an active one filters it with its coefficients. -/
def DSP.stage {Block : Type} (dsp : DSP Block) (f : juce.IIRFilterAudioSource) (b : Block) :
    Block :=
  if f.active then dsp.iir f.coefficients b else b

/-- The pull of one block through a source chain: `getNextAudioBlock` of each JUCE source
calls `getNextAudioBlock` of its input and then processes the result. -/
def AudioSource.getNextAudioBlock {Block : Type} (dsp : DSP Block) (p : DJAudioPlayer) :
    AudioSource → Block
  | .audioTransportSource => dsp.transport p.transportSource
  | .resamplingAudioSource input =>
      dsp.resample p.resampleSource (input.getNextAudioBlock dsp p)
  | .iirFilterAudioSource self input =>
      dsp.stage (self.state p) (input.getNextAudioBlock dsp p)

namespace DJAudioPlayer

/-- The member `resampleSource{ &transportSource, false, 2 }` (src/DJAudioPlayer.h:150). -/
def resampleSourceNode : AudioSource :=
  .resamplingAudioSource .audioTransportSource

/-- The member `audioLBFilter{ &resampleSource, false }` (src/DJAudioPlayer.h:156). -/
def audioLBFilterNode : AudioSource :=
  .iirFilterAudioSource .audioLBFilter resampleSourceNode

/-- The member `audioMBFilter{ &audioLBFilter, false }` (src/DJAudioPlayer.h:180). -/
def audioMBFilterNode : AudioSource :=
  .iirFilterAudioSource .audioMBFilter audioLBFilterNode

/-- The member `audioHBFilter{ &audioMBFilter, false }` (src/DJAudioPlayer.h:186). -/
def audioHBFilterNode : AudioSource :=
  .iirFilterAudioSource .audioHBFilter audioMBFilterNode

/-- The member `audioHPFilter{ &audioHBFilter, false }` (src/DJAudioPlayer.h:192). -/
def audioHPFilterNode : AudioSource :=
  .iirFilterAudioSource .audioHPFilter audioHBFilterNode

/-- The member `audioLPFilter{ &audioHPFilter, false }` (src/DJAudioPlayer.h:198). -/
def audioLPFilterNode : AudioSource :=
  .iirFilterAudioSource .audioLPFilter audioHPFilterNode

/-- `DJAudioPlayer::getNextAudioBlock` (src/DJAudioPlayer.cpp, lines 49-54): the block is
pulled from `audioLPFilter`. The level metering that follows reads the block and does not
change it; it is left out. -/
def getNextAudioBlock {Block : Type} (dsp : DSP Block) (p : DJAudioPlayer) : Block :=
  audioLPFilterNode.getNextAudioBlock dsp p

/-- The stage order as the specification words it (spec 4.3 and 4.4): transport, resampler,
the LP/HP kill filter, then low shelf, peak and high shelf. -/
def renderBlockSpecOrder {Block : Type} (dsp : DSP Block) (p : DJAudioPlayer) : Block :=
  dsp.stage p.audioHBFilter
    (dsp.stage p.audioMBFilter
      (dsp.stage p.audioLBFilter
        (dsp.stage p.audioLPFilter
          (dsp.stage p.audioHPFilter
            (dsp.resample p.resampleSource (dsp.transport p.transportSource))))))

end DJAudioPlayer

/-- The names of the processing steps, used to record the order in which a block passes
through them. -/
inductive StageName where
  | transport
  | resampler
  | lowPass
  | highPass
  | lowShelf
  | peak
  | highShelf
  | passThrough
  deriving DecidableEq

/-- The name of the step a coefficient set stands for. -/
def StageName.ofCoefficients : juce.IIRCoefficients → StageName
  | .none => .passThrough
  | .makeLowPass _ _ => .lowPass
  | .makeHighPass _ _ => .highPass
  | .makeLowShelf _ _ _ _ => .lowShelf
  | .makePeakFilter _ _ _ _ => .peak
  | .makeHighShelf _ _ _ _ => .highShelf

/-- A signal processing whose blocks are the list of steps that have touched them, in the
order in which they did. -/
def traceDSP : DSP (List StageName) where
  transport := fun _ => [.transport]
  resample := fun _ b => b ++ [.resampler]
  iir := fun c b => b ++ [StageName.ofCoefficients c]

/-! ## MainComponent: the crossfader -/

/-- The members of `MainComponent` the crossfader handler touches (src/MainComponent.h): the
two deck players and the crossfader slider, which the constructor sets to 0 in the range
[-1, 1]. -/
structure MainComponent where
  player1 : DJAudioPlayer := {}
  player2 : DJAudioPlayer := {}
  crossFader : juce.Slider := {}
  deriving DecidableEq

/-- The `juce::Slider*` handed to the listener: the crossfader of this component or some
other slider. -/
inductive SliderPtr where
  | crossFader
  | other (s : juce.Slider)
  deriving DecidableEq

namespace MainComponent

/-- `MainComponent::sliderValueChanged(slider)` (src/MainComponent.cpp, lines 118-137). -/
def sliderValueChanged (m : MainComponent) (slider : SliderPtr) : MainComponent :=
  match slider with
  | .crossFader =>
    if m.crossFader.getValue > 0 then
      let val : ℚ := 1 - m.crossFader.getValue
      let m1 : MainComponent := { m with player1 := m.player1.setGain val false }
      { m1 with player2 := m1.player2.setGain 1 false }
    else if m.crossFader.getValue < 0 then
      let val : ℚ := 1 + m.crossFader.getValue
      let m1 : MainComponent := { m with player2 := m.player2.setGain val false }
      { m1 with player1 := m1.player1.setGain 1 false }
    else
      m
  | .other _ => m

/-- The user moves the crossfader to `x`: the slider takes the value and the listener
`sliderValueChanged` is called with the crossfader. -/
def moveCrossFader (m : MainComponent) (x : ℚ) : MainComponent :=
  sliderValueChanged { m with crossFader := { value := x } } .crossFader

end MainComponent

namespace DJAudioPlayer

/-- The player used to observe the stage order: a fresh player on which the three band
controls were set to 1 and the kill knob to 5000, so that the low-pass and the three band
stages are active. -/
def orderProbe : DJAudioPlayer :=
  ((((({} : DJAudioPlayer).setLBFilter 1).setMBFilter 1).setHBFilter 1).setFilter 5000)

end DJAudioPlayer

/-! ## The one-shot sample and the rendered block -/

namespace DJAudioPlayer

/-- The block the specification asks for while a one-shot plays (spec 4.4, "mixed alongside
the main track"): the sample-wise sum of the block of the main source chain and the block
of the one-shot transport. -/
def renderBlockWithOneShotSpec (dsp : DSP (List ℚ)) (p : DJAudioPlayer) : List ℚ :=
  List.zipWith (fun a b => a + b) (audioLPFilterNode.getNextAudioBlock dsp p)
    (dsp.transport p.drumTransportSource)

end DJAudioPlayer

/-- A signal processing on blocks of two samples used to observe a render: a playing
transport delivers its gain on both samples, a stopped one silence; the resampler and the
filters leave the block as it is. -/
def probeDSP : DSP (List ℚ) where
  transport := fun t => if t.playing then [t.gain, t.gain] else [0, 0]
  resample := fun _ b => b
  iir := fun _ b => b

/-- A format manager that can decode the two files `deck.wav` (100 seconds at 44100 Hz)
and `kick.wav` (1 second at 44100 Hz) and nothing else. -/
def probeFormatManager : juce.AudioFormatManager := fun url =>
  if url = "deck.wav" then some { sampleRate := 44100, lengthInSamples := 4410000 }
  else if url = "kick.wav" then some { sampleRate := 44100, lengthInSamples := 44100 }
  else none

/-! ## Track, the waveform displays and DeckGUI -/

/-- The struct `track` (src/Track.h, lines 7-19). -/
structure track where
  title : String := ""
  lengthInSeconds : ℚ := 0
  url : String := ""
  identity : String := ""
  deriving DecidableEq

/-- The members of `WaveformDisplay` (src/WaveformDisplay.h) that the deck logic reads or
writes, together with the value of the `juce::Slider` it derives from (range [0, 1], set by
the `DeckGUI` constructor), its enabled flag and the total length reported by its audio
thumbnail. `ZoomedWaveform` and `JogWheel` derive from it and add no such state. The
member `cueTargets` holds pointers to the pairs stored in the nodes of the cue map of the
deck (`&it->second`): a pointer is held as the key of the node it points to, the index of
the cue button. Nodes are created only by the insertion in `DeckGUI::buttonClicked`, which
hands the map to `setCuePoints` of both marked displays at once, so that a key names one
node for as long as a display holds a pointer to it. -/
structure WaveformDisplay where
  value : ℚ := 0
  enabled : Bool := true
  thumbTotalLength : ℚ := 0
  mouseEntered : Bool := false
  songNameLoaded : String := ""
  position : ℚ := 0
  prevY : ℚ := 0
  prevX : ℚ := 0
  cueTargets : List (Fin 6) := []
  sliderIsDragged : Bool := false
  isLoaded : Bool := false
  deriving DecidableEq

namespace WaveformDisplay

/-- Modelled from the spec: `juce::Slider::getValue()` of the display. -/
def getValue (w : WaveformDisplay) : ℚ := w.value

/-- Modelled from the spec: `juce::Slider::setValue(v)` of the display: the value is
constrained to the range [0, 1] of the slider. -/
def setValue (w : WaveformDisplay) (v : ℚ) : WaveformDisplay :=
  { w with value := max 0 (min v 1) }

/-- `WaveformDisplay::getPosition()` (src/WaveformDisplay.cpp, lines 19-22). -/
def getPosition (w : WaveformDisplay) : ℚ := w.position

/-- `WaveformDisplay::isSliderDragged()` (src/WaveformDisplay.cpp, lines 24-27). -/
def isSliderDragged (w : WaveformDisplay) : Bool := w.sliderIsDragged

/-- `WaveformDisplay::isFileLoaded()` (src/WaveformDisplay.cpp, lines 29-32). -/
def isFileLoaded (w : WaveformDisplay) : Bool := w.isLoaded

/-- What `DeckGUI::timerCallback` reads of a display: whether a file is loaded, whether it
is being dragged, and its slider value. -/
def controls (w : WaveformDisplay) : Bool × Bool × ℚ :=
  (w.isFileLoaded, w.isSliderDragged, w.getValue)

/-- `WaveformDisplay::setPositionRelative(pos)` (src/WaveformDisplay.cpp, lines 43-50). -/
def setPositionRelative (w : WaveformDisplay) (pos : ℚ) : WaveformDisplay :=
  if pos ≠ w.position then { w with position := pos } else w

/-- `WaveformDisplay::setCuePoints(_cueTargets)` (src/WaveformDisplay.cpp, lines 52-62):
the pointers to the pairs of all the nodes of the map, in the order of the map. -/
def setCuePoints (w : WaveformDisplay) (_cueTargets : Fin 6 → Option (ℚ × ℚ)) :
    WaveformDisplay :=
  { w with
    cueTargets :=
      ([0, 1, 2, 3, 4, 5] : List (Fin 6)).filter (fun i => (_cueTargets i).isSome) }

/-- `WaveformDisplay::loadURL(audioURL)` (src/WaveformDisplay.cpp, lines 170-189); the audio
thumbnail accepts the source when the format manager can decode it. -/
def loadURL (formatManager : juce.AudioFormatManager) (w : WaveformDisplay)
    (audioURL : String) : WaveformDisplay :=
  let w1 : WaveformDisplay := { w with isLoaded := false, thumbTotalLength := 0 }
  match formatManager audioURL with
  | some reader =>
    let w2 : WaveformDisplay :=
      { w1 with thumbTotalLength := reader.lengthInSeconds, isLoaded := true }
    let w3 : WaveformDisplay := w2.setPositionRelative 0
    { w3 with cueTargets := [] }
  | none => w1

/-- `WaveformDisplay::loadTrack(track)` (src/WaveformDisplay.cpp, lines 34-41). -/
def loadTrack (formatManager : juce.AudioFormatManager) (w : WaveformDisplay) (t : track) :
    WaveformDisplay :=
  let w1 := w.loadURL formatManager t.url
  if w1.isLoaded then { w1 with songNameLoaded := t.title } else w1

/-- The call `setValue(position + 0.1 / audioThumb.getTotalLength())` of the drag handlers
of the zoomed display and of the jog wheel (`forward`), or the one with `position - ...`.
On a display without a track the total length is 0 and the quotient is infinite in
`double`: the slider constrains the value to the end of its range. -/
def nudge (w : WaveformDisplay) (forward : Bool) : WaveformDisplay :=
  if w.thumbTotalLength = 0 then w.setValue (if forward then 1 else 0)
  else if forward then w.setValue (w.position + (1 / 10) / w.thumbTotalLength)
  else w.setValue (w.position - (1 / 10) / w.thumbTotalLength)

/-- `WaveformDisplay::mouseDown(e)` (src/WaveformDisplay.cpp, lines 140-151), with `e.x` and
`getWidth()` as arguments. -/
def mouseDown (w : WaveformDisplay) (x width : ℤ) : WaveformDisplay :=
  if w.enabled then
    let w1 : WaveformDisplay := { w with sliderIsDragged := true }
    let w2 : WaveformDisplay := w1.setValue ((x : ℚ) / (width : ℚ))
    w2.setPositionRelative w2.getValue
  else w

/-- `WaveformDisplay::mouseDrag(e)` (src/WaveformDisplay.cpp, lines 153-162). -/
def mouseDrag (w : WaveformDisplay) (x width : ℤ) : WaveformDisplay :=
  if w.enabled then
    let w1 : WaveformDisplay := { w with prevX := x }
    w1.mouseDown x width
  else w

/-- `WaveformDisplay::mouseUp(e)` (src/WaveformDisplay.cpp, lines 164-168). -/
def mouseUp (w : WaveformDisplay) : WaveformDisplay :=
  { w with sliderIsDragged := false }

end WaveformDisplay

namespace ZoomedWaveform

/-- `ZoomedWaveform::mouseDown(e)` (src/ZoomedWaveform.cpp, line 65): empty. -/
def mouseDown (w : WaveformDisplay) : WaveformDisplay := w

/-- `ZoomedWaveform::mouseDrag(e)` (src/ZoomedWaveform.cpp, lines 69-87), with `e.x` as
argument. -/
def mouseDrag (w : WaveformDisplay) (x : ℤ) : WaveformDisplay :=
  if w.enabled then
    let w1 : WaveformDisplay := { w with sliderIsDragged := true }
    let w2 : WaveformDisplay :=
      if w1.prevX > (x : ℚ) then w1.nudge true
      else if w1.prevX < (x : ℚ) then w1.nudge false
      else w1
    let w3 : WaveformDisplay := { w2 with prevX := x }
    w3.setPositionRelative w3.getValue
  else w

end ZoomedWaveform

namespace JogWheel

/-- `JogWheel::mouseDrag(e)` (src/JogWheel.cpp, lines 64-96), with `e.x`, `e.y` and the
difference `centre.getAngleToPoint(currentPoint) - centre.getAngleToPoint(prevPoint)` that
JUCE computes from them as arguments. -/
def mouseDrag (w : WaveformDisplay) (x y : ℤ) (angleDifference : ℚ) : WaveformDisplay :=
  if w.enabled then
    let w1 : WaveformDisplay := { w with sliderIsDragged := true }
    let w2 : WaveformDisplay :=
      if angleDifference > 0 then w1.nudge true
      else if angleDifference < 0 then w1.nudge false
      else w1
    let w3 : WaveformDisplay := { w2 with prevX := x, prevY := y }
    w3.setPositionRelative w3.getValue
  else w

end JogWheel

/-- The `juce::Button*` handed to `DeckGUI::buttonClicked`: one of the buttons of the deck,
the cue buttons `cues[0]`, ..., `cues[5]` among them, or some other button. -/
inductive DeckButton where
  | playButton
  | loadButton
  | kickButton
  | snareButton
  | hiHatButton
  | clapButton
  | cue (i : Fin 6)
  | other
  deriving DecidableEq

/-- The `juce::Slider*` handed to `DeckGUI::sliderValueChanged`. -/
inductive DeckSlider where
  | volSlider
  | speedSlider
  | filter
  | lowBandFilter
  | midBandFilter
  | highBandFilter
  | other
  deriving DecidableEq

/-- What `library->selectionIsValid()` and `library->getSelectedTrack()` answer at the
time of a click. -/
structure LibrarySelection where
  selectionIsValid : Bool := false
  selectedTrack : track := {}
  deriving DecidableEq

/-- One call of the C library function `rand()`: the value it returns and the constant
`RAND_MAX` of the library. -/
structure RandCall where
  value : ℕ := 0
  randMax : ℕ := 32767
  deriving DecidableEq

/-- The expression `static_cast<float>(rand()) / static_cast<float>(RAND_MAX)`
(src/DeckGUI.cpp, line 356). -/
def RandCall.hue (r : RandCall) : ℚ :=
  (r.value : ℚ) / (r.randMax : ℚ)

/-- The data members of `DeckGUI` (src/DeckGUI.h) that its handlers read or write. The
player, the zoomed display and the library are pointers in the source; the player and the
zoomed display are held here, the library is consulted through `LibrarySelection`. The cue
map is keyed by the index of the cue button. The sliders have the values the constructor
gives them; `prevPlayerPos`, `draggedIndex`, `flash`, `counter` and `volRMS` have no
initialiser in the source. -/
structure DeckGUI where
  player : DJAudioPlayer := {}
  playButtonToggleState : Bool := false
  volSlider : juce.Slider := { value := 1 / 2 }
  speedSlider : juce.Slider := { value := 1 }
  filter : juce.Slider := { value := 0 }
  midBandFilter : juce.Slider := { value := 1 }
  highBandFilter : juce.Slider := { value := 1 }
  lowBandFilter : juce.Slider := { value := 1 }
  waveformDisplay : WaveformDisplay := {}
  jogWheel : WaveformDisplay := {}
  zoomedDisplay : WaveformDisplay := {}
  cueTargets : Fin 6 → Option (ℚ × ℚ) := fun _ => none
  prevPlayerPos : ℚ := 0
  canContinue : Bool := true
  modeIsPlaying : Bool := false
  draggedIndex : ℤ := -1
  flash : Bool := false
  counter : ℤ := 0
  volRMS : ℚ := 0

namespace DeckGUI

/-- The member `snareSamplePath` (src/DeckGUI.h, line 42). -/
def snareSamplePath : String :=
  "D:\\OOP\\CM2005 FINAL SUBMISSION OOP\\NewJUCEProject\\NewJUCEProject\\Assets\\effects\\drum.aif"

/-- The member `kickSamplePath` (src/DeckGUI.h, line 43). -/
def kickSamplePath : String :=
  "D:\\OOP\\CM2005 FINAL SUBMISSION OOP\\NewJUCEProject\\NewJUCEProject\\Assets\\effects\\kick.wav"

/-- The member `clapSamplePath` (src/DeckGUI.h, line 44). -/
def clapSamplePath : String :=
  "D:\\OOP\\CM2005 FINAL SUBMISSION OOP\\NewJUCEProject\\NewJUCEProject\\Assets\\effects\\clap.wav"

/-- The member `hiHatSamplePath` (src/DeckGUI.h, line 45). -/
def hiHatSamplePath : String :=
  "D:\\OOP\\CM2005 FINAL SUBMISSION OOP\\NewJUCEProject\\NewJUCEProject\\Assets\\effects\\hiHat.wav"

/-- The element `displays[i]` of `displays{ &waveformDisplay, zoomedDisplay, &jogWheel }`
(src/DeckGUI.h, line 181). -/
def display (d : DeckGUI) (i : Fin 3) : WaveformDisplay :=
  match i with
  | 0 => d.waveformDisplay
  | 1 => d.zoomedDisplay
  | 2 => d.jogWheel

/-- A write through the pointer `displays[i]`. -/
def setDisplay (d : DeckGUI) (i : Fin 3) (w : WaveformDisplay) : DeckGUI :=
  match i with
  | 0 => { d with waveformDisplay := w }
  | 1 => { d with zoomedDisplay := w }
  | 2 => { d with jogWheel := w }

/-- The pointers of `displays[i]` that dangle: those whose node is no longer in the cue
map of the deck. `paint` of a display that reports a loaded file reads through every
pointer it holds (src/WaveformDisplay.cpp, lines 96-100, src/ZoomedWaveform.cpp, lines
47-53). -/
def danglingCueTargets (d : DeckGUI) (i : Fin 3) : List (Fin 6) :=
  (d.display i).cueTargets.filter (fun p => (d.cueTargets p).isNone)

/-- `DeckGUI::loadDeck(track)` (src/DeckGUI.cpp, lines 563-600). -/
def loadDeck (formatManager : juce.AudioFormatManager) (d : DeckGUI) (t : track) : DeckGUI :=
  let d1 : DeckGUI := { d with player := d.player.loadURL formatManager t.url }
  let d2 : DeckGUI :=
    if d1.player.isLoaded then
      ([0, 1, 2] : List (Fin 3)).foldl
        (fun e i => e.setDisplay i ((e.display i).loadTrack formatManager t)) d1
    else d1
  let d3 : DeckGUI := { d2 with player := d2.player.setGain d2.volSlider.getValue true }
  let d4 : DeckGUI := { d3 with cueTargets := fun _ => none }
  if d4.modeIsPlaying then
    { d4 with playButtonToggleState := true, player := d4.player.start }
  else
    { d4 with playButtonToggleState := false }

/-- The body of the loop over `cues` in `DeckGUI::buttonClicked` (src/DeckGUI.cpp, lines
341-368) for `thisButton = cues[i]`. -/
def cueStep (rnd : RandCall) (button : DeckButton) (d : DeckGUI) (i : Fin 6) : DeckGUI :=
  if button = .cue i then
    match d.cueTargets i with
    | some target =>
      let d1 : DeckGUI := { d with player := d.player.setPositionRelative target.1 }
      if !d1.modeIsPlaying then
        { d1 with modeIsPlaying := true, playButtonToggleState := true }
      else d1
    | none =>
      let d1 : DeckGUI :=
        { d with cueTargets :=
            Function.update d.cueTargets i (some (d.player.getPositionRelative, rnd.hue)) }
      let d2 : DeckGUI :=
        { d1 with waveformDisplay := d1.waveformDisplay.setCuePoints d1.cueTargets }
      { d2 with zoomedDisplay := d2.zoomedDisplay.setCuePoints d2.cueTargets }
  else d

/-- The play button part of `DeckGUI::buttonClicked` (src/DeckGUI.cpp, lines 293-305). -/
def clickPlayButton (button : DeckButton) (d : DeckGUI) : DeckGUI :=
  if button = .playButton then { d with modeIsPlaying := !d.modeIsPlaying } else d

/-- The load button part of `DeckGUI::buttonClicked` (src/DeckGUI.cpp, lines 309-311). -/
def clickLoadButton (formatManager : juce.AudioFormatManager) (lib : LibrarySelection)
    (button : DeckButton) (d : DeckGUI) : DeckGUI :=
  if button = .loadButton ∧ lib.selectionIsValid then
    d.loadDeck formatManager lib.selectedTrack
  else d

/-- The drum button part of `DeckGUI::buttonClicked` (src/DeckGUI.cpp, lines 312-337). -/
def clickDrumButtons (formatManager : juce.AudioFormatManager) (button : DeckButton)
    (d : DeckGUI) : DeckGUI :=
  let d1 : DeckGUI :=
    if button = .kickButton then
      { d with player := d.player.playDrumSample formatManager kickSamplePath }
    else d
  let d2 : DeckGUI :=
    if button = .snareButton then { d1 with player := d1.player.playDrum } else d1
  let d3 : DeckGUI :=
    if button = .hiHatButton then
      { d2 with player := d2.player.playDrumSample formatManager hiHatSamplePath }
    else d2
  if button = .clapButton then
    { d3 with player := d3.player.playDrumSample formatManager clapSamplePath }
  else d3

/-- The cue button part of `DeckGUI::buttonClicked` (src/DeckGUI.cpp, lines 340-369). -/
def clickCueButtons (rnd : RandCall) (button : DeckButton) (d : DeckGUI) : DeckGUI :=
  if d.player.isLoaded then
    ([0, 1, 2, 3, 4, 5] : List (Fin 6)).foldl (cueStep rnd button) d
  else d

/-- The last statement of `DeckGUI::buttonClicked` (src/DeckGUI.cpp, line 371):
`modeIsPlaying ? player->start() : player->stop()`. -/
def applyPlayMode (d : DeckGUI) : DeckGUI :=
  { d with player := if d.modeIsPlaying then d.player.start else d.player.stop }

/-- `DeckGUI::buttonClicked(button)` (src/DeckGUI.cpp, lines 290-372), its parts in the
order of the source, with the format manager of the player, the answers of the library and
the outcome of `rand()` as arguments. -/
def buttonClicked (formatManager : juce.AudioFormatManager) (lib : LibrarySelection)
    (rnd : RandCall) (d : DeckGUI) (button : DeckButton) : DeckGUI :=
  applyPlayMode
    (clickCueButtons rnd button
      (clickDrumButtons formatManager button
        (clickLoadButton formatManager lib button (clickPlayButton button d))))

/-- `DeckGUI::sliderValueChanged(slider)` (src/DeckGUI.cpp, lines 376-423). -/
def sliderValueChanged (d : DeckGUI) (slider : DeckSlider) : DeckGUI :=
  match slider with
  | .volSlider => { d with player := d.player.setGain d.volSlider.getValue true }
  | .speedSlider => { d with player := d.player.setSpeed d.speedSlider.getValue }
  | .filter => { d with player := d.player.setFilter d.filter.getValue }
  | .lowBandFilter => { d with player := d.player.setLBFilter d.lowBandFilter.getValue }
  | .midBandFilter => { d with player := d.player.setMBFilter d.midBandFilter.getValue }
  | .highBandFilter => { d with player := d.player.setHBFilter d.highBandFilter.getValue }
  | .other => d

/-- The body of the loop over `displays` in `DeckGUI::timerCallback` (src/DeckGUI.cpp, lines
510-552) for index `i`; `displays[i] == &waveformDisplay` holds for `i = 0` only. -/
def timerStep (d : DeckGUI) (i : Fin 3) : DeckGUI :=
  if (d.display i).isFileLoaded then
    let pos : ℚ := (d.display i).getValue
    if (d.display i).isSliderDragged then
      let d1 : DeckGUI := { d with draggedIndex := (i.val : ℤ), canContinue := false }
      let d2 : DeckGUI :=
        if i = 0 then { d1 with player := d1.player.stop }
        else if d1.prevPlayerPos = pos then { d1 with player := d1.player.stop }
        else if !d1.player.isPlaying then { d1 with player := d1.player.start }
        else d1
      let d3 : DeckGUI := { d2 with player := d2.player.setPositionRelative pos }
      { d3 with prevPlayerPos := pos }
    else if d.canContinue = false ∧ ¬ (d.display i).isSliderDragged
        ∧ d.draggedIndex = (i.val : ℤ) then
      let d1 : DeckGUI :=
        { d with player := if d.modeIsPlaying then d.player.start else d.player.stop }
      { d1 with canContinue := true, draggedIndex := -1 }
    else
      d.setDisplay i ((d.display i).setPositionRelative d.player.getPositionRelative)
  else d

/-- `DeckGUI::timerCallback()` (src/DeckGUI.cpp, lines 502-559). -/
def timerCallback (d : DeckGUI) : DeckGUI :=
  let d1 : DeckGUI := { d with counter := d.counter + 1 }
  let d2 : DeckGUI := if d1.counter % 10 = 0 then { d1 with flash := !d1.flash } else d1
  let d3 : DeckGUI := ([0, 1, 2] : List (Fin 3)).foldl timerStep d2
  if d3.volRMS ≠ d3.player.getRMSLevel then { d3 with volRMS := d3.player.getRMSLevel }
  else d3

/-- A mouse event on one of the three displays of the deck. -/
inductive MouseEvent where
  | waveformDown (x width : ℤ)
  | waveformDrag (x width : ℤ)
  | waveformUp
  | zoomedDown
  | zoomedDrag (x : ℤ)
  | zoomedUp
  | jogDrag (x y : ℤ) (angleDifference : ℚ)
  | jogUp
  deriving DecidableEq

/-- The mouse handler of the display the event is delivered to. `ZoomedWaveform` and
`JogWheel` inherit `mouseUp` from `WaveformDisplay`. -/
def mouse (d : DeckGUI) : MouseEvent → DeckGUI
  | .waveformDown x width => { d with waveformDisplay := d.waveformDisplay.mouseDown x width }
  | .waveformDrag x width => { d with waveformDisplay := d.waveformDisplay.mouseDrag x width }
  | .waveformUp => { d with waveformDisplay := d.waveformDisplay.mouseUp }
  | .zoomedDown => { d with zoomedDisplay := ZoomedWaveform.mouseDown d.zoomedDisplay }
  | .zoomedDrag x => { d with zoomedDisplay := ZoomedWaveform.mouseDrag d.zoomedDisplay x }
  | .zoomedUp => { d with zoomedDisplay := d.zoomedDisplay.mouseUp }
  | .jogDrag x y a => { d with jogWheel := JogWheel.mouseDrag d.jogWheel x y a }
  | .jogUp => { d with jogWheel := d.jogWheel.mouseUp }

end DeckGUI

/-- What can happen to a deck: a button click, a slider move (the slider takes the value and
the listener is called), a timer tick, a mouse event on a display. -/
inductive DeckEvent where
  | buttonClicked (lib : LibrarySelection) (rnd : RandCall) (button : DeckButton)
  | sliderMoved (slider : DeckSlider) (value : ℚ)
  | timerTick
  | mouse (e : DeckGUI.MouseEvent)
  deriving DecidableEq

/-- Whether the handler of the event calls `DeckGUI::loadDeck`: only a click on the load
button with a valid library selection does. -/
def DeckEvent.callsLoadDeck : DeckEvent → Bool
  | .buttonClicked lib _ button => decide (button = .loadButton) && lib.selectionIsValid
  | _ => false

namespace DeckGUI

/-- The slider is given a value, before its listener is called: the value is constrained
to the range that the constructor of `DeckGUI` sets for the slider (src/DeckGUI.cpp, lines
47-52). -/
def setSliderValue (d : DeckGUI) (slider : DeckSlider) (v : ℚ) : DeckGUI :=
  match slider with
  | .volSlider => { d with volSlider := d.volSlider.setValue 0 1 v }
  | .speedSlider => { d with speedSlider := d.speedSlider.setValue (8 / 10) (12 / 10) v }
  | .filter => { d with filter := d.filter.setValue (-20000) 20000 v }
  | .lowBandFilter => { d with lowBandFilter := d.lowBandFilter.setValue (1 / 100) 2 v }
  | .midBandFilter => { d with midBandFilter := d.midBandFilter.setValue (1 / 100) 2 v }
  | .highBandFilter => { d with highBandFilter := d.highBandFilter.setValue (1 / 100) 2 v }
  | .other => d

/-- The handler of one event. -/
def handle (formatManager : juce.AudioFormatManager) (d : DeckGUI) : DeckEvent → DeckGUI
  | .buttonClicked lib rnd button => d.buttonClicked formatManager lib rnd button
  | .sliderMoved slider value => (d.setSliderValue slider value).sliderValueChanged slider
  | .timerTick => d.timerCallback
  | .mouse e => d.mouse e

/-- The handlers of a sequence of events, one after the other. -/
def run (formatManager : juce.AudioFormatManager) (d : DeckGUI) (events : List DeckEvent) :
    DeckGUI :=
  events.foldl (handle formatManager) d

end DeckGUI

namespace DJAudioPlayer

/-- The player used to observe a one-shot: a fresh player on which the drum sample
`kick.wav` was loaded and then triggered. -/
def oneShotProbe : DJAudioPlayer :=
  (({} : DJAudioPlayer).loadDrumSample probeFormatManager "kick.wav").playDrum

end DJAudioPlayer

namespace DeckGUI

/-- A display on which a track of 100 seconds is loaded. -/
def loadedDisplay : WaveformDisplay :=
  { isLoaded := true, thumbTotalLength := 100, songNameLoaded := "deck" }

/-- A player on which the track `deck.wav` of 100 seconds is loaded, stopped at second 25,
with the volume of a fresh deck. -/
def loadedPlayer : DJAudioPlayer :=
  { loaded := true
    loadedFileName := "deck.wav"
    currentAudioURL := "deck.wav"
    readerSource := some { sampleRate := 44100, lengthInSamples := 4410000 }
    playerVol := 1 / 2
    transportSource := { lengthInSeconds := 100, currentPosition := 25, gain := 1 / 2 } }

/-- The deck used to observe the cue collection: a deck that has loaded the track
`deck.wav` of 100 seconds, stands at second 25 and has stored that position (relative
position 1/4, hue 0) on its first cue button, the waveform display and the zoomed display
holding the pointer to that pair. -/
def cueProbe : DeckGUI :=
  { player := loadedPlayer
    waveformDisplay := { loadedDisplay with cueTargets := [0] }
    zoomedDisplay := { loadedDisplay with cueTargets := [0] }
    jogWheel := loadedDisplay
    cueTargets := Function.update (fun _ => none) 0 (some (1 / 4, 0)) }

end DeckGUI

namespace DeckGUI

/-- The deck used to observe drags: `cueProbe` in play mode with its player started, at
second 25 of the 100 seconds of its track. -/
def playingProbe : DeckGUI :=
  { cueProbe with modeIsPlaying := true, player := loadedPlayer.start }

end DeckGUI

/-! ## Reachable deck states -/

namespace DJAudioPlayer

/-- Modelled from the spec: the effect of rendering on the position of the transport
(spec 4.1, `renderBlock`: "advances position by the number of samples actually produced",
fewer than asked for at the end of the source, nothing when not playing): while playing the
position moves forward by the seconds rendered, not beyond the end of the track. -/
def rendered (p : DJAudioPlayer) (seconds : ℚ) : DJAudioPlayer :=
  if p.transportSource.playing then
    { p with
      transportSource :=
        { p.transportSource with
          currentPosition :=
            min (p.transportSource.currentPosition + max 0 seconds)
              p.transportSource.lengthInSeconds } }
  else p

/-- The position of the transport is within its track: the invariant of the transport state
of the specification (spec 3). -/
def positionInTrack (p : DJAudioPlayer) : Prop :=
  0 ≤ p.transportSource.currentPosition
    ∧ p.transportSource.currentPosition ≤ p.transportSource.lengthInSeconds

end DJAudioPlayer

/-- A step of a running deck: an event handled by `DeckGUI`, or the audio thread rendering
some seconds of the player of the deck. -/
inductive DeckStep where
  | event (e : DeckEvent)
  | rendered (seconds : ℚ)
  deriving DecidableEq

/-- The contract of the C library for `rand()` at a step: the value drawn lies between 0 and
`RAND_MAX`. -/
def DeckStep.randInRange : DeckStep → Prop
  | .event (.buttonClicked _ rnd _) => rnd.value ≤ rnd.randMax
  | _ => True

namespace DeckGUI

/-- The deck as its constructor leaves it (src/DeckGUI.cpp, lines 15-130): the members have
their initial values and the player was asked to load the hi-hat sample. -/
def constructed (formatManager : juce.AudioFormatManager) (player : DJAudioPlayer) : DeckGUI :=
  { player := player.loadDrumSample formatManager hiHatSamplePath }

/-- One step of a running deck. -/
def step (formatManager : juce.AudioFormatManager) (d : DeckGUI) : DeckStep → DeckGUI
  | .event e => d.handle formatManager e
  | .rendered seconds => { d with player := d.player.rendered seconds }

/-- The steps of a running deck, one after the other. -/
def runSteps (formatManager : juce.AudioFormatManager) (d : DeckGUI) (steps : List DeckStep) :
    DeckGUI :=
  steps.foldl (step formatManager) d

/-- Every stored cue point has its relative position and its hue in [0, 1]. -/
def cuesInRange (d : DeckGUI) : Prop :=
  ∀ (i : Fin 6) (c : ℚ × ℚ), d.cueTargets i = some c →
    (0 ≤ c.1 ∧ c.1 ≤ 1) ∧ (0 ≤ c.2 ∧ c.2 ≤ 1)

end DeckGUI

/-! ## Binary64 arithmetic -/

/-- A finite value of the type `double` of the source (IEEE 754 binary64), the number
`m * 2 ^ e`. Infinities, NaN and the sign of zero are not values of the model: an operation
whose result is not finite has no result. The arithmetic below is that of the C++
implementation, it is not code of the repository. -/
structure F64 where
  m : ℤ
  e : ℤ
  deriving DecidableEq

namespace F64

/-- The number a `double` stands for. -/
def toRat (x : F64) : ℚ :=
  (x.m : ℚ) * (2 : ℚ) ^ x.e

/-- The conversion of an `int` to `double`, exact. -/
def ofInt (z : ℤ) : F64 :=
  ⟨z, 0⟩

/-- The position of the leading binary digit of n, by halving at most `fuel` times. -/
def log2Aux : ℕ → ℕ → ℕ
  | 0, _ => 0
  | fuel + 1, n => if n < 2 then 0 else log2Aux fuel (n / 2) + 1

/-- The position of the leading binary digit of a positive n: the greatest k with
`2 ^ k ≤ n`. -/
def log2 (n : ℕ) : ℕ :=
  log2Aux n n

/-- Whether `a / d ≥ 2 ^ l`, for natural numbers a and d. -/
def geTwoPow (a d : ℕ) (l : ℤ) : Bool :=
  if 0 ≤ l then decide (d * 2 ^ l.toNat ≤ a) else decide (d ≤ a * 2 ^ (-l).toNat)

/-- IEEE 754 rounding to nearest, ties to even, of the number
`n / d * 2 ^ e` (d positive) to binary64: 53 significant bits, the unit in the last place
not below `2 ^ -1074`; no result beyond the largest finite value. -/
def round (n : ℤ) (d : ℕ) (e : ℤ) : Option F64 :=
  if d = 0 then none
  else if n = 0 then some ⟨0, 0⟩
  else
    let a : ℕ := n.natAbs
    let l : ℤ := (log2 a : ℤ) - (log2 d : ℤ)
    let b : ℤ := if geTwoPow a d l then l else l - 1
    let ulp : ℤ := max (b + e - 52) (-1074)
    let s : ℤ := e - ulp
    let num : ℕ := if 0 ≤ s then a * 2 ^ s.toNat else a
    let den : ℕ := if 0 ≤ s then d else d * 2 ^ (-s).toNat
    let q : ℕ := num / den
    let r : ℕ := num % den
    let q1 : ℕ := if den < 2 * r ∨ (2 * r = den ∧ q % 2 = 1) then q + 1 else q
    if 971 < ulp ∨ (ulp = 971 ∧ 2 ^ 53 ≤ q1) then none
    else some ⟨if 0 ≤ n then (q1 : ℤ) else -(q1 : ℤ), ulp⟩

/-- The `double` of a decimal literal `n / d`: the nearest one. -/
def ofRatio (n : ℤ) (d : ℕ) : Option F64 :=
  round n d 0

/-- The sum `a + b` of two `double`, rounded. -/
def add (a b : F64) : Option F64 :=
  let e : ℤ := min a.e b.e
  round (a.m * 2 ^ (a.e - e).toNat + b.m * 2 ^ (b.e - e).toNat) 1 e

/-- The difference `a - b` of two `double`, rounded. -/
def sub (a b : F64) : Option F64 :=
  let e : ℤ := min a.e b.e
  round (a.m * 2 ^ (a.e - e).toNat - b.m * 2 ^ (b.e - e).toNat) 1 e

/-- The product `a * b` of two `double`, rounded. -/
def mul (a b : F64) : Option F64 :=
  round (a.m * b.m) 1 (a.e + b.e)

/-- The quotient `a / b` of two `double`, rounded; no finite result for a zero divisor. -/
def div (a b : F64) : Option F64 :=
  round (if 0 ≤ b.m then a.m else -a.m) b.m.natAbs (a.e - b.e)

/-- The greatest integer not above the number of a `double`. -/
def floorInt (x : F64) : ℤ :=
  if 0 ≤ x.e then x.m * 2 ^ x.e.toNat else x.m / 2 ^ (-x.e).toNat

/-- The function `std::floor(x)` of the C++ library, a `double`. -/
def floor (x : F64) : F64 :=
  ofInt x.floorInt

/-- The comparison `a < b` of two `double`. -/
def lt (a b : F64) : Bool :=
  let e : ℤ := min a.e b.e
  decide (a.m * 2 ^ (a.e - e).toNat < b.m * 2 ^ (b.e - e).toNat)

/-- The conversion of a `double` to `int`, truncation toward zero; the behaviour is
undefined, and the model has no result, when the truncated value is not a value of the
32-bit `int`. -/
def toInt (x : F64) : Option ℤ :=
  let t : ℤ := if 0 ≤ x.m then x.floorInt else -(F64.floorInt ⟨-x.m, x.e⟩)
  if -2 ^ 31 ≤ t ∧ t < 2 ^ 31 then some t else none

end F64

/-! ## Track: the length string -/

namespace track

/-- The local `hour` of `getLengthString` (src/Track.h, line 28). -/
def hour (songLength : F64) : Option ℤ :=
  (songLength.div (F64.ofInt 3600)).bind fun q => q.floor.toInt

/-- The local `min` of `getLengthString` (src/Track.h, line 29). -/
def min (songLength : F64) (hour : ℤ) : Option ℤ :=
  ((F64.ofInt hour).mul (F64.ofInt 3600)).bind fun p =>
  (songLength.sub p).bind fun d =>
  (d.div (F64.ofInt 60)).bind fun q => q.floor.toInt

/-- The local `sec` of `getLengthString` (src/Track.h, line 30). -/
def sec (songLength : F64) (min : ℤ) : Option F64 :=
  ((F64.ofInt min).mul (F64.ofInt 60)).bind fun p =>
  (songLength.sub p).bind fun d =>
  (d.mul (F64.ofInt 100)).bind fun c => c.floor.div (F64.ofInt 100)

/-- The local `miniSec` of `getLengthString` (src/Track.h, line 31). -/
def miniSec (sec : F64) : Option ℤ :=
  (sec.sub sec.floor).bind fun d =>
  (d.mul (F64.ofInt 100)).bind fun c => c.floor.toInt

/-- The formatting part of `getLengthString` (src/Track.h, lines 33-70), `secInt` being
`static_cast<int>(sec)`; `std::to_string` of an `int` is its decimal numeral. -/
def format (hour min : ℤ) (sec : F64) (secInt miniSec : ℤ) (regularUpdate : Bool) : String :=
  let time0 : String := ""
  let time1 : String :=
    if !regularUpdate then
      if hour < 10 then time0 ++ ("0" ++ toString hour ++ ":")
      else time0 ++ (toString hour ++ ":")
    else time0
  let time2 : String :=
    if min < 10 then time1 ++ ("0" ++ toString min ++ ":")
    else time1 ++ (toString min ++ ":")
  let time3 : String :=
    if sec.lt (F64.ofInt 10) then time2 ++ ("0" ++ toString secInt)
    else time2 ++ toString secInt
  if regularUpdate then
    if miniSec < 10 then time3 ++ (":0" ++ toString miniSec)
    else time3 ++ (":" ++ toString miniSec)
  else time3

/-- `track::getLengthString(songLength, regularUpdate)` (src/Track.h, lines 24-71), in the
binary64 arithmetic of `double`: the four locals, then the formatting. There is no result
where a conversion to `int` is undefined. -/
def getLengthString (songLength : F64) (regularUpdate : Bool) : Option String :=
  (hour songLength).bind fun h =>
  (min songLength h).bind fun m =>
  (sec songLength m).bind fun s =>
  (miniSec s).bind fun c =>
  s.toInt.bind fun secInt => some (format h m s secInt c regularUpdate)

/-- A number zero-padded to at least two digits. -/
def pad2 (n : ℤ) : String :=
  if n < 10 then "0" ++ toString n else toString n

/-- The length string as the documentation of `getLengthString` has it, hours, minutes and
seconds: `HH:MM:SS` with HH the whole hours, MM the remaining whole minutes and SS the
remaining whole seconds, each padded to two digits. -/
def lengthStringSpec (len : ℚ) : String :=
  pad2 ⌊len / 3600⌋ ++ ":" ++ pad2 (⌊len / 60⌋ % 60) ++ ":" ++ pad2 (⌊len⌋ % 60)

/-- The position string of the jog wheel as specified for positions below one hour:
`MM:SS:CC` with MM the whole minutes, SS the remaining whole seconds and CC the hundredths
of a second, each padded to two digits. -/
def positionStringSpec (len : ℚ) : String :=
  pad2 ⌊len / 60⌋ ++ ":" ++ pad2 (⌊len⌋ % 60) ++ ":" ++ pad2 (⌊len * 100⌋ % 100)

end track

/-! ## PlaylistComponent and Library -/

/-- Modelled from the spec: `juce::String::containsIgnoreCase` (JUCE library): whether
`sub` occurs in `text` when the case of letters is ignored. -/
def juce.containsIgnoreCase (text sub : String) : Bool :=
  decide (sub.toLower.toList <:+: text.toLower.toList)

/-- The members of `PlaylistComponent` (src/PlaylistComponent.h) that its logic reads or
writes. `trackTitles` is a pointer to the track vector of a folder of the library, null
after construction: it is held as the vector it points to. `displayTrackTitles` holds
pointers to elements of that vector: they are held as the indices of the elements.
`selectedRow` is the selected row of the table, -1 when there is none. -/
structure PlaylistComponent where
  selectedRow : ℤ := -1
  trackTitles : Option (List track) := none
  displayTrackTitles : List ℕ := []
  deriving DecidableEq

namespace PlaylistComponent

/-- `PlaylistComponent::trackIsSelected()` (src/PlaylistComponent.cpp, lines 48-50). -/
def trackIsSelected (pl : PlaylistComponent) : Bool :=
  decide (pl.selectedRow ≥ 0 ∧ pl.selectedRow < pl.displayTrackTitles.length)

/-- `PlaylistComponent::setTrackTitles(trackTitles)` (src/PlaylistComponent.cpp, lines
53-75). -/
def setTrackTitles (pl : PlaylistComponent) (tracks : List track) : PlaylistComponent :=
  { pl with
    trackTitles := some tracks
    displayTrackTitles := List.range tracks.length
    selectedRow := -1 }

/-- `PlaylistComponent::getSelectedTrackIndex()` (src/PlaylistComponent.cpp, lines
83-87). -/
def getSelectedTrackIndex (pl : PlaylistComponent) : ℤ :=
  pl.selectedRow

/-- The track a pointer of `displayTrackTitles` points to; nothing when the pointer does not
point into the vector. -/
def deref (pl : PlaylistComponent) (i : ℕ) : Option track :=
  match pl.trackTitles with
  | some tracks => tracks[i]?
  | none => none

/-- `PlaylistComponent::getSelectedTrack()` (src/PlaylistComponent.cpp, lines 77-81):
`*displayTrackTitles[getSelectedTrackIndex()]`; nothing where the source reads out of
bounds or through an invalid pointer. -/
def getSelectedTrack (pl : PlaylistComponent) : Option track :=
  if 0 ≤ pl.getSelectedTrackIndex then
    match pl.displayTrackTitles[pl.getSelectedTrackIndex.toNat]? with
    | some i => pl.deref i
    | none => none
  else none

/-- `PlaylistComponent::getNumRows()` (src/PlaylistComponent.cpp, lines 109-113). -/
def getNumRows (pl : PlaylistComponent) : ℕ :=
  pl.displayTrackTitles.length

/-- The tracks shown in the table, in the order of the rows. -/
def displayedTracks (pl : PlaylistComponent) : List track :=
  pl.displayTrackTitles.filterMap pl.deref

/-- `PlaylistComponent::textEditorTextChanged(e)` (src/PlaylistComponent.cpp, lines
157-185), with `e.getText()` as argument. -/
def textEditorTextChanged (pl : PlaylistComponent) (text : String) : PlaylistComponent :=
  let pl1 : PlaylistComponent := { pl with displayTrackTitles := [] }
  let size : ℕ := (pl1.trackTitles.map List.length).getD 0
  if text.isEmpty then
    (List.range size).foldl
      (fun q i => { q with displayTrackTitles := q.displayTrackTitles ++ [i] }) pl1
  else
    (List.range size).foldl
      (fun q i =>
        if ((q.deref i).map (fun t => juce.containsIgnoreCase t.title text)).getD false then
          { q with displayTrackTitles := q.displayTrackTitles ++ [i] }
        else q)
      pl1

end PlaylistComponent

/-- The members of `Library` (src/Library.h) that `deleteItem` reads or writes: the playlist,
the folders, each a name with its tracks, and the index of the selected folder. -/
structure Library where
  playlist : PlaylistComponent := {}
  trackFolders : List (String × List track) := []
  selectedFolderIndex : ℤ := -1
  deriving DecidableEq

namespace Library

/-- `Library::selectionIsValid()` (src/Library.cpp, lines 234-250). -/
def selectionIsValid (lib : Library) : Bool :=
  decide (lib.selectedFolderIndex ≥ 0 ∧ lib.selectedFolderIndex < lib.trackFolders.length)
    && lib.playlist.trackIsSelected

/-- `Library::getSelectedTrack()` (src/Library.cpp, lines 253-257). -/
def getSelectedTrack (lib : Library) : Option track :=
  lib.playlist.getSelectedTrack

/-- The loop of `Library::deleteItem` over the selected folder (src/Library.cpp, lines
265-272): the index of the first track whose identity is that of the selected track, -1 when
there is none. -/
def findSelectedTrack (lib : Library) (selectedPlaylist : List track) : ℤ :=
  let k : ℕ :=
    selectedPlaylist.findIdx
      (fun t => decide (some t.identity = lib.getSelectedTrack.map (fun s => s.identity)))
  if k < selectedPlaylist.length then (k : ℤ) else -1

/-- `Library::deleteItem()` (src/Library.cpp, lines 261-288). -/
def deleteItem (lib : Library) : Library :=
  if lib.selectedFolderIndex ≥ 0 ∧ lib.selectedFolderIndex < lib.trackFolders.length then
    if lib.playlist.trackIsSelected then
      match lib.trackFolders[lib.selectedFolderIndex.toNat]? with
      | some folder =>
        let selectedTrack : ℤ := lib.findSelectedTrack folder.2
        let selectedPlaylist : List track :=
          if selectedTrack > -1 then folder.2.eraseIdx selectedTrack.toNat else folder.2
        { lib with
          trackFolders :=
            lib.trackFolders.set lib.selectedFolderIndex.toNat (folder.1, selectedPlaylist)
          playlist := lib.playlist.setTrackTitles selectedPlaylist }
      | none => lib
    else
      if lib.trackFolders.length > 1 then
        let folders : List (String × List track) :=
          lib.trackFolders.eraseIdx lib.selectedFolderIndex.toNat
        { lib with
          trackFolders := folders
          selectedFolderIndex := 0
          playlist :=
            lib.playlist.setTrackTitles ((folders[0]?.map (fun f => f.2)).getD []) }
      else lib
  else lib

/-- `Library::cellClicked(rowNumber, ...)` (src/Library.cpp, lines 363-377): the folder of
the clicked row is selected and shown in the playlist. -/
def cellClicked (lib : Library) (rowNumber : ℤ) : Library :=
  let lib1 : Library := { lib with selectedFolderIndex := rowNumber }
  { lib1 with
    playlist :=
      lib1.playlist.setTrackTitles
        ((lib1.trackFolders[lib1.selectedFolderIndex.toNat]?.map (fun f => f.2)).getD []) }

/-- The playlist shows the selected folder: the selected folder index is the index of a
folder, `trackTitles` of the playlist points to the track vector of that folder and the
pointers of `displayTrackTitles` point into it. -/
def showsSelectedFolder (lib : Library) : Prop :=
  0 ≤ lib.selectedFolderIndex
    ∧ ∃ folder : String × List track,
        lib.trackFolders[lib.selectedFolderIndex.toNat]? = some folder
          ∧ lib.playlist.trackTitles = some folder.2
          ∧ ∀ i ∈ lib.playlist.displayTrackTitles, i < folder.2.length

/-- The text of the search box of the playlist of the library changes. -/
def searchTextChanged (lib : Library) (text : String) : Library :=
  { lib with playlist := lib.playlist.textEditorTextChanged text }

/-- Three tracks, the first and the third with the same identity. -/
def probeTracks : List track :=
  [{ title := "Intro", identity := "17" }, { title := "Verse", identity := "23" },
    { title := "Intro again", identity := "17" }]

/-- A library of two folders: the first folder holds `probeTracks`, is selected and is shown
in the playlist, where the third row is selected. -/
def probeLibrary : Library :=
  { playlist := { selectedRow := 2, trackTitles := some probeTracks,
                  displayTrackTitles := [0, 1, 2] }
    trackFolders := [("Main", probeTracks), ("Other", [{ title := "Outro", identity := "31" }])]
    selectedFolderIndex := 0 }

end Library

/-! ## Theorems -/

namespace DJAudioPlayer

/-- A call of `setGain` with an in-range value hands the product of the two stored factors
to the transport. -/
theorem setGain_inRange_gain (p : DJAudioPlayer) (g : ℚ) (isVol : Bool)
    (h0 : 0 ≤ g) (h1 : g ≤ 1) :
    (p.setGain g isVol).transportSource.gain
      = (p.setGain g isVol).playerVol * (p.setGain g isVol).crossFadeVol := by
  have hng : ¬ (g < 0 ∨ g > 1) := by
    rintro (h | h) <;> linarith
  cases isVol <;> simp [setGain, hng, juce.AudioTransportSource.setGain]

/-- The factor a call of `setGain` stores, whatever the value. -/
theorem setGain_playerVol (p : DJAudioPlayer) (g : ℚ) (isVol : Bool) :
    (p.setGain g isVol).playerVol = if isVol then g else p.playerVol := by
  cases isVol <;> by_cases h : g < 0 ∨ g > 1 <;> simp [setGain, h]

/-- The crossfade factor after a call of `setGain`, whatever the value. -/
theorem setGain_crossFadeVol (p : DJAudioPlayer) (g : ℚ) (isVol : Bool) :
    (p.setGain g isVol).crossFadeVol = if isVol then p.crossFadeVol else g := by
  cases isVol <;> by_cases h : g < 0 ∨ g > 1 <;> simp [setGain, h]

/-- C1. For every prior player state and all v1, v2 in [0,1]: after `setGain(v1, true)` and
`setGain(v2, false)`, in either order, the gain handed to the transport is `v1 * v2`. -/
theorem setGain_volume_crossfade_product (p : DJAudioPlayer) (v1 v2 : ℚ)
    (hv1 : 0 ≤ v1 ∧ v1 ≤ 1) (hv2 : 0 ≤ v2 ∧ v2 ≤ 1) :
    ((p.setGain v1 true).setGain v2 false).transportSource.gain = v1 * v2
      ∧ ((p.setGain v2 false).setGain v1 true).transportSource.gain = v1 * v2 := by
  constructor
  · rw [setGain_inRange_gain _ v2 false hv2.1 hv2.2, setGain_playerVol, setGain_crossFadeVol,
      setGain_playerVol]
    simp
  · rw [setGain_inRange_gain _ v1 true hv1.1 hv1.2, setGain_playerVol, setGain_crossFadeVol,
      setGain_crossFadeVol]
    simp

/-- Witness of C1 at volume 1/2 and crossfade 1/4 on a fresh player. -/
theorem setGain_volume_crossfade_product_witness :
    ((({} : DJAudioPlayer).setGain (1/2) true).setGain (1/4) false).transportSource.gain
        = (1/2) * (1/4)
      ∧ ((({} : DJAudioPlayer).setGain (1/4) false).setGain (1/2) true).transportSource.gain
        = (1/2) * (1/4) :=
  setGain_volume_crossfade_product {} (1/2) (1/4) (by norm_num) (by norm_num)

/-- C2, the code at the failing input: on a fresh player (volume factor 1, crossfade factor
1, transport gain 1) the out-of-range call `setGain(2, true)` leaves the transport gain at 1
but stores 2 as the volume factor, and the following in-range call `setGain(1/2, false)`
hands `2 * 1/2 = 1` to the transport, where the retained factor 1 would give 1/2. -/
theorem setGain_outOfRange_stores_value :
    (({} : DJAudioPlayer).setGain 2 true).transportSource.gain = 1
      ∧ ({} : DJAudioPlayer).playerVol = 1
      ∧ (({} : DJAudioPlayer).setGain 2 true).playerVol = 2
      ∧ ((({} : DJAudioPlayer).setGain 2 true).setGain (1/2) false).transportSource.gain = 1
      ∧ ((({} : DJAudioPlayer).setGain 2 true).setGain (1/2) false).transportSource.gain
          ≠ ({} : DJAudioPlayer).playerVol * (1/2) := by
  norm_num [setGain, juce.AudioTransportSource.setGain]

end DJAudioPlayer

namespace MainComponent

/-- C3. For every crossfader value x in [-1,1] other than 0, `sliderValueChanged` on the
crossfader sets the crossfade factors to the linear law: for x > 0 player1 (left deck) gets
`1 - x` and player2 (right deck) gets 1; for x < 0 player2 gets `1 + x` and player1 gets
1. -/
theorem sliderValueChanged_linear_law (m : MainComponent) (x : ℚ)
    (hx : m.crossFader.getValue = x) (hlo : -1 ≤ x) (hhi : x ≤ 1) (hne : x ≠ 0) :
    (0 < x →
        (m.sliderValueChanged .crossFader).player1.crossFadeVol = 1 - x
          ∧ (m.sliderValueChanged .crossFader).player2.crossFadeVol = 1)
      ∧ (x < 0 →
        (m.sliderValueChanged .crossFader).player2.crossFadeVol = 1 + x
          ∧ (m.sliderValueChanged .crossFader).player1.crossFadeVol = 1) := by
  subst hx
  constructor
  · intro hpos
    simp [sliderValueChanged, hpos, DJAudioPlayer.setGain_crossFadeVol]
  · intro hneg
    have h1 : ¬ 0 < m.crossFader.getValue := not_lt.mpr hneg.le
    simp [sliderValueChanged, h1, hneg, DJAudioPlayer.setGain_crossFadeVol]

/-- Witness of C3: the crossfader of a fresh component at 1/4. -/
theorem sliderValueChanged_linear_law_witness :
    ((0 : ℚ) < 1/4 →
        (sliderValueChanged { crossFader := { value := 1/4 } } .crossFader).player1.crossFadeVol
            = 1 - 1/4
          ∧ (sliderValueChanged { crossFader := { value := 1/4 } }
              .crossFader).player2.crossFadeVol = 1)
      ∧ ((1/4 : ℚ) < 0 →
        (sliderValueChanged { crossFader := { value := 1/4 } } .crossFader).player2.crossFadeVol
            = 1 + 1/4
          ∧ (sliderValueChanged { crossFader := { value := 1/4 } }
              .crossFader).player1.crossFadeVol = 1) :=
  sliderValueChanged_linear_law { crossFader := { value := 1/4 } } (1/4) rfl
    (by norm_num) (by norm_num) (by norm_num)

/-- C4, the code at the failing input: on a fresh component the crossfader is moved to 1/2,
which sets the crossfade factor of player1 to 1/2, and then to 0; the handler has no branch
for 0, so the crossfade factor of player1 is still 1/2 and not 1, and the gain of its
transport is still 1/2. -/
theorem moveCrossFader_to_zero_keeps_attenuation :
    ((({} : MainComponent).moveCrossFader (1/2)).moveCrossFader 0).crossFader.getValue = 0
      ∧ (({} : MainComponent).moveCrossFader (1/2)).player1.crossFadeVol = 1/2
      ∧ ((({} : MainComponent).moveCrossFader (1/2)).moveCrossFader 0).player1.crossFadeVol
          = 1/2
      ∧ ((({} : MainComponent).moveCrossFader (1/2)).moveCrossFader 0).player1.crossFadeVol
          ≠ 1
      ∧ ((({} : MainComponent).moveCrossFader (1/2)).moveCrossFader
          0).player1.transportSource.gain = 1/2 := by
  norm_num [moveCrossFader, sliderValueChanged, juce.Slider.getValue, DJAudioPlayer.setGain,
    juce.AudioTransportSource.setGain]

end MainComponent

namespace DJAudioPlayer

/-- C5 as stated fails at r = 0: 0 is outside (0, 100], yet `setSpeed(0)` on a fresh player
(ratio 1) is not rejected, the ratio in effect afterwards is 0 and not the previous 1. -/
theorem setSpeed_zero_not_rejected :
    ¬ ((0 : ℚ) < 0 ∧ (0 : ℚ) ≤ 100)
      ∧ ({} : DJAudioPlayer).resampleSource.resamplingRatio = 1
      ∧ (({} : DJAudioPlayer).setSpeed 0).resampleSource.resamplingRatio = 0
      ∧ (({} : DJAudioPlayer).setSpeed 0).resampleSource.resamplingRatio
          ≠ ({} : DJAudioPlayer).resampleSource.resamplingRatio := by
  norm_num [setSpeed, juce.ResamplingAudioSource.setResamplingRatio]

/-- C5, amended. `setSpeed(r)` applies r as the resampling ratio exactly when r is in the
closed range [0, 100]: for r in that range the ratio becomes r and nothing else changes; for
every r outside it the call is rejected and the player, the previous ratio included, is
unchanged. -/
theorem setSpeed_applies_iff_in_closed_range (p : DJAudioPlayer) (r : ℚ) :
    p.setSpeed r
      = if 0 ≤ r ∧ r ≤ 100 then { p with resampleSource := { resamplingRatio := r } } else p := by
  by_cases h : r < 0 ∨ r > 100
  · have h2 : ¬ (0 ≤ r ∧ r ≤ 100) := by
      rintro ⟨h0, h1⟩
      rcases h with h | h <;> linarith
    simp [setSpeed, h, h2]
  · have h2 : 0 ≤ r ∧ r ≤ 100 := by
      constructor
      · exact not_lt.mp (fun h0 => h (Or.inl h0))
      · exact not_lt.mp (fun h1 => h (Or.inr h1))
    simp [setSpeed, h, h2, juce.ResamplingAudioSource.setResamplingRatio]

/-- C6. `setFilter(freq)` from any prior filter state: for 0 < freq < 20000 the low-pass is
active with cutoff freq and the high-pass is inactive; for -20000 < freq < 0 the high-pass
is active with cutoff |freq| and the low-pass is inactive; for freq = 0 both are inactive,
so `setFilter(5000)` followed by `setFilter(0)` leaves the low-pass inactive. -/
theorem setFilter_three_regions (p : DJAudioPlayer) (freq : ℚ) :
    (0 < freq ∧ freq < 20000 →
        (p.setFilter freq).audioLPFilter.active = true
          ∧ (p.setFilter freq).audioLPFilter.coefficients
              = juce.IIRCoefficients.makeLowPass p.thisSampleRate freq
          ∧ (p.setFilter freq).audioLPFilter.coefficients.frequency? = some freq
          ∧ (p.setFilter freq).audioHPFilter.active = false)
      ∧ (-20000 < freq ∧ freq < 0 →
        (p.setFilter freq).audioHPFilter.active = true
          ∧ (p.setFilter freq).audioHPFilter.coefficients
              = juce.IIRCoefficients.makeHighPass p.thisSampleRate |freq|
          ∧ (p.setFilter freq).audioHPFilter.coefficients.frequency? = some |freq|
          ∧ (p.setFilter freq).audioLPFilter.active = false)
      ∧ (freq = 0 →
        (p.setFilter freq).audioLPFilter.active = false
          ∧ (p.setFilter freq).audioHPFilter.active = false)
      ∧ ((p.setFilter 5000).setFilter 0).audioLPFilter.active = false := by
  refine ⟨?_, ?_, ?_, ?_⟩
  · rintro ⟨h0, h1⟩
    have h : freq > 0 ∧ freq < 20000 := ⟨h0, h1⟩
    simp [setFilter, h, juce.IIRFilterAudioSource.setCoefficients,
      juce.IIRFilterAudioSource.makeInactive, juce.IIRCoefficients.frequency?]
  · rintro ⟨h0, h1⟩
    have hn : ¬ (freq > 0 ∧ freq < 20000) := fun h => absurd h.1 (not_lt.mpr h1.le)
    have h : freq < 0 ∧ freq > -20000 := ⟨h1, h0⟩
    have habs : |freq| = -freq := abs_of_neg h1
    simp [setFilter, hn, h, habs, juce.IIRFilterAudioSource.setCoefficients,
      juce.IIRFilterAudioSource.makeInactive, juce.IIRCoefficients.frequency?]
  · intro h
    subst h
    simp [setFilter, juce.IIRFilterAudioSource.makeInactive]
  · simp [setFilter, juce.IIRFilterAudioSource.makeInactive]

/-- C7 as stated fails: on `orderProbe` the block pulled by `getNextAudioBlock` has passed
low shelf, peak and high shelf before the low-pass kill filter, whereas in the order of the
specification the low-pass comes right after the resampler. -/
theorem getNextAudioBlock_not_spec_order :
    getNextAudioBlock traceDSP orderProbe
        = [.transport, .resampler, .lowShelf, .peak, .highShelf, .lowPass]
      ∧ renderBlockSpecOrder traceDSP orderProbe
        = [.transport, .resampler, .lowPass, .lowShelf, .peak, .highShelf]
      ∧ getNextAudioBlock traceDSP orderProbe ≠ renderBlockSpecOrder traceDSP orderProbe := by
  decide

/-- C7, amended. A deck's render passes audio through its stages in the fixed order
transport, resampler, low shelf, peak, high shelf, high-pass, low-pass: the kill filter is
applied after the three band filters, to the output of the high shelf. -/
theorem getNextAudioBlock_stage_order {Block : Type} (dsp : DSP Block) (p : DJAudioPlayer) :
    getNextAudioBlock dsp p
      = dsp.stage p.audioLPFilter
          (dsp.stage p.audioHPFilter
            (dsp.stage p.audioHBFilter
              (dsp.stage p.audioMBFilter
                (dsp.stage p.audioLBFilter
                  (dsp.resample p.resampleSource (dsp.transport p.transportSource)))))) := by
  simp [getNextAudioBlock, audioLPFilterNode, audioHPFilterNode, audioHBFilterNode,
    audioMBFilterNode, audioLBFilterNode, resampleSourceNode, AudioSource.getNextAudioBlock,
    FilterMember.state]

/-- The position in seconds after an accepted relative seek. -/
theorem setPositionRelative_inRange_position (p : DJAudioPlayer) (pos : ℚ)
    (hL : 0 ≤ p.transportSource.getLengthInSeconds) (h0 : 0 ≤ pos) (h1 : pos ≤ 1) :
    (p.setPositionRelative pos).transportSource.currentPosition
      = p.transportSource.getLengthInSeconds * pos := by
  have hng : ¬ (pos < 0 ∨ pos > 1) := by
    rintro (h | h) <;> linarith
  have hle : p.transportSource.lengthInSeconds * pos ≤ p.transportSource.lengthInSeconds := by
    have := mul_le_mul_of_nonneg_left h1 hL
    simpa [juce.AudioTransportSource.getLengthInSeconds] using this
  have hge : 0 ≤ p.transportSource.lengthInSeconds * pos := mul_nonneg hL h0
  simp [setPositionRelative, hng, setPosition, juce.AudioTransportSource.setPosition,
    juce.AudioTransportSource.getLengthInSeconds, min_eq_left hle, max_eq_right hge]

/-- A seek does not change the length of the track. -/
theorem setPositionRelative_length (p : DJAudioPlayer) (pos : ℚ) :
    (p.setPositionRelative pos).transportSource.getLengthInSeconds
      = p.transportSource.getLengthInSeconds := by
  by_cases h : pos < 0 ∨ pos > 1 <;>
    simp [setPositionRelative, h, setPosition, juce.AudioTransportSource.setPosition,
      juce.AudioTransportSource.getLengthInSeconds]

/-- C8. For every loaded track of nonzero length L and every pos in [0,1],
`setPositionRelative(pos)` followed by `getPositionRelative()` returns pos, the position in
seconds being `L * pos` in between. -/
theorem setPositionRelative_getPositionRelative (p : DJAudioPlayer) (pos : ℚ)
    (hL : 0 < p.transportSource.getLengthInSeconds) (h0 : 0 ≤ pos) (h1 : pos ≤ 1) :
    (p.setPositionRelative pos).getPositionRelative = pos
      ∧ (p.setPositionRelative pos).transportSource.getCurrentPosition
          = p.transportSource.getLengthInSeconds * pos := by
  have hpos := setPositionRelative_inRange_position p pos hL.le h0 h1
  have hlen := setPositionRelative_length p pos
  have hne : p.transportSource.getLengthInSeconds ≠ 0 := ne_of_gt hL
  refine ⟨?_, hpos⟩
  unfold getPositionRelative
  rw [hlen, if_neg hne]
  show (p.setPositionRelative pos).transportSource.currentPosition
    / p.transportSource.getLengthInSeconds = pos
  rw [hpos]
  field_simp

/-- Witness of C8: a track of 100 seconds, seek to 1/2, position 50 seconds. -/
theorem setPositionRelative_getPositionRelative_witness :
    (setPositionRelative { transportSource := { lengthInSeconds := 100 } }
        (1/2)).getPositionRelative = 1/2
      ∧ (setPositionRelative { transportSource := { lengthInSeconds := 100 } }
        (1/2)).transportSource.getCurrentPosition
          = (juce.AudioTransportSource.getLengthInSeconds { lengthInSeconds := 100 }) * (1/2) :=
  setPositionRelative_getPositionRelative { transportSource := { lengthInSeconds := 100 } }
    (1/2) (by norm_num [juce.AudioTransportSource.getLengthInSeconds]) (by norm_num)
    (by norm_num)

/-- C9 as stated fails for relative seeks: on a track of 100 seconds positioned at 50
seconds, `setPositionRelative(2)` leaves the position at 50 seconds, not at the end 100, and
`setPositionRelative(-1)` leaves it at 50 seconds, not at the start 0. -/
theorem setPositionRelative_outOfRange_does_not_clamp :
    (setPositionRelative
        { transportSource := { lengthInSeconds := 100, currentPosition := 50 } }
        2).transportSource.getCurrentPosition = 50
      ∧ (setPositionRelative
        { transportSource := { lengthInSeconds := 100, currentPosition := 50 } }
        2).transportSource.getCurrentPosition ≠ 100
      ∧ (setPositionRelative
        { transportSource := { lengthInSeconds := 100, currentPosition := 50 } }
        (-1)).transportSource.getCurrentPosition = 50
      ∧ (setPositionRelative
        { transportSource := { lengthInSeconds := 100, currentPosition := 50 } }
        (-1)).transportSource.getCurrentPosition ≠ 0 := by
  norm_num [setPositionRelative, juce.AudioTransportSource.getCurrentPosition]

/-- C9, amended. On a transport whose position is within [0, length]: a relative seek with
pos < 0 or pos > 1 is rejected and leaves the player as it was; a seek by `setPosition` to a
time below 0 puts the position at 0 and to a time above the length puts it at the length;
after either kind of seek, whatever the target, the position is within [0, length]. -/
theorem seek_stays_in_track (p : DJAudioPlayer)
    (hL : 0 ≤ p.transportSource.getLengthInSeconds)
    (hp0 : 0 ≤ p.transportSource.getCurrentPosition)
    (hp1 : p.transportSource.getCurrentPosition ≤ p.transportSource.getLengthInSeconds) :
    (∀ pos : ℚ, pos < 0 ∨ pos > 1 → p.setPositionRelative pos = p)
      ∧ (∀ t : ℚ, t < 0 → (p.setPosition t).transportSource.getCurrentPosition = 0)
      ∧ (∀ t : ℚ, t > p.transportSource.getLengthInSeconds →
          (p.setPosition t).transportSource.getCurrentPosition
            = p.transportSource.getLengthInSeconds)
      ∧ (∀ t : ℚ, 0 ≤ (p.setPosition t).transportSource.getCurrentPosition
          ∧ (p.setPosition t).transportSource.getCurrentPosition
            ≤ (p.setPosition t).transportSource.getLengthInSeconds)
      ∧ (∀ pos : ℚ, 0 ≤ (p.setPositionRelative pos).transportSource.getCurrentPosition
          ∧ (p.setPositionRelative pos).transportSource.getCurrentPosition
            ≤ (p.setPositionRelative pos).transportSource.getLengthInSeconds) := by
  simp only [juce.AudioTransportSource.getLengthInSeconds,
    juce.AudioTransportSource.getCurrentPosition] at hL hp0 hp1
  have hset : ∀ t : ℚ, 0 ≤ (p.setPosition t).transportSource.getCurrentPosition
      ∧ (p.setPosition t).transportSource.getCurrentPosition
        ≤ (p.setPosition t).transportSource.getLengthInSeconds := by
    intro t
    simp only [setPosition, juce.AudioTransportSource.setPosition,
      juce.AudioTransportSource.getCurrentPosition,
      juce.AudioTransportSource.getLengthInSeconds]
    exact ⟨le_max_left _ _, max_le hL (min_le_right _ _)⟩
  refine ⟨?_, ?_, ?_, hset, ?_⟩
  · intro pos h
    simp [setPositionRelative, h]
  · intro t ht
    simp only [setPosition, juce.AudioTransportSource.setPosition,
      juce.AudioTransportSource.getCurrentPosition]
    exact max_eq_left ((min_le_left _ _).trans ht.le)
  · intro t ht
    simp only [setPosition, juce.AudioTransportSource.setPosition,
      juce.AudioTransportSource.getCurrentPosition,
      juce.AudioTransportSource.getLengthInSeconds] at ht ⊢
    rw [min_eq_right ht.le, max_eq_right hL]
  · intro pos
    by_cases h : pos < 0 ∨ pos > 1
    · simp only [setPositionRelative, h, if_true,
        juce.AudioTransportSource.getCurrentPosition,
        juce.AudioTransportSource.getLengthInSeconds]
      exact ⟨hp0, hp1⟩
    · simp only [setPositionRelative, h, if_false]
      exact hset _

/-- Witness of C9, amended: a track of 100 seconds positioned at 50 seconds. -/
theorem seek_stays_in_track_witness :
    (setPositionRelative { transportSource := { lengthInSeconds := 100, currentPosition := 50 } }
        2).transportSource.getCurrentPosition = 50
      ∧ (setPosition { transportSource := { lengthInSeconds := 100, currentPosition := 50 } }
        (-3)).transportSource.getCurrentPosition = 0
      ∧ (setPosition { transportSource := { lengthInSeconds := 100, currentPosition := 50 } }
        130).transportSource.getCurrentPosition = 100 := by
  have h := seek_stays_in_track
    { transportSource := { lengthInSeconds := 100, currentPosition := 50 } }
    (by norm_num [juce.AudioTransportSource.getLengthInSeconds])
    (by norm_num [juce.AudioTransportSource.getCurrentPosition])
    (by norm_num [juce.AudioTransportSource.getCurrentPosition,
      juce.AudioTransportSource.getLengthInSeconds])
  refine ⟨?_, ?_, ?_⟩
  · rw [h.1 2 (Or.inr (by norm_num))]
    rfl
  · exact h.2.1 (-3) (by norm_num)
  · exact h.2.2.1 130 (by norm_num [juce.AudioTransportSource.getLengthInSeconds])

/-- C10. `getPositionRelative()` returns 0 whenever the transport length is 0; for a nonzero
length it returns currentPosition / length; and no division by zero is evaluated: with the
division made to fail on a zero divisor the function still produces its value. -/
theorem getPositionRelative_no_division_by_zero (p : DJAudioPlayer) :
    (p.transportSource.getLengthInSeconds = 0 → p.getPositionRelative = 0)
      ∧ (p.transportSource.getLengthInSeconds ≠ 0 →
          p.getPositionRelative
            = p.transportSource.getCurrentPosition / p.transportSource.getLengthInSeconds)
      ∧ p.getPositionRelativeChecked = some p.getPositionRelative
      ∧ ({} : DJAudioPlayer).getPositionRelative = 0 := by
  refine ⟨?_, ?_, ?_, ?_⟩
  · intro h
    simp [getPositionRelative, h]
  · intro h
    simp [getPositionRelative, h]
  · by_cases h : p.transportSource.getLengthInSeconds = 0
    · simp [getPositionRelative, getPositionRelativeChecked, h]
    · simp [getPositionRelative, getPositionRelativeChecked, checkedDiv, h]
  · simp [getPositionRelative, juce.AudioTransportSource.getLengthInSeconds]

end DJAudioPlayer

namespace DJAudioPlayer

/-- C18, the code at the failing input: on `oneShotProbe` the one-shot transport is
playing, the block the specification asks for is the sum `[1, 1]` of the silent main
chain and the one-shot, but `getNextAudioBlock` delivers the block `[0, 0]` of the main
chain alone; for every player and signal processing the block is the one of the main chain
and a trigger of the one-shot does not change it. -/
theorem getNextAudioBlock_ignores_one_shot :
    oneShotProbe.drumTransportSource.isPlaying = true
      ∧ getNextAudioBlock probeDSP oneShotProbe = [0, 0]
      ∧ renderBlockWithOneShotSpec probeDSP oneShotProbe = [1, 1]
      ∧ getNextAudioBlock probeDSP oneShotProbe
          ≠ renderBlockWithOneShotSpec probeDSP oneShotProbe
      ∧ (∀ (dsp : DSP (List ℚ)) (p : DJAudioPlayer),
          getNextAudioBlock dsp p.playDrum = getNextAudioBlock dsp p
            ∧ getNextAudioBlock dsp p = audioLPFilterNode.getNextAudioBlock dsp p) := by
  have hdrum : oneShotProbe.drumTransportSource
      = { lengthInSeconds := 1, currentPosition := 0, gain := 1, playing := true } := by
    simp [oneShotProbe, loadDrumSample, probeFormatManager, playDrum,
      juce.AudioTransportSource.setSource, juce.AudioTransportSource.isPlaying,
      juce.AudioTransportSource.start, juce.AudioFormatReader.lengthInSeconds]
  have hmain : getNextAudioBlock probeDSP oneShotProbe = [0, 0] := by decide
  have hspec : renderBlockWithOneShotSpec probeDSP oneShotProbe = [1, 1] := by
    have hm : audioLPFilterNode.getNextAudioBlock probeDSP oneShotProbe = [0, 0] := hmain
    unfold renderBlockWithOneShotSpec
    rw [hm, hdrum]
    simp [probeDSP]
  refine ⟨by decide, hmain, hspec, ?_, ?_⟩
  · rw [hmain, hspec]
    simp
  intro dsp p
  refine ⟨?_, rfl⟩
  by_cases h : p.drumTransportSource.isPlaying <;>
    simp [playDrum, h, getNextAudioBlock, audioLPFilterNode, audioHPFilterNode,
      audioHBFilterNode, audioMBFilterNode, audioLBFilterNode, resampleSourceNode,
      AudioSource.getNextAudioBlock, FilterMember.state]

/-- C19, the code at the failing input: on a fresh player (both factors 1) the rejected call
`setGain(2, true)` followed by the in-range call `setGain(1, false)` hands the gain 2 to
the transport, which is outside [0, 1]. It is the defect of C2 seen from the transport. -/
theorem setGain_sequence_leaves_unit_interval :
    ((({} : DJAudioPlayer).setGain 2 true).setGain 1 false).transportSource.gain = 2
      ∧ ¬ (0 ≤ ((({} : DJAudioPlayer).setGain 2 true).setGain 1 false).transportSource.gain
          ∧ ((({} : DJAudioPlayer).setGain 2 true).setGain 1 false).transportSource.gain
            ≤ 1) := by
  norm_num [setGain, juce.AudioTransportSource.setGain]

/-- One call of `setFilter` never leaves both kill stages active, whatever they were. -/
theorem setFilter_not_both_active (p : DJAudioPlayer) (freq : ℚ)
    (h : ¬ (p.audioLPFilter.active = true ∧ p.audioHPFilter.active = true)) :
    ¬ ((p.setFilter freq).audioLPFilter.active = true
        ∧ (p.setFilter freq).audioHPFilter.active = true) := by
  unfold setFilter
  split_ifs <;>
    simp_all [juce.IIRFilterAudioSource.setCoefficients, juce.IIRFilterAudioSource.makeInactive]

/-- C20. Starting with both kill stages inactive, after any sequence of `setFilter` calls
with arbitrary arguments the low-pass and the high-pass are not both active. -/
theorem setFilter_sequence_mutually_exclusive (freqs : List ℚ) (p : DJAudioPlayer)
    (hLP : p.audioLPFilter.active = false) (hHP : p.audioHPFilter.active = false) :
    ¬ ((freqs.foldl setFilter p).audioLPFilter.active = true
        ∧ (freqs.foldl setFilter p).audioHPFilter.active = true) := by
  have key : ∀ (fs : List ℚ) (q : DJAudioPlayer),
      ¬ (q.audioLPFilter.active = true ∧ q.audioHPFilter.active = true) →
      ¬ ((fs.foldl setFilter q).audioLPFilter.active = true
          ∧ (fs.foldl setFilter q).audioHPFilter.active = true) := by
    intro fs
    induction fs with
    | nil => intro q hq; simpa using hq
    | cons f fs ih =>
      intro q hq
      simpa [List.foldl] using ih (q.setFilter f) (setFilter_not_both_active q f hq)
  apply key
  simp [hLP, hHP]

/-- Witness of C20: the knob turned to 5000, -300, 25000, 0 and 120 on a fresh player. -/
theorem setFilter_sequence_mutually_exclusive_witness :
    ¬ ((([5000, -300, 25000, 0, 120] : List ℚ).foldl setFilter {}).audioLPFilter.active = true
        ∧ (([5000, -300, 25000, 0, 120] : List ℚ).foldl setFilter {}).audioHPFilter.active
          = true) :=
  setFilter_sequence_mutually_exclusive [5000, -300, 25000, 0, 120] {} rfl rfl

end DJAudioPlayer

namespace DeckGUI

/-- In the loop over the cue buttons only the clicked button acts. -/
theorem cueStep_fold (rnd : RandCall) (d : DeckGUI) (i : Fin 6) :
    ([0, 1, 2, 3, 4, 5] : List (Fin 6)).foldl (cueStep rnd (.cue i)) d
      = cueStep rnd (.cue i) d i := by
  fin_cases i <;> simp [List.foldl, cueStep]

/-- A click on a cue button of a loaded deck: the cue step of that button, then the player
is started or stopped according to the play mode. -/
theorem buttonClicked_cue (formatManager : juce.AudioFormatManager) (lib : LibrarySelection)
    (rnd : RandCall) (d : DeckGUI) (i : Fin 6) (hl : d.player.isLoaded = true) :
    d.buttonClicked formatManager lib rnd (.cue i)
      = { cueStep rnd (.cue i) d i with
          player :=
            if (cueStep rnd (.cue i) d i).modeIsPlaying then (cueStep rnd (.cue i) d i).player.start
            else (cueStep rnd (.cue i) d i).player.stop } := by
  simp [buttonClicked, clickPlayButton, clickLoadButton, clickDrumButtons, clickCueButtons,
    applyPlayMode, hl, cueStep_fold, -List.foldl_cons]

/-- After a failed load the player of the deck reports that it is not loaded. -/
theorem loadDeck_isLoaded_of_failure (formatManager : juce.AudioFormatManager) (d : DeckGUI)
    (t : track) (hfail : formatManager t.url = none) :
    (d.loadDeck formatManager t).player.isLoaded = false := by
  unfold loadDeck
  simp only [DJAudioPlayer.loadURL, hfail, DJAudioPlayer.isLoaded]
  split_ifs <;> simp_all [DJAudioPlayer.setGain, DJAudioPlayer.start] <;> split_ifs <;> rfl

/-- The failure path of `loadDeck`: the displays are not reloaded, they keep the pointers
they hold, and the cue map is cleared all the same. -/
theorem loadDeck_of_failure (formatManager : juce.AudioFormatManager) (d : DeckGUI)
    (t : track) (hfail : formatManager t.url = none) :
    (∀ i : Fin 3, (d.loadDeck formatManager t).display i = d.display i)
      ∧ ∀ p : Fin 6, (d.loadDeck formatManager t).cueTargets p = none := by
  have hl : (d.player.loadURL formatManager t.url).isLoaded = false := by
    simp only [DJAudioPlayer.loadURL, hfail, DJAudioPlayer.isLoaded]
  constructor
  · intro i
    unfold loadDeck
    simp only [hl, Bool.false_eq_true, if_false]
    split_ifs <;> fin_cases i <;> rfl
  · intro p
    unfold loadDeck
    simp only []
    split_ifs <;> rfl

/-- After a failed load every pointer that a display holds dangles. -/
theorem loadDeck_failure_dangling (formatManager : juce.AudioFormatManager) (d : DeckGUI)
    (t : track) (hfail : formatManager t.url = none) (i : Fin 3) :
    (d.loadDeck formatManager t).danglingCueTargets i = (d.display i).cueTargets
      ∧ ((d.loadDeck formatManager t).display i).isFileLoaded = (d.display i).isFileLoaded := by
  obtain ⟨hd, hc⟩ := loadDeck_of_failure formatManager d t hfail
  unfold danglingCueTargets
  rw [hd i]
  refine ⟨?_, rfl⟩
  apply List.filter_eq_self.mpr
  intro p _
  rw [hc p]
  rfl

/-- C12, the code at the failing input: on `cueProbe`, whose first cue slot is set and is
marked on the waveform display and on the zoomed display, the load of `missing.wav` fails
(`isLoaded()` is false afterwards) and yet the cue collection is empty afterwards, where the
claim has it unchanged. The two displays were not reloaded: they still report a loaded
file and still hold the pointer to the pair of the first slot, whose node `clear()` has
destroyed, so that their `paint` reads through a dangling pointer. -/
theorem loadDeck_failure_clears_cues :
    probeFormatManager "missing.wav" = none
      ∧ (cueProbe.cueTargets 0 = some (1 / 4, 0)
        ∧ cueProbe.danglingCueTargets 0 = [] ∧ cueProbe.danglingCueTargets 1 = [])
      ∧ (cueProbe.loadDeck probeFormatManager { url := "missing.wav" }).player.isLoaded = false
      ∧ (cueProbe.loadDeck probeFormatManager { url := "missing.wav" }).cueTargets 0 = none
      ∧ (cueProbe.loadDeck probeFormatManager { url := "missing.wav" }).cueTargets
          ≠ cueProbe.cueTargets
      ∧ ((cueProbe.loadDeck probeFormatManager
            { url := "missing.wav" }).waveformDisplay.isFileLoaded = true
        ∧ (cueProbe.loadDeck probeFormatManager { url := "missing.wav" }).danglingCueTargets 0
            = [0])
      ∧ ((cueProbe.loadDeck probeFormatManager
            { url := "missing.wav" }).zoomedDisplay.isFileLoaded = true
        ∧ (cueProbe.loadDeck probeFormatManager { url := "missing.wav" }).danglingCueTargets 1
            = [0]) := by
  have h0 : probeFormatManager "missing.wav" = none := by decide
  have h0' : probeFormatManager ({ url := "missing.wav" } : track).url = none := h0
  have h1 : cueProbe.cueTargets 0 = some (1 / 4, 0) := by simp [cueProbe]
  have hd0 : cueProbe.danglingCueTargets 0 = [] := by
    simp [danglingCueTargets, display, cueProbe]
  have hd1 : cueProbe.danglingCueTargets 1 = [] := by
    simp [danglingCueTargets, display, cueProbe]
  obtain ⟨hdisp, hclear⟩ := loadDeck_of_failure probeFormatManager cueProbe _ h0'
  have h3 := hclear 0
  refine ⟨h0, ⟨h1, hd0, hd1⟩, loadDeck_isLoaded_of_failure _ _ _ h0, h3, ?_, ⟨?_, ?_⟩, ⟨?_, ?_⟩⟩
  · intro h
    rw [h, h1] at h3
    exact Option.noConfusion h3
  · exact (congrArg WaveformDisplay.isFileLoaded (hdisp 0)).trans rfl
  · exact (loadDeck_failure_dangling probeFormatManager cueProbe _ h0' 0).1.trans rfl
  · exact (congrArg WaveformDisplay.isFileLoaded (hdisp 1)).trans rfl
  · exact (loadDeck_failure_dangling probeFormatManager cueProbe _ h0' 1).1.trans rfl

end DeckGUI

namespace DeckGUI

/-- A successful load: the player and the displays hold the track, no cue is stored and no
display holds a cue pointer. -/
theorem loadDeck_of_success (formatManager : juce.AudioFormatManager) (d : DeckGUI)
    (t : track) (reader : juce.AudioFormatReader) (h : formatManager t.url = some reader) :
    (d.loadDeck formatManager t).player.isLoaded = true
      ∧ (∀ i : Fin 3, ((d.loadDeck formatManager t).display i).isFileLoaded = true
          ∧ ((d.loadDeck formatManager t).display i).cueTargets = [])
      ∧ ∀ p : Fin 6, (d.loadDeck formatManager t).cueTargets p = none := by
  have hl : (d.player.loadURL formatManager t.url).isLoaded = true := by
    simp only [DJAudioPlayer.loadURL, h, DJAudioPlayer.isLoaded]
  have hw : ∀ w : WaveformDisplay, (w.loadTrack formatManager t).isFileLoaded = true
      ∧ (w.loadTrack formatManager t).cueTargets = [] := by
    intro w
    simp only [WaveformDisplay.loadTrack, WaveformDisplay.loadURL, h,
      WaveformDisplay.setPositionRelative, WaveformDisplay.isFileLoaded]
    split_ifs <;> exact ⟨rfl, rfl⟩
  refine ⟨?_, ?_, ?_⟩
  · unfold loadDeck
    simp only [hl, if_true]
    split_ifs <;>
      simp [DJAudioPlayer.setGain, DJAudioPlayer.start, DJAudioPlayer.isLoaded, setDisplay,
        display, List.foldl] <;>
      split_ifs <;> exact hl
  · intro i
    unfold loadDeck
    simp only [hl, if_true]
    split_ifs <;> fin_cases i <;>
      simp only [List.foldl, setDisplay, display] <;> exact hw _
  · intro p
    unfold loadDeck
    simp only []
    split_ifs <;> rfl

end DeckGUI

namespace DeckGUI

/-- A click on the load button with a valid selection is `loadDeck`, but for the player,
which the last statement of the handler starts or stops. -/
theorem buttonClicked_load (formatManager : juce.AudioFormatManager) (lib : LibrarySelection)
    (rnd : RandCall) (d : DeckGUI) (hv : lib.selectionIsValid = true) :
    (∀ i : Fin 3, (d.buttonClicked formatManager lib rnd .loadButton).display i
        = (d.loadDeck formatManager lib.selectedTrack).display i)
      ∧ (d.buttonClicked formatManager lib rnd .loadButton).cueTargets
          = (d.loadDeck formatManager lib.selectedTrack).cueTargets
      ∧ (d.buttonClicked formatManager lib rnd .loadButton).player.isLoaded
          = (d.loadDeck formatManager lib.selectedTrack).player.isLoaded := by
  have hcue : ∀ e : DeckGUI,
      ([0, 1, 2, 3, 4, 5] : List (Fin 6)).foldl (cueStep rnd .loadButton) e = e := by
    intro e
    simp [List.foldl, cueStep]
  have hfold : ∀ e : DeckGUI, clickCueButtons rnd .loadButton e = e := by
    intro e
    unfold clickCueButtons
    rw [hcue]
    split_ifs <;> rfl
  have hdrum : ∀ e : DeckGUI, clickDrumButtons formatManager .loadButton e = e := by
    intro e
    simp [clickDrumButtons]
  have hstate : d.buttonClicked formatManager lib rnd .loadButton
      = applyPlayMode (d.loadDeck formatManager lib.selectedTrack) := by
    simp only [buttonClicked, hfold, hdrum, clickLoadButton, clickPlayButton, hv, reduceCtorEq,
      if_false, and_self, if_true]
  rw [hstate]
  refine ⟨fun i => ?_, rfl, ?_⟩
  · fin_cases i <;> rfl
  · unfold applyPlayMode
    simp only [DJAudioPlayer.isLoaded]
    split_ifs <;> rfl

/-- A click on an unused cue button of a loaded deck: the waveform display and the zoomed
display hold a pointer to the pair stored for the button, and they report a loaded file as
before. -/
theorem buttonClicked_cue_marks (formatManager : juce.AudioFormatManager)
    (lib : LibrarySelection) (rnd : RandCall) (d : DeckGUI) (i : Fin 6)
    (hl : d.player.isLoaded = true) (hunset : d.cueTargets i = none) :
    i ∈ (d.buttonClicked formatManager lib rnd (.cue i)).waveformDisplay.cueTargets
      ∧ i ∈ (d.buttonClicked formatManager lib rnd (.cue i)).zoomedDisplay.cueTargets
      ∧ (d.buttonClicked formatManager lib rnd (.cue i)).waveformDisplay.isFileLoaded
          = d.waveformDisplay.isFileLoaded
      ∧ (d.buttonClicked formatManager lib rnd (.cue i)).zoomedDisplay.isFileLoaded
          = d.zoomedDisplay.isFileLoaded := by
  rw [buttonClicked_cue formatManager lib rnd d i hl]
  have hmem : ∀ f : Fin 6 → Option (ℚ × ℚ), (f i).isSome = true →
      i ∈ ([0, 1, 2, 3, 4, 5] : List (Fin 6)).filter (fun j => (f j).isSome) := by
    intro f hf
    rw [List.mem_filter]
    refine ⟨?_, hf⟩
    fin_cases i <;> simp
  simp only [cueStep, if_true, hunset, WaveformDisplay.setCuePoints,
    WaveformDisplay.isFileLoaded]
  refine ⟨hmem _ ?_, hmem _ ?_, trivial, trivial⟩ <;> simp [Function.update_same]

end DeckGUI

namespace DeckGUI

/-- From any deck: a track is loaded, an unused cue button is clicked, then a load fails.
Afterwards the cue map is empty, and the waveform display and the zoomed display, which
still report a loaded file, hold a dangling pointer to the pair of that button. -/
theorem failed_load_after_cue_dangles (formatManager : juce.AudioFormatManager) (d : DeckGUI)
    (lib1 lib2 lib3 : LibrarySelection) (rnd1 rnd2 rnd3 : RandCall) (i : Fin 6)
    (reader : juce.AudioFormatReader)
    (hv1 : lib1.selectionIsValid = true)
    (h1 : formatManager lib1.selectedTrack.url = some reader)
    (hv3 : lib3.selectionIsValid = true)
    (h3 : formatManager lib3.selectedTrack.url = none) :
    (∀ p : Fin 6,
        (((d.buttonClicked formatManager lib1 rnd1 .loadButton).buttonClicked formatManager
          lib2 rnd2 (.cue i)).buttonClicked formatManager lib3 rnd3 .loadButton).cueTargets p
          = none)
      ∧ ∀ k : Fin 3, k ≠ 2 →
          ((((d.buttonClicked formatManager lib1 rnd1 .loadButton).buttonClicked formatManager
            lib2 rnd2 (.cue i)).buttonClicked formatManager lib3 rnd3 .loadButton).display
              k).isFileLoaded = true
            ∧ i ∈ (((d.buttonClicked formatManager lib1 rnd1 .loadButton).buttonClicked
                formatManager lib2 rnd2 (.cue i)).buttonClicked formatManager lib3 rnd3
                  .loadButton).danglingCueTargets k := by
  obtain ⟨a1, a2, a3⟩ := buttonClicked_load formatManager lib1 rnd1 d hv1
  obtain ⟨s1, s2, s3⟩ := loadDeck_of_success formatManager d lib1.selectedTrack reader h1
  have hl : (d.buttonClicked formatManager lib1 rnd1 .loadButton).player.isLoaded = true :=
    a3.trans s1
  have hunset : (d.buttonClicked formatManager lib1 rnd1 .loadButton).cueTargets i = none := by
    rw [a2]; exact s3 i
  obtain ⟨m0, m1, f0, f1⟩ := buttonClicked_cue_marks formatManager lib2 rnd2
    (d.buttonClicked formatManager lib1 rnd1 .loadButton) i hl hunset
  obtain ⟨c1, c2, _⟩ := buttonClicked_load formatManager lib3 rnd3
    ((d.buttonClicked formatManager lib1 rnd1 .loadButton).buttonClicked formatManager
      lib2 rnd2 (.cue i)) hv3
  obtain ⟨q1, q2⟩ := loadDeck_of_failure formatManager
    ((d.buttonClicked formatManager lib1 rnd1 .loadButton).buttonClicked formatManager
      lib2 rnd2 (.cue i)) lib3.selectedTrack h3
  have hnone : ∀ p : Fin 6,
      (((d.buttonClicked formatManager lib1 rnd1 .loadButton).buttonClicked formatManager
        lib2 rnd2 (.cue i)).buttonClicked formatManager lib3 rnd3 .loadButton).cueTargets p
        = none := by
    intro p
    rw [c2]; exact q2 p
  refine ⟨hnone, ?_⟩
  intro k hk
  have hdisp := (c1 k).trans (q1 k)
  unfold danglingCueTargets
  rw [hdisp]
  have hw0 : (d.buttonClicked formatManager lib1 rnd1 .loadButton).waveformDisplay.isFileLoaded
      = true :=
    (congrArg WaveformDisplay.isFileLoaded (a1 0)).trans (s2 0).1
  have hz0 : (d.buttonClicked formatManager lib1 rnd1 .loadButton).zoomedDisplay.isFileLoaded
      = true :=
    (congrArg WaveformDisplay.isFileLoaded (a1 1)).trans (s2 1).1
  fin_cases k
  · refine ⟨f0.trans hw0, List.mem_filter.mpr ⟨m0, ?_⟩⟩
    rw [hnone i]; rfl
  · refine ⟨f1.trans hz0, List.mem_filter.mpr ⟨m1, ?_⟩⟩
    rw [hnone i]; rfl
  · exact absurd rfl hk

end DeckGUI

namespace DeckGUI

/-- The defect on a deck as constructed: `deck.wav` is loaded, the first cue button is
clicked, then the load of `missing.wav` fails. The waveform display still reports a loaded
file and holds a dangling pointer to the pair of the first cue button. -/
theorem failed_load_after_cue_dangles_from_construction :
    (((constructed probeFormatManager {}).run probeFormatManager
        [.buttonClicked
            { selectionIsValid := true, selectedTrack := { title := "deck", url := "deck.wav" } }
            {} .loadButton,
          .buttonClicked {} {} (.cue 0),
          .buttonClicked { selectionIsValid := true, selectedTrack := { url := "missing.wav" } }
            {} .loadButton]).display 0).isFileLoaded = true
      ∧ 0 ∈ ((constructed probeFormatManager {}).run probeFormatManager
          [.buttonClicked
              { selectionIsValid := true, selectedTrack := { title := "deck", url := "deck.wav" } }
              {} .loadButton,
            .buttonClicked {} {} (.cue 0),
            .buttonClicked { selectionIsValid := true, selectedTrack := { url := "missing.wav" } }
              {} .loadButton]).danglingCueTargets 0 :=
  (failed_load_after_cue_dangles probeFormatManager (constructed probeFormatManager {})
    { selectionIsValid := true, selectedTrack := { title := "deck", url := "deck.wav" } } {}
    { selectionIsValid := true, selectedTrack := { url := "missing.wav" } } {} {} {} 0
    { sampleRate := 44100, lengthInSamples := 4410000 } rfl (by simp [probeFormatManager]) rfl
    (by simp [probeFormatManager])).2 0 (by decide)

end DeckGUI

namespace DJAudioPlayer

/-- The relative position of a player whose position is within its track lies in [0, 1], and
the length times the relative position is the position. -/
theorem getPositionRelative_bounds (p : DJAudioPlayer)
    (hp0 : 0 ≤ p.transportSource.getCurrentPosition)
    (hp1 : p.transportSource.getCurrentPosition ≤ p.transportSource.getLengthInSeconds) :
    0 ≤ p.getPositionRelative ∧ p.getPositionRelative ≤ 1
      ∧ p.transportSource.getLengthInSeconds * p.getPositionRelative
          = p.transportSource.getCurrentPosition := by
  unfold getPositionRelative
  by_cases hL : p.transportSource.getLengthInSeconds = 0
  · rw [if_pos hL]
    refine ⟨le_refl _, zero_le_one, ?_⟩
    rw [hL] at hp1
    rw [mul_zero]
    exact le_antisymm hp0 hp1
  · rw [if_neg hL]
    have hpos : 0 < p.transportSource.getLengthInSeconds :=
      lt_of_le_of_ne (hp0.trans hp1) (Ne.symm hL)
    refine ⟨div_nonneg hp0 hpos.le, (div_le_one hpos).mpr hp1, ?_⟩
    field_simp

end DJAudioPlayer

namespace DeckGUI

/-- C13. On a loaded deck whose position is within the track, the first click on a cue
button with an unset slot stores the current relative position of the player (with the hue
drawn by `rand()`) and changes neither the position of the player nor the play mode; the
next click on the same button, in whatever state the deck is then with that cue and that
track, seeks the player to the stored position and leaves the deck playing:
`modeIsPlaying` is true and the player is started, whatever the mode was before. -/
theorem cue_click_stores_then_jumps (formatManager : juce.AudioFormatManager)
    (lib lib2 : LibrarySelection) (rnd rnd2 : RandCall) (d : DeckGUI) (i : Fin 6)
    (hloaded : d.player.isLoaded = true) (hunset : d.cueTargets i = none)
    (hp0 : 0 ≤ d.player.transportSource.getCurrentPosition)
    (hp1 : d.player.transportSource.getCurrentPosition
      ≤ d.player.transportSource.getLengthInSeconds) :
    (d.buttonClicked formatManager lib rnd (.cue i)).cueTargets i
        = some (d.player.getPositionRelative, rnd.hue)
      ∧ (d.buttonClicked formatManager lib rnd (.cue i)).player.transportSource.getCurrentPosition
        = d.player.transportSource.getCurrentPosition
      ∧ (d.buttonClicked formatManager lib rnd (.cue i)).modeIsPlaying = d.modeIsPlaying
      ∧ ∀ e : DeckGUI, e.player.isLoaded = true →
          e.cueTargets i = (d.buttonClicked formatManager lib rnd (.cue i)).cueTargets i →
          e.player.transportSource.getLengthInSeconds
            = d.player.transportSource.getLengthInSeconds →
          (e.buttonClicked formatManager lib2 rnd2 (.cue i)).player.getPositionRelative
              = d.player.getPositionRelative
            ∧ (e.buttonClicked formatManager lib2 rnd2
                (.cue i)).player.transportSource.getCurrentPosition
              = d.player.transportSource.getCurrentPosition
            ∧ (e.buttonClicked formatManager lib2 rnd2 (.cue i)).modeIsPlaying = true
            ∧ (e.buttonClicked formatManager lib2 rnd2 (.cue i)).player.isPlaying = true := by
  have hfirst : (d.buttonClicked formatManager lib rnd (.cue i)).cueTargets i
      = some (d.player.getPositionRelative, rnd.hue) := by
    rw [buttonClicked_cue _ _ _ _ _ hloaded]
    simp [cueStep, hunset]
  refine ⟨hfirst, ?_, ?_, ?_⟩
  · rw [buttonClicked_cue _ _ _ _ _ hloaded]
    simp only [cueStep, hunset, if_true]
    split_ifs <;> rfl
  · rw [buttonClicked_cue _ _ _ _ _ hloaded]
    simp [cueStep, hunset]
  · intro e heload hecue helen
    rw [hfirst] at hecue
    obtain ⟨hs0, hs1, hmul⟩ := DJAudioPlayer.getPositionRelative_bounds d.player hp0 hp1
    have hL : 0 ≤ e.player.transportSource.getLengthInSeconds := by
      rw [helen]; exact hp0.trans hp1
    have hposE := DJAudioPlayer.setPositionRelative_inRange_position e.player
      d.player.getPositionRelative hL hs0 hs1
    have hlenE := DJAudioPlayer.setPositionRelative_length e.player d.player.getPositionRelative
    rw [helen, hmul] at hposE
    rw [helen] at hlenE
    rw [buttonClicked_cue _ _ _ _ _ heload]
    have hplayer : ∀ q : DJAudioPlayer,
        q.transportSource.currentPosition = d.player.transportSource.getCurrentPosition →
        q.transportSource.getLengthInSeconds = d.player.transportSource.getLengthInSeconds →
        q.start.getPositionRelative = d.player.getPositionRelative
          ∧ q.start.transportSource.getCurrentPosition
            = d.player.transportSource.getCurrentPosition
          ∧ q.start.isPlaying = true := by
      intro q hq1 hq2
      simp only [DJAudioPlayer.getPositionRelative, DJAudioPlayer.start,
        juce.AudioTransportSource.start, juce.AudioTransportSource.getLengthInSeconds,
        juce.AudioTransportSource.getCurrentPosition, DJAudioPlayer.isPlaying,
        juce.AudioTransportSource.isPlaying] at hq1 hq2 ⊢
      rw [hq1, hq2]
      exact ⟨rfl, rfl, trivial⟩
    obtain ⟨g1, g2, g3⟩ := hplayer _ hposE hlenE
    by_cases hm : e.modeIsPlaying = true
    · simp [cueStep, hecue, hm, g1, g2, g3]
    · simp [cueStep, hecue, hm, g1, g2, g3]

/-- Witness of C13: the first cue button of a loaded deck standing at second 25 of 100. -/
theorem cue_click_stores_then_jumps_witness :
    (buttonClicked probeFormatManager {} {} { cueProbe with cueTargets := fun _ => none }
        (.cue 0)).cueTargets 0
      = some (DJAudioPlayer.getPositionRelative loadedPlayer, RandCall.hue {}) :=
  (cue_click_stores_then_jumps probeFormatManager {} {} {} {}
    { cueProbe with cueTargets := fun _ => none } 0 rfl rfl
    (by norm_num [cueProbe, loadedPlayer, juce.AudioTransportSource.getCurrentPosition])
    (by norm_num [cueProbe, loadedPlayer, juce.AudioTransportSource.getCurrentPosition,
      juce.AudioTransportSource.getLengthInSeconds])).1

end DeckGUI

namespace DeckGUI

/-- One pass of the loop over the cue buttons keeps every slot that is set. -/
theorem cueStep_keeps_slot (rnd : RandCall) (button : DeckButton) (d : DeckGUI) (j i : Fin 6)
    (c : ℚ × ℚ) (h : d.cueTargets i = some c) :
    (cueStep rnd button d j).cueTargets i = some c := by
  unfold cueStep
  by_cases hb : button = .cue j
  · rw [if_pos hb]
    cases hj : d.cueTargets j with
    | some target =>
      simp only []
      split_ifs <;> exact h
    | none =>
      have hij : i ≠ j := by
        intro hij
        rw [hij, hj] at h
        exact Option.noConfusion h
      simp [Function.update_noteq hij, h]
  · rw [if_neg hb]
    exact h

/-- The loop over the cue buttons keeps every slot that is set. -/
theorem cueStep_foldl_keeps_slot (rnd : RandCall) (button : DeckButton) (js : List (Fin 6))
    (d : DeckGUI) (i : Fin 6) (c : ℚ × ℚ) (h : d.cueTargets i = some c) :
    (js.foldl (cueStep rnd button) d).cueTargets i = some c := by
  induction js generalizing d with
  | nil => exact h
  | cons j js ih => exact ih _ (cueStep_keeps_slot rnd button d j i c h)

/-- A click that does not call `loadDeck` keeps every cue slot that is set. -/
theorem buttonClicked_keeps_slot (formatManager : juce.AudioFormatManager)
    (lib : LibrarySelection) (rnd : RandCall) (d : DeckGUI) (button : DeckButton)
    (hno : ¬ (button = .loadButton ∧ lib.selectionIsValid = true)) (i : Fin 6) (c : ℚ × ℚ)
    (h : d.cueTargets i = some c) :
    (d.buttonClicked formatManager lib rnd button).cueTargets i = some c := by
  have h1 : (clickPlayButton button d).cueTargets i = some c := by
    unfold clickPlayButton
    split_ifs <;> exact h
  have h2 : (clickLoadButton formatManager lib button (clickPlayButton button d)).cueTargets i
      = some c := by
    unfold clickLoadButton
    rw [if_neg hno]
    exact h1
  have h3 : ∀ e : DeckGUI, e.cueTargets i = some c →
      (clickDrumButtons formatManager button e).cueTargets i = some c := by
    intro e he
    unfold clickDrumButtons
    simp only []
    split_ifs <;> exact he
  have h4 : ∀ e : DeckGUI, e.cueTargets i = some c →
      (clickCueButtons rnd button e).cueTargets i = some c := by
    intro e he
    unfold clickCueButtons
    split_ifs
    · exact cueStep_foldl_keeps_slot rnd button _ e i c he
    · exact he
  exact h4 _ (h3 _ h2)

/-- One pass of the loop of the timer over the displays leaves the cue map as it is. -/
theorem timerStep_cueTargets (d : DeckGUI) (j : Fin 3) :
    (timerStep d j).cueTargets = d.cueTargets := by
  unfold timerStep
  fin_cases j <;> simp only [setDisplay] <;> split_ifs <;> rfl

/-- A timer tick leaves the cue map as it is. -/
theorem timerCallback_cueTargets (d : DeckGUI) :
    d.timerCallback.cueTargets = d.cueTargets := by
  unfold timerCallback
  simp only [List.foldl]
  split_ifs <;> simp only [timerStep_cueTargets]

/-- A slider move leaves the cue map as it is. -/
theorem sliderMoved_cueTargets (d : DeckGUI) (slider : DeckSlider) (v : ℚ) :
    ((d.setSliderValue slider v).sliderValueChanged slider).cueTargets = d.cueTargets := by
  cases slider <;> rfl

/-- A mouse event on a display leaves the cue map as it is. -/
theorem mouse_cueTargets (d : DeckGUI) (e : MouseEvent) :
    (d.mouse e).cueTargets = d.cueTargets := by
  cases e <;> rfl

/-- C14. A set cue slot is never overwritten: for every sequence of button clicks, slider
moves, timer ticks and mouse events on a deck in which no handler calls `loadDeck`, a slot
that has a stored cue keeps its stored position and hue. -/
theorem cue_slot_never_overwritten (formatManager : juce.AudioFormatManager)
    (events : List DeckEvent) (d : DeckGUI) (i : Fin 6) (c : ℚ × ℚ)
    (hno : ∀ e ∈ events, e.callsLoadDeck = false) (hset : d.cueTargets i = some c) :
    (d.run formatManager events).cueTargets i = some c := by
  unfold run
  induction events generalizing d with
  | nil => exact hset
  | cons e es ih =>
    have he : e.callsLoadDeck = false := hno e (List.mem_cons_self e es)
    have hes : ∀ x ∈ es, x.callsLoadDeck = false :=
      fun x hx => hno x (List.mem_cons_of_mem e hx)
    refine ih (handle formatManager d e) hes ?_
    cases e with
    | buttonClicked lib rnd button =>
      apply buttonClicked_keeps_slot _ _ _ _ _ _ i c hset
      simpa [DeckEvent.callsLoadDeck] using he
    | sliderMoved slider v =>
      show ((d.setSliderValue slider v).sliderValueChanged slider).cueTargets i = some c
      rw [sliderMoved_cueTargets]; exact hset
    | timerTick =>
      show d.timerCallback.cueTargets i = some c
      rw [timerCallback_cueTargets]; exact hset
    | mouse m =>
      show (d.mouse m).cueTargets i = some c
      rw [mouse_cueTargets]; exact hset

/-- Witness of C14: on `cueProbe` the first cue button is clicked again, the second one is
set, the deck is played, dragged and ticked; the first slot keeps its cue. -/
theorem cue_slot_never_overwritten_witness :
    (cueProbe.run probeFormatManager
      [.buttonClicked {} { value := 7 } (.cue 0), .timerTick,
        .buttonClicked {} { value := 9 } (.cue 1), .buttonClicked {} {} .playButton,
        .buttonClicked {} {} .loadButton, .sliderMoved .volSlider 2,
        .mouse (.waveformDown 30 100), .timerTick, .mouse .waveformUp, .timerTick]).cueTargets 0
      = some (1 / 4, 0) :=
  cue_slot_never_overwritten probeFormatManager _ cueProbe 0 (1 / 4, 0)
    (by simp [DeckEvent.callsLoadDeck]) (by simp [cueProbe])

end DeckGUI

namespace DeckGUI

/-- The pass of the timer loop for a loaded display that is being dragged. -/
theorem timerStep_dragged (d : DeckGUI) (i : Fin 3)
    (hl : (d.display i).isFileLoaded = true) (hd : (d.display i).isSliderDragged = true) :
    timerStep d i
      = { d with
          draggedIndex := (i.val : ℤ)
          canContinue := false
          player :=
            DJAudioPlayer.setPositionRelative
              (if i = 0 then d.player.stop
                else if d.prevPlayerPos = (d.display i).getValue then d.player.stop
                else if !d.player.isPlaying then d.player.start
                else d.player)
              (d.display i).getValue
          prevPlayerPos := (d.display i).getValue } := by
  unfold timerStep
  simp only [hl, hd, if_true]
  split_ifs <;> rfl

/-- The pass of the timer loop for a loaded display that was dragged and is released. -/
theorem timerStep_settle (d : DeckGUI) (i : Fin 3)
    (hl : (d.display i).isFileLoaded = true) (hd : (d.display i).isSliderDragged = false)
    (hc : d.canContinue = false) (hi : d.draggedIndex = (i.val : ℤ)) :
    timerStep d i
      = { d with
          player := if d.modeIsPlaying then d.player.start else d.player.stop
          canContinue := true
          draggedIndex := -1 } := by
  unfold timerStep
  simp [hl, hd, hc, hi]

/-- The pass of the timer loop for a display that is neither dragged nor just released: at
most the position mark of that display changes. -/
theorem timerStep_follow (d : DeckGUI) (i : Fin 3)
    (hd : (d.display i).isSliderDragged = false)
    (hs : ¬ (d.canContinue = false ∧ d.draggedIndex = (i.val : ℤ))) :
    timerStep d i
      = if (d.display i).isFileLoaded then
          d.setDisplay i ((d.display i).setPositionRelative d.player.getPositionRelative)
        else d := by
  unfold timerStep
  simp only [hd, Bool.false_eq_true, not_false_eq_true, true_and, if_false, hs]

/-- The passes of the timer loop neither read nor write the blink counter and flag. -/
theorem timerStep_blink (e s : DeckGUI) (c : ℤ) (f : Bool) (i : Fin 3)
    (hs : s = timerStep e i) :
    timerStep { e with counter := c, flash := f } i = { s with counter := c, flash := f } := by
  subst hs
  unfold timerStep
  fin_cases i <;> simp only [display, setDisplay] <;> split_ifs <;> rfl

/-- A tick is the three passes of the loop over the displays, up to the blink counter, the
blink flag and the level shown. -/
theorem timerCallback_core (d s : DeckGUI)
    (hs : s = timerStep (timerStep (timerStep d 0) 1) 2) :
    ∃ (c : ℤ) (f : Bool) (r : ℚ),
      d.timerCallback = { s with counter := c, flash := f, volRMS := r } := by
  have h3 : ∀ (c : ℤ) (f : Bool),
      timerStep (timerStep (timerStep { d with counter := c, flash := f } 0) 1) 2
        = { s with counter := c, flash := f } := by
    intro c f
    rw [timerStep_blink d (timerStep d 0) c f 0 rfl,
      timerStep_blink (timerStep d 0) (timerStep (timerStep d 0) 1) c f 1 rfl,
      timerStep_blink (timerStep (timerStep d 0) 1) s c f 2 hs]
  unfold timerCallback
  simp only [List.foldl]
  split_ifs
  · exact ⟨d.counter + 1, !d.flash, _, by rw [h3]⟩
  · exact ⟨d.counter + 1, !d.flash, s.volRMS, by rw [h3]⟩
  · exact ⟨d.counter + 1, d.flash, _, by rw [h3]⟩
  · exact ⟨d.counter + 1, d.flash, s.volRMS, by rw [h3]⟩

end DeckGUI

namespace DeckGUI

/-- No pass of the timer loop changes what the timer reads of any display. -/
theorem timerStep_display_controls (e : DeckGUI) (i j : Fin 3) :
    ((timerStep e i).display j).controls = (e.display j).controls := by
  unfold timerStep
  fin_cases i <;> fin_cases j <;>
    simp only [display, setDisplay, WaveformDisplay.setPositionRelative] <;>
    split_ifs <;> rfl

/-- No pass of the timer loop changes the play mode. -/
theorem timerStep_modeIsPlaying (e : DeckGUI) (i : Fin 3) :
    (timerStep e i).modeIsPlaying = e.modeIsPlaying := by
  unfold timerStep
  fin_cases i <;> simp only [display, setDisplay] <;> split_ifs <;> rfl

/-- The pass for a display that is not being dragged leaves `prevPlayerPos` alone. -/
theorem timerStep_prevPlayerPos (e : DeckGUI) (i : Fin 3)
    (hd : (e.display i).isSliderDragged = false) :
    (timerStep e i).prevPlayerPos = e.prevPlayerPos := by
  unfold timerStep
  simp only [hd, Bool.false_eq_true, if_false]
  fin_cases i <;> simp only [display, setDisplay] <;> split_ifs <;> rfl

/-- The pass for a display that is neither dragged nor just released leaves the player and
the drag bookkeeping alone. -/
theorem timerStep_follow_fields (e : DeckGUI) (i : Fin 3)
    (hd : (e.display i).isSliderDragged = false)
    (hs : ¬ (e.canContinue = false ∧ e.draggedIndex = (i.val : ℤ))) :
    (timerStep e i).player = e.player ∧ (timerStep e i).canContinue = e.canContinue
      ∧ (timerStep e i).draggedIndex = e.draggedIndex := by
  rw [timerStep_follow e i hd hs]
  fin_cases i <;> simp only [setDisplay] <;> split_ifs <;> exact ⟨rfl, rfl, rfl⟩

/-- The drag flag of a display after a pass of the timer loop. -/
theorem timerStep_isSliderDragged (e : DeckGUI) (i j : Fin 3) :
    ((timerStep e i).display j).isSliderDragged = (e.display j).isSliderDragged :=
  congrArg (fun c => c.2.1) (timerStep_display_controls e i j)

/-- The loaded flag of a display after a pass of the timer loop. -/
theorem timerStep_isFileLoaded (e : DeckGUI) (i j : Fin 3) :
    ((timerStep e i).display j).isFileLoaded = (e.display j).isFileLoaded :=
  congrArg (fun c => c.1) (timerStep_display_controls e i j)

/-- The slider value of a display after a pass of the timer loop. -/
theorem timerStep_getValue (e : DeckGUI) (i j : Fin 3) :
    ((timerStep e i).display j).getValue = (e.display j).getValue :=
  congrArg (fun c => c.2.2) (timerStep_display_controls e i j)

/-- A tick while the main waveform of a loaded deck is dragged and no other display is. -/
theorem timerCallback_waveform_dragged (d : DeckGUI)
    (hl : d.waveformDisplay.isFileLoaded = true)
    (hd : d.waveformDisplay.isSliderDragged = true)
    (hz : d.zoomedDisplay.isSliderDragged = false)
    (hj : d.jogWheel.isSliderDragged = false) :
    d.timerCallback.player = d.player.stop.setPositionRelative d.waveformDisplay.getValue
      ∧ d.timerCallback.canContinue = false ∧ d.timerCallback.draggedIndex = 0
      ∧ d.timerCallback.prevPlayerPos = d.waveformDisplay.getValue := by
  have h0 := timerStep_dragged d 0 hl hd
  simp only [if_true] at h0
  have hz0 : ((timerStep d 0).display 1).isSliderDragged = false :=
    (timerStep_isSliderDragged d 0 1).trans hz
  have hs1 : ¬ ((timerStep d 0).canContinue = false ∧ (timerStep d 0).draggedIndex = ((1 : Fin 3).val : ℤ)) := by
    rw [h0]; simp
  obtain ⟨a1, a2, a3⟩ := timerStep_follow_fields (timerStep d 0) 1 hz0 hs1
  have a4 := timerStep_prevPlayerPos (timerStep d 0) 1 hz0
  have hj1 : ((timerStep (timerStep d 0) 1).display 2).isSliderDragged = false :=
    (timerStep_isSliderDragged _ 1 2).trans ((timerStep_isSliderDragged d 0 2).trans hj)
  have hs2 : ¬ ((timerStep (timerStep d 0) 1).canContinue = false
      ∧ (timerStep (timerStep d 0) 1).draggedIndex = ((2 : Fin 3).val : ℤ)) := by
    rw [a3, h0]; simp
  obtain ⟨b1, b2, b3⟩ := timerStep_follow_fields (timerStep (timerStep d 0) 1) 2 hj1 hs2
  have b4 := timerStep_prevPlayerPos (timerStep (timerStep d 0) 1) 2 hj1
  obtain ⟨c, f, r, hcore⟩ := timerCallback_core d _ rfl
  rw [hcore]
  refine ⟨?_, ?_, ?_, ?_⟩
  · show (timerStep (timerStep (timerStep d 0) 1) 2).player = _
    rw [b1, a1, h0]; rfl
  · show (timerStep (timerStep (timerStep d 0) 1) 2).canContinue = _
    rw [b2, a2, h0]
  · show (timerStep (timerStep (timerStep d 0) 1) 2).draggedIndex = _
    rw [b3, a3, h0]; rfl
  · show (timerStep (timerStep (timerStep d 0) 1) 2).prevPlayerPos = _
    rw [b4, a4, h0]; rfl

end DeckGUI

namespace DJAudioPlayer

/-- A relative seek does not change the play state. -/
theorem setPositionRelative_isPlaying (p : DJAudioPlayer) (pos : ℚ) :
    (p.setPositionRelative pos).isPlaying = p.isPlaying := by
  unfold setPositionRelative
  split_ifs <;> rfl

end DJAudioPlayer

namespace DeckGUI

/-- A tick does not change what the timer reads of any display. -/
theorem timerCallback_display_controls (d : DeckGUI) (j : Fin 3) :
    (d.timerCallback.display j).controls = (d.display j).controls := by
  obtain ⟨c, f, r, hcore⟩ := timerCallback_core d _ rfl
  rw [hcore, ← timerStep_display_controls d 0 j, ← timerStep_display_controls (timerStep d 0) 1 j,
    ← timerStep_display_controls (timerStep (timerStep d 0) 1) 2 j]
  fin_cases j <;> rfl

/-- A tick does not change the play mode. -/
theorem timerCallback_modeIsPlaying (d : DeckGUI) :
    d.timerCallback.modeIsPlaying = d.modeIsPlaying := by
  obtain ⟨c, f, r, hcore⟩ := timerCallback_core d _ rfl
  rw [hcore]
  show (timerStep (timerStep (timerStep d 0) 1) 2).modeIsPlaying = _
  rw [timerStep_modeIsPlaying, timerStep_modeIsPlaying, timerStep_modeIsPlaying]

/-- The tick after the main waveform of a loaded deck was released, no other display being
dragged. -/
theorem timerCallback_waveform_released (d : DeckGUI)
    (hl : d.waveformDisplay.isFileLoaded = true)
    (hd : d.waveformDisplay.isSliderDragged = false)
    (hc : d.canContinue = false) (hi : d.draggedIndex = 0)
    (hz : d.zoomedDisplay.isSliderDragged = false)
    (hj : d.jogWheel.isSliderDragged = false) :
    d.timerCallback.player = (if d.modeIsPlaying then d.player.start else d.player.stop)
      ∧ d.timerCallback.canContinue = true ∧ d.timerCallback.draggedIndex = -1 := by
  have h0 := timerStep_settle d 0 hl hd hc (by simpa using hi)
  have hz0 : ((timerStep d 0).display 1).isSliderDragged = false :=
    (timerStep_isSliderDragged d 0 1).trans hz
  have hs1 : ¬ ((timerStep d 0).canContinue = false
      ∧ (timerStep d 0).draggedIndex = ((1 : Fin 3).val : ℤ)) := by
    rw [h0]; simp
  obtain ⟨a1, a2, a3⟩ := timerStep_follow_fields (timerStep d 0) 1 hz0 hs1
  have hj1 : ((timerStep (timerStep d 0) 1).display 2).isSliderDragged = false :=
    (timerStep_isSliderDragged _ 1 2).trans ((timerStep_isSliderDragged d 0 2).trans hj)
  have hs2 : ¬ ((timerStep (timerStep d 0) 1).canContinue = false
      ∧ (timerStep (timerStep d 0) 1).draggedIndex = ((2 : Fin 3).val : ℤ)) := by
    rw [a2, h0]; simp
  obtain ⟨b1, b2, b3⟩ := timerStep_follow_fields (timerStep (timerStep d 0) 1) 2 hj1 hs2
  obtain ⟨c, f, r, hcore⟩ := timerCallback_core d _ rfl
  rw [hcore]
  refine ⟨?_, ?_, ?_⟩
  · show (timerStep (timerStep (timerStep d 0) 1) 2).player = _
    rw [b1, a1, h0]
  · show (timerStep (timerStep (timerStep d 0) 1) 2).canContinue = _
    rw [b2, a2, h0]
  · show (timerStep (timerStep (timerStep d 0) 1) 2).draggedIndex = _
    rw [b3, a3, h0]

/-- A tick while the jog wheel of a loaded deck is dragged and no other display is: the
player ends up playing exactly when the value of the wheel differs from `prevPlayerPos`,
the value seen by the last pass for a dragged display. -/
theorem timerCallback_jog_dragged (d : DeckGUI)
    (hl : d.jogWheel.isFileLoaded = true) (hd : d.jogWheel.isSliderDragged = true)
    (hw : d.waveformDisplay.isSliderDragged = false)
    (hz : d.zoomedDisplay.isSliderDragged = false) :
    d.timerCallback.player.isPlaying = decide (d.prevPlayerPos ≠ d.jogWheel.getValue)
      ∧ d.timerCallback.prevPlayerPos = d.jogWheel.getValue := by
  have hz0 : ((timerStep d 0).display 1).isSliderDragged = false :=
    (timerStep_isSliderDragged d 0 1).trans hz
  have p0 := timerStep_prevPlayerPos d 0 hw
  have p1 := timerStep_prevPlayerPos (timerStep d 0) 1 hz0
  have hl2 : ((timerStep (timerStep d 0) 1).display 2).isFileLoaded = true :=
    (timerStep_isFileLoaded _ 1 2).trans ((timerStep_isFileLoaded d 0 2).trans hl)
  have hd2 : ((timerStep (timerStep d 0) 1).display 2).isSliderDragged = true :=
    (timerStep_isSliderDragged _ 1 2).trans ((timerStep_isSliderDragged d 0 2).trans hd)
  have hv2 : ((timerStep (timerStep d 0) 1).display 2).getValue = d.jogWheel.getValue :=
    (timerStep_getValue _ 1 2).trans (timerStep_getValue d 0 2)
  have h2 := timerStep_dragged (timerStep (timerStep d 0) 1) 2 hl2 hd2
  rw [hv2, p1, p0] at h2
  obtain ⟨c, f, r, hcore⟩ := timerCallback_core d _ rfl
  rw [hcore]
  constructor
  · show (timerStep (timerStep (timerStep d 0) 1) 2).player.isPlaying = _
    rw [h2]
    have key : ∀ (q : DJAudioPlayer) (b : Prop) [Decidable b],
        (if b then q.stop else if !q.isPlaying then q.start else q).isPlaying
          = decide (¬ b) := by
      intro q b _
      by_cases hb : b
      · simp [hb, DJAudioPlayer.stop, DJAudioPlayer.isPlaying, juce.AudioTransportSource.stop,
          juce.AudioTransportSource.isPlaying]
      · cases hq : q.transportSource.playing <;>
          simp [hb, hq, DJAudioPlayer.start, DJAudioPlayer.isPlaying,
            juce.AudioTransportSource.start, juce.AudioTransportSource.isPlaying]
    have h20 : ¬ ((2 : Fin 3) = 0) := by decide
    simp only [DJAudioPlayer.setPositionRelative_isPlaying, h20, if_false]
    exact key _ _
  · show (timerStep (timerStep (timerStep d 0) 1) 2).prevPlayerPos = _
    rw [h2]

end DeckGUI

namespace DeckGUI

/-- The waveform of `playingProbe` after a mouse press at a quarter of its width. -/
theorem playingProbe_waveformDown :
    (playingProbe.mouse (.waveformDown 25 100)).waveformDisplay
      = { loadedDisplay with
          sliderIsDragged := true, value := 1 / 4, position := 1 / 4, cueTargets := [0] } := by
  have hv : max (0 : ℚ) (min (((25 : ℤ) : ℚ) / ((100 : ℤ) : ℚ)) 1) = 1 / 4 := by norm_num
  simp only [mouse, playingProbe, cueProbe, loadedDisplay, WaveformDisplay.mouseDown,
    WaveformDisplay.setValue, WaveformDisplay.setPositionRelative, WaveformDisplay.getValue,
    if_true, hv]
  norm_num

/-- C15 as stated fails when the position is unchanged: `playingProbe` plays at second 25;
the main waveform is pressed at a quarter of its width (relative position 1/4, second 25),
a tick stops the player at second 25, the mouse is released and the next tick starts the
player again at second 25: playback is not left stopped although the position at release
is the position at drag start. -/
theorem waveform_release_unchanged_position_resumes :
    playingProbe.modeIsPlaying = true
      ∧ playingProbe.player.transportSource.getCurrentPosition = 25
      ∧ (playingProbe.mouse (.waveformDown 25 100)).timerCallback.player.isPlaying = false
      ∧ (playingProbe.mouse
          (.waveformDown 25 100)).timerCallback.player.transportSource.getCurrentPosition = 25
      ∧ (((playingProbe.mouse (.waveformDown 25 100)).timerCallback).mouse
          .waveformUp).timerCallback.player.transportSource.getCurrentPosition = 25
      ∧ (((playingProbe.mouse (.waveformDown 25 100)).timerCallback).mouse
          .waveformUp).timerCallback.player.isPlaying = true := by
  have hw := playingProbe_waveformDown
  have hdrag := timerCallback_waveform_dragged (playingProbe.mouse (.waveformDown 25 100))
    (by rw [hw]; rfl) (by rw [hw]; rfl) rfl rfl
  have hplayer : (playingProbe.mouse (.waveformDown 25 100)).timerCallback.player
      = { loadedPlayer with
          transportSource := { lengthInSeconds := 100, currentPosition := 25, gain := 1 / 2 } } := by
    rw [hdrag.1, hw]
    have hm : max (0 : ℚ) (min (100 * (1 / 4)) 100) = 25 := by norm_num
    simp [mouse, playingProbe, loadedPlayer, DJAudioPlayer.start, DJAudioPlayer.stop,
      DJAudioPlayer.setPositionRelative, DJAudioPlayer.setPosition,
      juce.AudioTransportSource.start, juce.AudioTransportSource.stop,
      juce.AudioTransportSource.setPosition, juce.AudioTransportSource.getLengthInSeconds,
      WaveformDisplay.getValue, hm]
    norm_num
  have hc0 := timerCallback_display_controls (playingProbe.mouse (.waveformDown 25 100)) 0
  have hc1 := timerCallback_display_controls (playingProbe.mouse (.waveformDown 25 100)) 1
  have hc2 := timerCallback_display_controls (playingProbe.mouse (.waveformDown 25 100)) 2
  have hmode := timerCallback_modeIsPlaying (playingProbe.mouse (.waveformDown 25 100))
  have hrel := timerCallback_waveform_released
    (((playingProbe.mouse (.waveformDown 25 100)).timerCallback).mouse .waveformUp)
    ((congrArg (fun c => c.1) hc0).trans (by rw [show
      ((playingProbe.mouse (.waveformDown 25 100)).display 0)
        = (playingProbe.mouse (.waveformDown 25 100)).waveformDisplay from rfl, hw]; rfl))
    rfl hdrag.2.1 hdrag.2.2.1
    ((congrArg (fun c => c.2.1) hc1).trans rfl)
    ((congrArg (fun c => c.2.1) hc2).trans rfl)
  have hmode2 : (((playingProbe.mouse (.waveformDown 25 100)).timerCallback).mouse
      .waveformUp).modeIsPlaying = true := hmode.trans rfl
  rw [hmode2] at hrel
  simp only [if_true] at hrel
  refine ⟨rfl, rfl, ?_, ?_, ?_, ?_⟩
  · rw [hplayer]; rfl
  · rw [hplayer]; rfl
  · rw [hrel.1]
    show (playingProbe.mouse
      (.waveformDown 25 100)).timerCallback.player.start.transportSource.getCurrentPosition = 25
    rw [hplayer]; rfl
  · rw [hrel.1]; rfl

/-- C15, amended. When a drag of the main waveform of a loaded deck has been released (and
no other display is being dragged), the next tick puts the player into the play mode of the
deck, started if `modeIsPlaying` and stopped otherwise, without moving it and without
comparing positions: it does so whatever the position at release and at drag start were;
the drag bookkeeping is reset. -/
theorem waveform_release_resumes_play_mode (d : DeckGUI)
    (hl : d.waveformDisplay.isFileLoaded = true)
    (hd : d.waveformDisplay.isSliderDragged = false)
    (hc : d.canContinue = false) (hi : d.draggedIndex = 0)
    (hz : d.zoomedDisplay.isSliderDragged = false)
    (hj : d.jogWheel.isSliderDragged = false) :
    d.timerCallback.player.isPlaying = d.modeIsPlaying
      ∧ d.timerCallback.player.transportSource.getCurrentPosition
          = d.player.transportSource.getCurrentPosition
      ∧ d.timerCallback.player = (if d.modeIsPlaying then d.player.start else d.player.stop)
      ∧ d.timerCallback.canContinue = true ∧ d.timerCallback.draggedIndex = -1 := by
  obtain ⟨h1, h2, h3⟩ := timerCallback_waveform_released d hl hd hc hi hz hj
  refine ⟨?_, ?_, h1, h2, h3⟩
  · rw [h1]
    cases hm : d.modeIsPlaying <;> rfl
  · rw [h1]
    cases hm : d.modeIsPlaying <;> rfl

/-- Witness of C15, amended: `playingProbe` after a released drag of its main waveform. -/
theorem waveform_release_resumes_play_mode_witness :
    (timerCallback
      { playingProbe with canContinue := false, draggedIndex := 0 }).player.isPlaying = true :=
  (waveform_release_resumes_play_mode
    { playingProbe with canContinue := false, draggedIndex := 0 } rfl rfl rfl rfl rfl rfl).1

end DeckGUI

namespace DeckGUI

/-- Two ticks in a row during a jog-wheel drag in which the wheel does not move: the second
one finds the value of the first and stops the player. -/
theorem timerCallback_jog_held (d : DeckGUI)
    (hl : d.jogWheel.isFileLoaded = true) (hd : d.jogWheel.isSliderDragged = true)
    (hw : d.waveformDisplay.isSliderDragged = false)
    (hz : d.zoomedDisplay.isSliderDragged = false) :
    d.timerCallback.timerCallback.player.isPlaying = false := by
  have h1 := timerCallback_jog_dragged d hl hd hw hz
  have hc0 := timerCallback_display_controls d 0
  have hc1 := timerCallback_display_controls d 1
  have hc2 := timerCallback_display_controls d 2
  have hl' : d.timerCallback.jogWheel.isFileLoaded = true :=
    (congrArg (fun c => c.1) hc2).trans hl
  have hd' : d.timerCallback.jogWheel.isSliderDragged = true :=
    (congrArg (fun c => c.2.1) hc2).trans hd
  have hv' : d.timerCallback.jogWheel.getValue = d.jogWheel.getValue :=
    congrArg (fun c => c.2.2) hc2
  have hw' : d.timerCallback.waveformDisplay.isSliderDragged = false :=
    (congrArg (fun c => c.2.1) hc0).trans hw
  have hz' : d.timerCallback.zoomedDisplay.isSliderDragged = false :=
    (congrArg (fun c => c.2.1) hc1).trans hz
  have h2 := timerCallback_jog_dragged d.timerCallback hl' hd' hw' hz'
  rw [h2.1, h1.2, hv']
  simp

/-- The jog wheel of `playingProbe` after a clockwise drag event. -/
theorem playingProbe_jogDrag :
    (playingProbe.mouse (.jogDrag 10 0 1)).jogWheel.isFileLoaded = true
      ∧ (playingProbe.mouse (.jogDrag 10 0 1)).jogWheel.isSliderDragged = true
      ∧ (playingProbe.mouse (.jogDrag 10 0 1)).jogWheel.getValue = 1 / 1000 := by
  have hv : max (0 : ℚ) (min (0 + 1 / 10 / 100) 1) = 1 / 1000 := by norm_num
  have hne : (1 / 1000 : ℚ) ≠ 0 := by norm_num
  have h100 : ¬ ((100 : ℚ) = 0) := by norm_num
  simp only [mouse, playingProbe, cueProbe, loadedDisplay, JogWheel.mouseDrag,
    WaveformDisplay.nudge, h100, if_false, WaveformDisplay.setValue, WaveformDisplay.setPositionRelative, WaveformDisplay.getValue,
    WaveformDisplay.isFileLoaded, WaveformDisplay.isSliderDragged, hv, if_true,
    zero_lt_one, ne_eq, hne, not_false_eq_true, and_self]

/-- C16 as stated fails: `playingProbe` is playing; the jog wheel is dragged clockwise once;
after the first tick the player is still playing, after the next tick, the wheel being held
where it is, the player is stopped. -/
theorem jog_drag_tick_stops_playing_deck :
    playingProbe.player.isPlaying = true
      ∧ (playingProbe.mouse (.jogDrag 10 0 1)).timerCallback.player.isPlaying = true
      ∧ (playingProbe.mouse (.jogDrag 10 0 1)).timerCallback.timerCallback.player.isPlaying
          = false := by
  obtain ⟨hl, hd, hv⟩ := playingProbe_jogDrag
  refine ⟨rfl, ?_, timerCallback_jog_held _ hl hd rfl rfl⟩
  rw [(timerCallback_jog_dragged _ hl hd rfl rfl).1, hv]
  have hp : (playingProbe.mouse (.jogDrag 10 0 1)).prevPlayerPos = 0 := rfl
  rw [hp]
  norm_num

/-- C16, amended. While the jog wheel of a loaded deck is being dragged (and no other
display is), every timer tick sets the play state of the player from the wheel: after the
tick the player is playing exactly when the value of the wheel differs from
`prevPlayerPos`, the value the previous tick of the drag found, and the tick records the
value; so playback goes on only while the wheel keeps moving, and a second tick that finds
the wheel where it was stops the player. -/
theorem jog_drag_tick_play_state (d : DeckGUI)
    (hl : d.jogWheel.isFileLoaded = true) (hd : d.jogWheel.isSliderDragged = true)
    (hw : d.waveformDisplay.isSliderDragged = false)
    (hz : d.zoomedDisplay.isSliderDragged = false) :
    (d.timerCallback.player.isPlaying = true ↔ d.prevPlayerPos ≠ d.jogWheel.getValue)
      ∧ d.timerCallback.prevPlayerPos = d.jogWheel.getValue
      ∧ d.timerCallback.timerCallback.player.isPlaying = false := by
  obtain ⟨h1, h2⟩ := timerCallback_jog_dragged d hl hd hw hz
  refine ⟨?_, h2, timerCallback_jog_held d hl hd hw hz⟩
  rw [h1]
  simp

/-- Witness of C16, amended: the jog wheel of `playingProbe` after a clockwise drag. -/
theorem jog_drag_tick_play_state_witness :
    (playingProbe.mouse (.jogDrag 10 0 1)).timerCallback.timerCallback.player.isPlaying
      = false :=
  (jog_drag_tick_play_state (playingProbe.mouse (.jogDrag 10 0 1)) playingProbe_jogDrag.1
    playingProbe_jogDrag.2.1 rfl rfl).2.2

/-- C17. On every timer tick during which the main waveform display of a loaded deck is
being dragged (and no other display is), with the value of the waveform in [0, 1]: after
the tick the player is stopped and its position is the length of the track times the value
of the waveform, that is, its relative position is that value. -/
theorem waveform_drag_tick_stops_and_seeks (d : DeckGUI)
    (hl : d.waveformDisplay.isFileLoaded = true)
    (hd : d.waveformDisplay.isSliderDragged = true)
    (hz : d.zoomedDisplay.isSliderDragged = false)
    (hj : d.jogWheel.isSliderDragged = false)
    (hv0 : 0 ≤ d.waveformDisplay.getValue) (hv1 : d.waveformDisplay.getValue ≤ 1)
    (hL : 0 ≤ d.player.transportSource.getLengthInSeconds) :
    d.timerCallback.player.isPlaying = false
      ∧ d.timerCallback.player = d.player.stop.setPositionRelative d.waveformDisplay.getValue
      ∧ d.timerCallback.player.transportSource.getCurrentPosition
          = d.player.transportSource.getLengthInSeconds * d.waveformDisplay.getValue
      ∧ (0 < d.player.transportSource.getLengthInSeconds →
          d.timerCallback.player.getPositionRelative = d.waveformDisplay.getValue) := by
  obtain ⟨h1, -, -, -⟩ := timerCallback_waveform_dragged d hl hd hz hj
  have hstopL : d.player.stop.transportSource.getLengthInSeconds
      = d.player.transportSource.getLengthInSeconds := rfl
  have hpos := DJAudioPlayer.setPositionRelative_inRange_position d.player.stop
    d.waveformDisplay.getValue (by rw [hstopL]; exact hL) hv0 hv1
  have hlen := DJAudioPlayer.setPositionRelative_length d.player.stop d.waveformDisplay.getValue
  rw [hstopL] at hpos hlen
  refine ⟨?_, h1, ?_, ?_⟩
  · rw [h1, DJAudioPlayer.setPositionRelative_isPlaying]; rfl
  · rw [h1]; exact hpos
  · intro hLpos
    rw [h1]
    unfold DJAudioPlayer.getPositionRelative
    rw [hlen, if_neg (ne_of_gt hLpos)]
    show (d.player.stop.setPositionRelative d.waveformDisplay.getValue).transportSource.currentPosition
      / d.player.transportSource.getLengthInSeconds = d.waveformDisplay.getValue
    rw [hpos]
    field_simp

/-- Witness of C17: the main waveform of `playingProbe` pressed at a quarter of its
width. -/
theorem waveform_drag_tick_stops_and_seeks_witness :
    (playingProbe.mouse (.waveformDown 25 100)).timerCallback.player.isPlaying = false :=
  (waveform_drag_tick_stops_and_seeks (playingProbe.mouse (.waveformDown 25 100))
    (by rw [playingProbe_waveformDown]; rfl) (by rw [playingProbe_waveformDown]; rfl) rfl rfl
    (by rw [playingProbe_waveformDown]; norm_num [WaveformDisplay.getValue])
    (by rw [playingProbe_waveformDown]; norm_num [WaveformDisplay.getValue])
    (by norm_num [mouse, playingProbe, loadedPlayer, DJAudioPlayer.start,
      juce.AudioTransportSource.start, juce.AudioTransportSource.getLengthInSeconds])).1

end DeckGUI

namespace DJAudioPlayer

/-- C21. For every freq with |freq| >= 20000, the end stops -20000 and 20000 of the knob
included, `setFilter(freq)` changes nothing: the player, and with it the active flags and
the coefficient sets (cutoffs) of the low-pass and of the high-pass stage, is the same
afterwards. -/
theorem setFilter_out_of_range_ignored (p : DJAudioPlayer) (freq : ℚ)
    (h : 20000 ≤ |freq|) :
    p.setFilter freq = p
      ∧ (p.setFilter freq).audioLPFilter.active = p.audioLPFilter.active
      ∧ (p.setFilter freq).audioHPFilter.active = p.audioHPFilter.active
      ∧ (p.setFilter freq).audioLPFilter.coefficients.frequency?
          = p.audioLPFilter.coefficients.frequency?
      ∧ (p.setFilter freq).audioHPFilter.coefficients.frequency?
          = p.audioHPFilter.coefficients.frequency? := by
  have h1 : ¬ (freq > 0 ∧ freq < 20000) := by
    rintro ⟨h0, h2⟩
    rw [abs_of_pos h0] at h
    linarith
  have h2 : ¬ (freq < 0 ∧ freq > -20000) := by
    rintro ⟨h0, h2⟩
    rw [abs_of_neg h0] at h
    linarith
  have h3 : ¬ freq = 0 := by
    intro h0
    rw [h0, abs_zero] at h
    linarith
  have hp : p.setFilter freq = p := by
    unfold setFilter
    rw [if_neg h1, if_neg h2, if_neg h3]
  rw [hp]
  exact ⟨rfl, rfl, rfl, rfl, rfl⟩

/-- Witness of C21: the knob at its end stop 20000 after a low-pass at 5000. -/
theorem setFilter_out_of_range_ignored_witness :
    (({} : DJAudioPlayer).setFilter 5000).setFilter 20000 = ({} : DJAudioPlayer).setFilter 5000 :=
  (setFilter_out_of_range_ignored (({} : DJAudioPlayer).setFilter 5000) 20000
    (by norm_num)).1

/-- C22. Each band control replaces the coefficients of exactly one stage and leaves every
other member of the player unchanged: `setLBFilter(g)` makes the low shelf (500 Hz) the
coefficient set of `audioLBFilter`, `setMBFilter(g)` the peak (3250 Hz) that of
`audioMBFilter`, `setHBFilter(g)` the high shelf (5000 Hz) that of `audioHBFilter`, each at
the sample rate of the player with Q = 1/sqrt 2 and gain g; none of them changes the state
of the low-pass and high-pass kill stages. -/
theorem band_controls_set_one_stage (p : DJAudioPlayer) (g : ℚ) :
    (p.setLBFilter g
        = { p with audioLBFilter :=
            { active := true
              coefficients := .makeLowShelf p.thisSampleRate 500 .invSqrt2 g } }
      ∧ (p.setLBFilter g).audioLPFilter = p.audioLPFilter
      ∧ (p.setLBFilter g).audioHPFilter = p.audioHPFilter)
    ∧ (p.setMBFilter g
        = { p with audioMBFilter :=
            { active := true
              coefficients := .makePeakFilter p.thisSampleRate 3250 .invSqrt2 g } }
      ∧ (p.setMBFilter g).audioLPFilter = p.audioLPFilter
      ∧ (p.setMBFilter g).audioHPFilter = p.audioHPFilter)
    ∧ (p.setHBFilter g
        = { p with audioHBFilter :=
            { active := true
              coefficients := .makeHighShelf p.thisSampleRate 5000 .invSqrt2 g } }
      ∧ (p.setHBFilter g).audioLPFilter = p.audioLPFilter
      ∧ (p.setHBFilter g).audioHPFilter = p.audioHPFilter) :=
  ⟨⟨rfl, rfl, rfl⟩, ⟨rfl, rfl, rfl⟩, ⟨rfl, rfl, rfl⟩⟩

end DJAudioPlayer

namespace MainComponent

/-- The crossfade factors after the crossfader was moved to a positive value. -/
theorem moveCrossFader_pos (m : MainComponent) (x : ℚ) (hx : 0 < x) :
    (m.moveCrossFader x).player1.crossFadeVol = 1 - x
      ∧ (m.moveCrossFader x).player2.crossFadeVol = 1 := by
  simp [moveCrossFader, sliderValueChanged, hx, DJAudioPlayer.setGain_crossFadeVol,
    juce.Slider.getValue]

/-- The crossfade factors after the crossfader was moved to a negative value. -/
theorem moveCrossFader_neg (m : MainComponent) (x : ℚ) (hx : x < 0) :
    (m.moveCrossFader x).player2.crossFadeVol = 1 + x
      ∧ (m.moveCrossFader x).player1.crossFadeVol = 1 := by
  have h1 : ¬ (0 : ℚ) < x := not_lt.mpr hx.le
  simp [moveCrossFader, sliderValueChanged, h1, hx, DJAudioPlayer.setGain_crossFadeVol,
    juce.Slider.getValue]

/-- C23. The crossfade gains are monotonic on their half of the domain and reach zero at
the ends: on (0, 1] the crossfade gain of the left deck (player1) is non-increasing in x and
is 0 at x = 1 while that of the right deck (player2) is constantly 1; on [-1, 0) the
crossfade gain of the right deck is non-decreasing in x and is 0 at x = -1 while that of
the left deck is constantly 1. -/
theorem crossfade_gains_monotone (m : MainComponent) (x y : ℚ) :
    (0 < x → x ≤ y → y ≤ 1 →
        (m.moveCrossFader y).player1.crossFadeVol ≤ (m.moveCrossFader x).player1.crossFadeVol
          ∧ (m.moveCrossFader x).player2.crossFadeVol = 1
          ∧ (m.moveCrossFader y).player2.crossFadeVol = 1)
      ∧ (-1 ≤ x → x ≤ y → y < 0 →
        (m.moveCrossFader x).player2.crossFadeVol ≤ (m.moveCrossFader y).player2.crossFadeVol
          ∧ (m.moveCrossFader x).player1.crossFadeVol = 1
          ∧ (m.moveCrossFader y).player1.crossFadeVol = 1)
      ∧ (m.moveCrossFader 1).player1.crossFadeVol = 0
      ∧ (m.moveCrossFader (-1)).player2.crossFadeVol = 0 := by
  refine ⟨?_, ?_, ?_, ?_⟩
  · intro hx hxy _
    have hy : 0 < y := lt_of_lt_of_le hx hxy
    rw [(moveCrossFader_pos m x hx).1, (moveCrossFader_pos m y hy).1,
      (moveCrossFader_pos m x hx).2, (moveCrossFader_pos m y hy).2]
    exact ⟨by linarith, rfl, rfl⟩
  · intro _ hxy hy
    have hx : x < 0 := lt_of_le_of_lt hxy hy
    rw [(moveCrossFader_neg m x hx).1, (moveCrossFader_neg m y hy).1,
      (moveCrossFader_neg m x hx).2, (moveCrossFader_neg m y hy).2]
    exact ⟨by linarith, rfl, rfl⟩
  · rw [(moveCrossFader_pos m 1 one_pos).1]; norm_num
  · rw [(moveCrossFader_neg m (-1) (by norm_num)).1]; norm_num

end MainComponent

namespace DeckGUI

/-- A tick while no display is being dragged and no released drag is pending: the player
and the drag bookkeeping are left alone. -/
theorem timerCallback_idle (d : DeckGUI)
    (hw : d.waveformDisplay.isSliderDragged = false)
    (hz : d.zoomedDisplay.isSliderDragged = false)
    (hj : d.jogWheel.isSliderDragged = false)
    (hc : d.canContinue = true) :
    d.timerCallback.player = d.player ∧ d.timerCallback.canContinue = true
      ∧ d.timerCallback.draggedIndex = d.draggedIndex := by
  have hs0 : ¬ (d.canContinue = false ∧ d.draggedIndex = ((0 : Fin 3).val : ℤ)) := by
    rw [hc]; simp
  obtain ⟨a1, a2, a3⟩ := timerStep_follow_fields d 0 hw hs0
  have hz0 : ((timerStep d 0).display 1).isSliderDragged = false :=
    (timerStep_isSliderDragged d 0 1).trans hz
  have hs1 : ¬ ((timerStep d 0).canContinue = false
      ∧ (timerStep d 0).draggedIndex = ((1 : Fin 3).val : ℤ)) := by
    rw [a2, hc]; simp
  obtain ⟨b1, b2, b3⟩ := timerStep_follow_fields (timerStep d 0) 1 hz0 hs1
  have hj1 : ((timerStep (timerStep d 0) 1).display 2).isSliderDragged = false :=
    (timerStep_isSliderDragged _ 1 2).trans ((timerStep_isSliderDragged d 0 2).trans hj)
  have hs2 : ¬ ((timerStep (timerStep d 0) 1).canContinue = false
      ∧ (timerStep (timerStep d 0) 1).draggedIndex = ((2 : Fin 3).val : ℤ)) := by
    rw [b2, a2, hc]; simp
  obtain ⟨c1, c2, c3⟩ := timerStep_follow_fields (timerStep (timerStep d 0) 1) 2 hj1 hs2
  obtain ⟨c, f, r, hcore⟩ := timerCallback_core d _ rfl
  rw [hcore]
  refine ⟨?_, ?_, ?_⟩
  · show (timerStep (timerStep (timerStep d 0) 1) 2).player = _
    rw [c1, b1, a1]
  · show (timerStep (timerStep (timerStep d 0) 1) 2).canContinue = _
    rw [c2, b2, a2, hc]
  · show (timerStep (timerStep (timerStep d 0) 1) 2).draggedIndex = _
    rw [c3, b3, a3]

/-- The tick after the zoomed display of a loaded deck was released, no display being
dragged. -/
theorem timerCallback_zoomed_released (d : DeckGUI)
    (hl : d.zoomedDisplay.isFileLoaded = true)
    (hw : d.waveformDisplay.isSliderDragged = false)
    (hz : d.zoomedDisplay.isSliderDragged = false)
    (hj : d.jogWheel.isSliderDragged = false)
    (hc : d.canContinue = false) (hi : d.draggedIndex = 1) :
    d.timerCallback.player = (if d.modeIsPlaying then d.player.start else d.player.stop)
      ∧ d.timerCallback.canContinue = true ∧ d.timerCallback.draggedIndex = -1 := by
  have hs0 : ¬ (d.canContinue = false ∧ d.draggedIndex = ((0 : Fin 3).val : ℤ)) := by
    rw [hi]; simp
  obtain ⟨a1, a2, a3⟩ := timerStep_follow_fields d 0 hw hs0
  have am := timerStep_modeIsPlaying d 0
  have hl0 : ((timerStep d 0).display 1).isFileLoaded = true :=
    (timerStep_isFileLoaded d 0 1).trans hl
  have hz0 : ((timerStep d 0).display 1).isSliderDragged = false :=
    (timerStep_isSliderDragged d 0 1).trans hz
  have h1 := timerStep_settle (timerStep d 0) 1 hl0 hz0 (a2.trans hc)
    (a3.trans (by simpa using hi))
  rw [a1, am] at h1
  have hj1 : ((timerStep (timerStep d 0) 1).display 2).isSliderDragged = false :=
    (timerStep_isSliderDragged _ 1 2).trans ((timerStep_isSliderDragged d 0 2).trans hj)
  have hs2 : ¬ ((timerStep (timerStep d 0) 1).canContinue = false
      ∧ (timerStep (timerStep d 0) 1).draggedIndex = ((2 : Fin 3).val : ℤ)) := by
    rw [h1]; simp
  obtain ⟨c1, c2, c3⟩ := timerStep_follow_fields (timerStep (timerStep d 0) 1) 2 hj1 hs2
  obtain ⟨c, f, r, hcore⟩ := timerCallback_core d _ rfl
  rw [hcore]
  refine ⟨?_, ?_, ?_⟩
  · show (timerStep (timerStep (timerStep d 0) 1) 2).player = _
    rw [c1, h1]
  · show (timerStep (timerStep (timerStep d 0) 1) 2).canContinue = _
    rw [c2, h1]
  · show (timerStep (timerStep (timerStep d 0) 1) 2).draggedIndex = _
    rw [c3, h1]

/-- The tick after the jog wheel of a loaded deck was released, no display being
dragged. -/
theorem timerCallback_jog_released (d : DeckGUI)
    (hl : d.jogWheel.isFileLoaded = true)
    (hw : d.waveformDisplay.isSliderDragged = false)
    (hz : d.zoomedDisplay.isSliderDragged = false)
    (hj : d.jogWheel.isSliderDragged = false)
    (hc : d.canContinue = false) (hi : d.draggedIndex = 2) :
    d.timerCallback.player = (if d.modeIsPlaying then d.player.start else d.player.stop)
      ∧ d.timerCallback.canContinue = true ∧ d.timerCallback.draggedIndex = -1 := by
  have hs0 : ¬ (d.canContinue = false ∧ d.draggedIndex = ((0 : Fin 3).val : ℤ)) := by
    rw [hi]; simp
  obtain ⟨a1, a2, a3⟩ := timerStep_follow_fields d 0 hw hs0
  have am := timerStep_modeIsPlaying d 0
  have hz0 : ((timerStep d 0).display 1).isSliderDragged = false :=
    (timerStep_isSliderDragged d 0 1).trans hz
  have hs1 : ¬ ((timerStep d 0).canContinue = false
      ∧ (timerStep d 0).draggedIndex = ((1 : Fin 3).val : ℤ)) := by
    rw [a3, hi]; simp
  obtain ⟨b1, b2, b3⟩ := timerStep_follow_fields (timerStep d 0) 1 hz0 hs1
  have bm := timerStep_modeIsPlaying (timerStep d 0) 1
  have hl1 : ((timerStep (timerStep d 0) 1).display 2).isFileLoaded = true :=
    (timerStep_isFileLoaded _ 1 2).trans ((timerStep_isFileLoaded d 0 2).trans hl)
  have hj1 : ((timerStep (timerStep d 0) 1).display 2).isSliderDragged = false :=
    (timerStep_isSliderDragged _ 1 2).trans ((timerStep_isSliderDragged d 0 2).trans hj)
  have h2 := timerStep_settle (timerStep (timerStep d 0) 1) 2 hl1 hj1
    ((b2.trans a2).trans hc) ((b3.trans a3).trans (by simpa using hi))
  rw [b1, a1, bm, am] at h2
  obtain ⟨c, f, r, hcore⟩ := timerCallback_core d _ rfl
  rw [hcore]
  refine ⟨?_, ?_, ?_⟩
  · show (timerStep (timerStep (timerStep d 0) 1) 2).player = _
    rw [h2]
  · show (timerStep (timerStep (timerStep d 0) 1) 2).canContinue = _
    rw [h2]
  · show (timerStep (timerStep (timerStep d 0) 1) 2).draggedIndex = _
    rw [h2]

/-- Ticks in a row while no display is dragged and no released drag is pending leave the
player alone. -/
theorem timerCallback_iterate_idle (n : ℕ) (d : DeckGUI)
    (hw : d.waveformDisplay.isSliderDragged = false)
    (hz : d.zoomedDisplay.isSliderDragged = false)
    (hj : d.jogWheel.isSliderDragged = false)
    (hc : d.canContinue = true) :
    (timerCallback^[n] d).player = d.player ∧ (timerCallback^[n] d).canContinue = true
      ∧ (timerCallback^[n] d).draggedIndex = d.draggedIndex := by
  induction n generalizing d with
  | zero => exact ⟨rfl, hc, rfl⟩
  | succ n ih =>
    obtain ⟨h1, h2, h3⟩ := timerCallback_idle d hw hz hj hc
    have hw' : d.timerCallback.waveformDisplay.isSliderDragged = false :=
      (congrArg (fun c => c.2.1) (timerCallback_display_controls d 0)).trans hw
    have hz' : d.timerCallback.zoomedDisplay.isSliderDragged = false :=
      (congrArg (fun c => c.2.1) (timerCallback_display_controls d 1)).trans hz
    have hj' : d.timerCallback.jogWheel.isSliderDragged = false :=
      (congrArg (fun c => c.2.1) (timerCallback_display_controls d 2)).trans hj
    obtain ⟨g1, g2, g3⟩ := ih d.timerCallback hw' hz' hj' h2
    rw [Function.iterate_succ_apply]
    exact ⟨g1.trans h1, g2, g3.trans h3⟩

/-- C26. The settle step after a drag runs once per drag cycle: when a dragged display
(`displays[i]`, loaded) has been released and no display is being dragged, the next tick
applies the start-or-stop decision and resets the drag bookkeeping (`canContinue = true`,
`draggedIndex = -1`); every later tick before a new drag begins leaves the player as it
is, it neither starts nor stops it, and keeps the bookkeeping reset: so for any number of
ticks in a row, and for one tick in any state with `canContinue = true` in which no display
is dragged. -/
theorem settle_runs_once (d : DeckGUI) (i : Fin 3) (n : ℕ)
    (hl : (d.display i).isFileLoaded = true)
    (hw : d.waveformDisplay.isSliderDragged = false)
    (hz : d.zoomedDisplay.isSliderDragged = false)
    (hj : d.jogWheel.isSliderDragged = false)
    (hc : d.canContinue = false) (hi : d.draggedIndex = (i.val : ℤ)) :
    (d.timerCallback.player = (if d.modeIsPlaying then d.player.start else d.player.stop)
        ∧ d.timerCallback.canContinue = true ∧ d.timerCallback.draggedIndex = -1)
      ∧ ((timerCallback^[n] d.timerCallback).player = d.timerCallback.player
        ∧ (timerCallback^[n] d.timerCallback).canContinue = true
        ∧ (timerCallback^[n] d.timerCallback).draggedIndex = -1)
      ∧ ∀ e : DeckGUI, e.canContinue = true → e.waveformDisplay.isSliderDragged = false →
          e.zoomedDisplay.isSliderDragged = false → e.jogWheel.isSliderDragged = false →
          e.timerCallback.player = e.player ∧ e.timerCallback.canContinue = true := by
  have hfirst : d.timerCallback.player
        = (if d.modeIsPlaying then d.player.start else d.player.stop)
      ∧ d.timerCallback.canContinue = true ∧ d.timerCallback.draggedIndex = -1 := by
    fin_cases i
    · exact timerCallback_waveform_released d hl hw hc (by simpa using hi) hz hj
    · exact timerCallback_zoomed_released d hl hw hz hj hc (by simpa using hi)
    · exact timerCallback_jog_released d hl hw hz hj hc (by simpa using hi)
  refine ⟨hfirst, ?_, fun e hce hwe hze hje =>
    ⟨(timerCallback_idle e hwe hze hje hce).1, (timerCallback_idle e hwe hze hje hce).2.1⟩⟩
  have hw' : d.timerCallback.waveformDisplay.isSliderDragged = false :=
    (congrArg (fun c => c.2.1) (timerCallback_display_controls d 0)).trans hw
  have hz' : d.timerCallback.zoomedDisplay.isSliderDragged = false :=
    (congrArg (fun c => c.2.1) (timerCallback_display_controls d 1)).trans hz
  have hj' : d.timerCallback.jogWheel.isSliderDragged = false :=
    (congrArg (fun c => c.2.1) (timerCallback_display_controls d 2)).trans hj
  obtain ⟨g1, g2, g3⟩ := timerCallback_iterate_idle n d.timerCallback hw' hz' hj' hfirst.2.1
  exact ⟨g1, g2, g3.trans hfirst.2.2⟩

/-- Witness of C26: `playingProbe` after a released drag of its jog wheel, five ticks
later. -/
theorem settle_runs_once_witness :
    (timerCallback^[5]
      (timerCallback { playingProbe with canContinue := false, draggedIndex := 2 })).player
      = (timerCallback { playingProbe with canContinue := false, draggedIndex := 2 }).player :=
  (settle_runs_once { playingProbe with canContinue := false, draggedIndex := 2 } 2 5
    rfl rfl rfl rfl rfl rfl).2.1.1

end DeckGUI

namespace DJAudioPlayer

/-- `setGain` does not move the transport. -/
theorem setGain_positionInTrack (p : DJAudioPlayer) (g : ℚ) (isVol : Bool)
    (h : p.positionInTrack) : (p.setGain g isVol).positionInTrack := by
  unfold setGain
  cases isVol <;> simp only [] <;> split_ifs <;> exact h

/-- `setSpeed` does not move the transport. -/
theorem setSpeed_positionInTrack (p : DJAudioPlayer) (r : ℚ) (h : p.positionInTrack) :
    (p.setSpeed r).positionInTrack := by
  unfold setSpeed
  split_ifs <;> exact h

/-- `setFilter` does not move the transport. -/
theorem setFilter_positionInTrack (p : DJAudioPlayer) (freq : ℚ) (h : p.positionInTrack) :
    (p.setFilter freq).positionInTrack := by
  unfold setFilter
  split_ifs <;> exact h

/-- The drum handlers do not move the transport. -/
theorem playDrumSample_positionInTrack (formatManager : juce.AudioFormatManager)
    (p : DJAudioPlayer) (path : String) (h : p.positionInTrack) :
    (p.playDrumSample formatManager path).positionInTrack := by
  unfold playDrumSample
  cases formatManager path with
  | none => exact h
  | some reader =>
    cases hd : p.drumReaderSource <;> simp only [hd] <;> exact h

/-- `playDrum` does not move the transport. -/
theorem playDrum_positionInTrack (p : DJAudioPlayer) (h : p.positionInTrack) :
    p.playDrum.positionInTrack := by
  unfold playDrum
  split_ifs <;> exact h

/-- The length of a decoded source is not negative. -/
theorem lengthInSeconds_nonneg (r : juce.AudioFormatReader) : 0 ≤ r.lengthInSeconds := by
  unfold juce.AudioFormatReader.lengthInSeconds
  split_ifs with h
  · exact div_nonneg (Nat.cast_nonneg _) h.le
  · exact le_refl _

/-- After `loadURL` the position is within the track: at its start after a successful load,
where it was after a failed one. -/
theorem loadURL_positionInTrack (formatManager : juce.AudioFormatManager) (p : DJAudioPlayer)
    (url : String) (h : p.positionInTrack) :
    (p.loadURL formatManager url).positionInTrack := by
  unfold loadURL
  cases formatManager url with
  | none => exact h
  | some reader =>
    exact ⟨le_refl _, by
      simpa [juce.AudioTransportSource.setSource] using lengthInSeconds_nonneg reader⟩

/-- A seek, accepted or rejected, leaves the position within the track. -/
theorem setPositionRelative_positionInTrack (p : DJAudioPlayer) (pos : ℚ)
    (h : p.positionInTrack) : (p.setPositionRelative pos).positionInTrack := by
  unfold setPositionRelative
  split_ifs
  · exact h
  · exact ⟨le_max_left _ _, max_le (h.1.trans h.2) (min_le_right _ _)⟩

/-- Rendering leaves the position within the track. -/
theorem rendered_positionInTrack (p : DJAudioPlayer) (seconds : ℚ) (h : p.positionInTrack) :
    (p.rendered seconds).positionInTrack := by
  unfold rendered
  split_ifs
  · exact ⟨le_min (add_nonneg h.1 (le_max_left _ _)) (h.1.trans h.2), min_le_right _ _⟩
  · exact h

/-- The relative position of a player whose position is within its track lies in [0, 1]. -/
theorem getPositionRelative_mem_unit (p : DJAudioPlayer) (h : p.positionInTrack) :
    0 ≤ p.getPositionRelative ∧ p.getPositionRelative ≤ 1 :=
  ⟨(getPositionRelative_bounds p h.1 h.2).1, (getPositionRelative_bounds p h.1 h.2).2.1⟩

end DJAudioPlayer

namespace DeckGUI

/-- The hue drawn for a cue lies in [0, 1] when `rand()` keeps its contract. -/
theorem hue_mem_unit (rnd : RandCall) (h : rnd.value ≤ rnd.randMax) :
    0 ≤ rnd.hue ∧ rnd.hue ≤ 1 := by
  unfold RandCall.hue
  refine ⟨div_nonneg (Nat.cast_nonneg _) (Nat.cast_nonneg _), ?_⟩
  apply div_le_one_of_le₀
  · exact_mod_cast h
  · exact Nat.cast_nonneg _

/-- The pass of the cue loop keeps the position within the track and the cues in range. -/
theorem cueStep_invariant (rnd : RandCall) (button : DeckButton) (d : DeckGUI) (j : Fin 6)
    (hr : rnd.value ≤ rnd.randMax) (hp : d.player.positionInTrack) (hc : d.cuesInRange) :
    (cueStep rnd button d j).player.positionInTrack ∧ (cueStep rnd button d j).cuesInRange := by
  unfold cueStep
  by_cases hb : button = .cue j
  · rw [if_pos hb]
    cases hj : d.cueTargets j with
    | some target =>
      simp only []
      split_ifs
      · exact ⟨DJAudioPlayer.setPositionRelative_positionInTrack _ _ hp, hc⟩
      · exact ⟨DJAudioPlayer.setPositionRelative_positionInTrack _ _ hp, hc⟩
    | none =>
      refine ⟨hp, ?_⟩
      intro i c hic
      by_cases hij : i = j
      · subst hij
        have : c = (d.player.getPositionRelative, rnd.hue) := by
          simpa using hic.symm
        rw [this]
        exact ⟨DJAudioPlayer.getPositionRelative_mem_unit _ hp, hue_mem_unit rnd hr⟩
      · have : d.cueTargets i = some c := by
          simpa [Function.update_noteq hij] using hic
        exact hc i c this
  · rw [if_neg hb]
    exact ⟨hp, hc⟩

end DeckGUI

namespace DeckGUI

/-- `loadDeck` leaves the position within the track and an empty cue collection. -/
theorem loadDeck_invariant (formatManager : juce.AudioFormatManager) (d : DeckGUI) (t : track)
    (hp : d.player.positionInTrack) :
    (d.loadDeck formatManager t).player.positionInTrack
      ∧ (d.loadDeck formatManager t).cuesInRange := by
  have hnone : ∀ i : Fin 6, (d.loadDeck formatManager t).cueTargets i = none := by
    intro i
    unfold loadDeck
    simp only []
    split_ifs <;> rfl
  have hcue : (d.loadDeck formatManager t).cuesInRange := by
    intro i c hic
    rw [hnone i] at hic
    exact Option.noConfusion hic
  refine ⟨?_, hcue⟩
  have h1 := DJAudioPlayer.loadURL_positionInTrack formatManager d.player t.url hp
  unfold loadDeck
  simp only []
  split_ifs
  · exact DJAudioPlayer.setGain_positionInTrack _ _ _ h1
  · exact DJAudioPlayer.setGain_positionInTrack _ _ _ h1
  · exact DJAudioPlayer.setGain_positionInTrack _ _ _ h1
  · exact DJAudioPlayer.setGain_positionInTrack _ _ _ h1

/-- A button click keeps the position within the track and the cues in range. -/
theorem buttonClicked_invariant (formatManager : juce.AudioFormatManager)
    (lib : LibrarySelection) (rnd : RandCall) (d : DeckGUI) (button : DeckButton)
    (hr : rnd.value ≤ rnd.randMax) (hp : d.player.positionInTrack) (hc : d.cuesInRange) :
    (d.buttonClicked formatManager lib rnd button).player.positionInTrack
      ∧ (d.buttonClicked formatManager lib rnd button).cuesInRange := by
  have h1 : (clickPlayButton button d).player.positionInTrack
      ∧ (clickPlayButton button d).cuesInRange := by
    unfold clickPlayButton
    split_ifs <;> exact ⟨hp, hc⟩
  have h2 : ∀ e : DeckGUI, e.player.positionInTrack ∧ e.cuesInRange →
      (clickLoadButton formatManager lib button e).player.positionInTrack
        ∧ (clickLoadButton formatManager lib button e).cuesInRange := by
    intro e he
    unfold clickLoadButton
    split_ifs
    · exact loadDeck_invariant formatManager e _ he.1
    · exact he
  have h3 : ∀ e : DeckGUI, e.player.positionInTrack ∧ e.cuesInRange →
      (clickDrumButtons formatManager button e).player.positionInTrack
        ∧ (clickDrumButtons formatManager button e).cuesInRange := by
    intro e he
    have hk := fun (q : DJAudioPlayer) (hq : q.positionInTrack) (path : String) =>
      DJAudioPlayer.playDrumSample_positionInTrack formatManager q path hq
    have hd := DJAudioPlayer.playDrum_positionInTrack
    cases button <;> simp only [clickDrumButtons, reduceCtorEq, ↓reduceIte]
    · exact he
    · exact he
    · exact ⟨hk _ he.1 _, he.2⟩
    · exact ⟨hd _ he.1, he.2⟩
    · exact ⟨hk _ he.1 _, he.2⟩
    · exact ⟨hk _ he.1 _, he.2⟩
    · exact he
    · exact he
  have hfold : ∀ (js : List (Fin 6)) (e : DeckGUI), e.player.positionInTrack ∧ e.cuesInRange →
      (js.foldl (cueStep rnd button) e).player.positionInTrack
        ∧ (js.foldl (cueStep rnd button) e).cuesInRange := by
    intro js
    induction js with
    | nil => intro e he; exact he
    | cons j js ih => intro e he; exact ih _ (cueStep_invariant rnd button e j hr he.1 he.2)
  have h4 : ∀ e : DeckGUI, e.player.positionInTrack ∧ e.cuesInRange →
      (clickCueButtons rnd button e).player.positionInTrack
        ∧ (clickCueButtons rnd button e).cuesInRange := by
    intro e he
    unfold clickCueButtons
    split_ifs
    · exact hfold _ e he
    · exact he
  have h5 : ∀ e : DeckGUI, e.player.positionInTrack ∧ e.cuesInRange →
      (applyPlayMode e).player.positionInTrack ∧ (applyPlayMode e).cuesInRange := by
    intro e he
    unfold applyPlayMode
    refine ⟨?_, he.2⟩
    show DJAudioPlayer.positionInTrack (if e.modeIsPlaying then e.player.start else e.player.stop)
    split_ifs <;> exact he.1
  exact h5 _ (h4 _ (h3 _ (h2 _ h1)))

/-- A slider move keeps the position within the track and the cues in range. -/
theorem sliderMoved_invariant (d : DeckGUI) (slider : DeckSlider) (v : ℚ)
    (hp : d.player.positionInTrack) (hc : d.cuesInRange) :
    ((d.setSliderValue slider v).sliderValueChanged slider).player.positionInTrack
      ∧ ((d.setSliderValue slider v).sliderValueChanged slider).cuesInRange := by
  refine ⟨?_, fun i c hic => hc i c ((congrFun (sliderMoved_cueTargets d slider v) i).symm ▸ hic)⟩
  cases slider
  · exact DJAudioPlayer.setGain_positionInTrack _ _ _ hp
  · exact DJAudioPlayer.setSpeed_positionInTrack _ _ hp
  · exact DJAudioPlayer.setFilter_positionInTrack _ _ hp
  · exact hp
  · exact hp
  · exact hp
  · exact hp

/-- A pass of the timer loop keeps the position within the track. -/
theorem timerStep_positionInTrack (d : DeckGUI) (i : Fin 3) (hp : d.player.positionInTrack) :
    (timerStep d i).player.positionInTrack := by
  by_cases hl : (d.display i).isFileLoaded = true
  · by_cases hd : (d.display i).isSliderDragged = true
    · rw [timerStep_dragged d i hl hd]
      apply DJAudioPlayer.setPositionRelative_positionInTrack
      split_ifs <;> exact hp
    · have hd' : (d.display i).isSliderDragged = false := by simpa using hd
      by_cases hs : d.canContinue = false ∧ d.draggedIndex = (i.val : ℤ)
      · rw [timerStep_settle d i hl hd' hs.1 hs.2]
        show DJAudioPlayer.positionInTrack
          (if d.modeIsPlaying then d.player.start else d.player.stop)
        split_ifs <;> exact hp
      · rw [(timerStep_follow_fields d i hd' hs).1]
        exact hp
  · have : timerStep d i = d := by
      unfold timerStep
      rw [if_neg hl]
    rw [this]
    exact hp

/-- A tick keeps the position within the track and the cues in range. -/
theorem timerCallback_invariant (d : DeckGUI) (hp : d.player.positionInTrack)
    (hc : d.cuesInRange) :
    d.timerCallback.player.positionInTrack ∧ d.timerCallback.cuesInRange := by
  refine ⟨?_, fun i c hic => hc i c ((congrFun (timerCallback_cueTargets d) i).symm ▸ hic)⟩
  obtain ⟨c, f, r, hcore⟩ := timerCallback_core d _ rfl
  rw [hcore]
  exact timerStep_positionInTrack _ 2
    (timerStep_positionInTrack _ 1 (timerStep_positionInTrack d 0 hp))

end DeckGUI

namespace DeckGUI

/-- A step of a running deck keeps the position within the track and the cues in range. -/
theorem step_invariant (formatManager : juce.AudioFormatManager) (d : DeckGUI) (s : DeckStep)
    (hr : s.randInRange) (hp : d.player.positionInTrack) (hc : d.cuesInRange) :
    (d.step formatManager s).player.positionInTrack ∧ (d.step formatManager s).cuesInRange := by
  cases s with
  | rendered seconds => exact ⟨DJAudioPlayer.rendered_positionInTrack _ _ hp, hc⟩
  | event e =>
    cases e with
    | buttonClicked lib rnd button =>
      exact buttonClicked_invariant formatManager lib rnd d button hr hp hc
    | sliderMoved slider v => exact sliderMoved_invariant d slider v hp hc
    | timerTick => exact timerCallback_invariant d hp hc
    | mouse m =>
      exact ⟨by cases m <;> exact hp,
        fun i c hic => hc i c ((congrFun (mouse_cueTargets d m) i).symm ▸ hic)⟩

/-- C27. Every stored cue point has its relative position and its hue in [0, 1]: in every
state a deck reaches from its construction through button clicks, slider moves, timer
ticks, mouse events and rendering, `rand()` returning values between 0 and `RAND_MAX`, each
entry of `cueTargets` satisfies both bounds, so that a jump to it passes the range check of
`DJAudioPlayer::setPositionRelative` and seeks. -/
theorem stored_cues_in_unit_interval (formatManager : juce.AudioFormatManager)
    (steps : List DeckStep) (hr : ∀ s ∈ steps, s.randInRange) :
    ((constructed formatManager {}).runSteps formatManager steps).cuesInRange
      ∧ ∀ (i : Fin 6) (c : ℚ × ℚ),
          ((constructed formatManager {}).runSteps formatManager steps).cueTargets i = some c →
          ¬ (c.1 < 0 ∨ c.1 > 1)
            ∧ ((constructed formatManager {}).runSteps formatManager
                steps).player.setPositionRelative c.1
              = ((constructed formatManager {}).runSteps formatManager steps).player.setPosition
                  (((constructed formatManager {}).runSteps formatManager
                    steps).player.transportSource.getLengthInSeconds * c.1) := by
  have key : ∀ (ss : List DeckStep) (d : DeckGUI), (∀ s ∈ ss, s.randInRange) →
      d.player.positionInTrack ∧ d.cuesInRange →
      (d.runSteps formatManager ss).player.positionInTrack
        ∧ (d.runSteps formatManager ss).cuesInRange := by
    intro ss
    induction ss with
    | nil => intro d _ hd; exact hd
    | cons s ss ih =>
      intro d hss hd
      exact ih (d.step formatManager s) (fun x hx => hss x (List.mem_cons_of_mem s hx))
        (step_invariant formatManager d s (hss s (List.mem_cons_self s ss)) hd.1 hd.2)
  have h0 : (constructed formatManager {}).player.positionInTrack
      ∧ (constructed formatManager {}).cuesInRange := by
    constructor
    · unfold constructed DJAudioPlayer.loadDrumSample
      cases formatManager hiHatSamplePath with
      | none => exact ⟨le_refl _, le_refl _⟩
      | some reader => exact ⟨le_refl _, le_refl _⟩
    · intro i c hic
      exact Option.noConfusion hic
  have hinv := (key steps _ hr h0).2
  refine ⟨hinv, ?_⟩
  intro i c hic
  have hc := (hinv i c hic).1
  have hn : ¬ (c.1 < 0 ∨ c.1 > 1) := by
    rintro (h | h)
    · exact absurd hc.1 (not_le.mpr h)
    · exact absurd hc.2 (not_le.mpr h)
  refine ⟨hn, ?_⟩
  unfold DJAudioPlayer.setPositionRelative
  rw [if_neg hn]

/-- Witness of C27: a deck that loads `deck.wav`, plays, renders three seconds and stores
two cues. -/
theorem stored_cues_in_unit_interval_witness :
    ((constructed probeFormatManager {}).runSteps probeFormatManager
      [.event (.buttonClicked
          { selectionIsValid := true, selectedTrack := { title := "deck", url := "deck.wav" } }
          {} .loadButton),
        .event (.buttonClicked {} {} .playButton), .rendered 3,
        .event (.buttonClicked {} { value := 12000 } (.cue 2)), .event .timerTick,
        .rendered 250, .event (.buttonClicked {} { value := 32767 } (.cue 4))]).cuesInRange :=
  (stored_cues_in_unit_interval probeFormatManager _
    (by simp [DeckStep.randInRange])).1

end DeckGUI

namespace track

/-- The floor of a fraction with a known integer part. -/
theorem floor_eq_of_bounds (x : ℚ) (z : ℤ) (h1 : (z : ℚ) ≤ x) (h2 : x < (z : ℚ) + 1) :
    ⌊x⌋ = z :=
  Int.floor_eq_iff.mpr ⟨h1, h2⟩

/-- C24, the code at the failing input: for a track of 3661 seconds (1 h 1 min 1 s)
`getLengthString` returns `01:01:3601`, the seconds field holding all the seconds beyond
the last whole minute of the hour, where hours, minutes and seconds are `01:01:01`. -/
theorem getLengthString_hour_seconds :
    (F64.ofInt 3661).toRat = 3661
      ∧ getLengthString (F64.ofInt 3661) false = some "01:01:3601"
      ∧ lengthStringSpec 3661 = "01:01:01"
      ∧ getLengthString (F64.ofInt 3661) false ≠ some (lengthStringSpec 3661) := by
  have h0 : (F64.ofInt 3661).toRat = 3661 := by norm_num [F64.toRat, F64.ofInt]
  have h1 : ⌊(3661 : ℚ) / 3600⌋ = 1 := floor_eq_of_bounds _ 1 (by norm_num) (by norm_num)
  have h7 : ⌊(3661 : ℚ) / 60⌋ = 61 := floor_eq_of_bounds _ 61 (by norm_num) (by norm_num)
  have h8 : ⌊(3661 : ℚ)⌋ = 3661 := floor_eq_of_bounds _ 3661 (by norm_num) (by norm_num)
  have hcode : getLengthString (F64.ofInt 3661) false = some "01:01:3601" := by decide
  have hspec : lengthStringSpec 3661 = "01:01:01" := by
    simp only [lengthStringSpec, h1, h7, h8]
    decide
  refine ⟨h0, hcode, hspec, ?_⟩
  rw [hcode, hspec]
  decide

end track

namespace track

/-- The position string of the specification for the `double` nearest to 83.456. -/
theorem positionStringSpec_83456 :
    positionStringSpec (F64.toRat ⟨5872693914091127, -46⟩) = "01:23:45" := by
  have hx : F64.toRat ⟨5872693914091127, -46⟩ = 5872693914091127 / 70368744177664 := by
    norm_num [F64.toRat, zpow_neg]
  have h1 : ⌊(5872693914091127 / 70368744177664 : ℚ) / 60⌋ = 1 :=
    floor_eq_of_bounds _ 1 (by norm_num) (by norm_num)
  have h2 : ⌊(5872693914091127 / 70368744177664 : ℚ)⌋ = 83 :=
    floor_eq_of_bounds _ 83 (by norm_num) (by norm_num)
  have h3 : ⌊(5872693914091127 / 70368744177664 : ℚ) * 100⌋ = 8345 :=
    floor_eq_of_bounds _ 8345 (by norm_num) (by norm_num)
  rw [hx]
  simp only [positionStringSpec, h1, h2, h3]
  decide

/-- The position string of the specification for the `double` nearest to 3599.99. -/
theorem positionStringSpec_359999 :
    positionStringSpec (F64.toRat ⟨7916461729754644, -41⟩) = "59:59:98" := by
  have hx : F64.toRat ⟨7916461729754644, -41⟩ = 1979115432438661 / 549755813888 := by
    norm_num [F64.toRat, zpow_neg]
  have h1 : ⌊(1979115432438661 / 549755813888 : ℚ) / 60⌋ = 59 :=
    floor_eq_of_bounds _ 59 (by norm_num) (by norm_num)
  have h2 : ⌊(1979115432438661 / 549755813888 : ℚ)⌋ = 3599 :=
    floor_eq_of_bounds _ 3599 (by norm_num) (by norm_num)
  have h3 : ⌊(1979115432438661 / 549755813888 : ℚ) * 100⌋ = 359998 :=
    floor_eq_of_bounds _ 359998 (by norm_num) (by norm_num)
  rw [hx]
  simp only [positionStringSpec, h1, h2, h3]
  decide

/-- Where the arithmetic is exact the code prints the fields of the position: 83.5 s is
shown as `01:23:50`. -/
theorem getLengthString_exact_position :
    getLengthString ⟨167, -1⟩ true = some "01:23:50"
      ∧ positionStringSpec (F64.toRat ⟨167, -1⟩) = "01:23:50" := by
  have hx : F64.toRat ⟨167, -1⟩ = 167 / 2 := by norm_num [F64.toRat, zpow_neg]
  have h1 : ⌊(167 / 2 : ℚ) / 60⌋ = 1 := floor_eq_of_bounds _ 1 (by norm_num) (by norm_num)
  have h2 : ⌊(167 / 2 : ℚ)⌋ = 83 := floor_eq_of_bounds _ 83 (by norm_num) (by norm_num)
  have h3 : ⌊(167 / 2 : ℚ) * 100⌋ = 8350 :=
    floor_eq_of_bounds _ 8350 (by norm_num) (by norm_num)
  refine ⟨by decide, ?_⟩
  rw [hx]
  simp only [positionStringSpec, h1, h2, h3]
  decide

/-- C30, the code at the failing input: at the position 83.456 s, the `double`
`5872693914091127 * 2 ^ -46`, `getLengthString(len, true)` returns `01:23:44`. The local
`sec` is the `double` of 23.45, but `(sec - std::floor(sec)) * 100` is rounded to a
`double` just below 45, whose floor is 44; the position has 45 hundredths and the string of
the claim is `01:23:45`. At the `double` of 3599.99 the code returns `59:59:97`, the string
of the claim is `59:59:98`. -/
theorem getLengthString_hundredths_fall_short :
    (F64.ofRatio 83456 1000 = some ⟨5872693914091127, -46⟩
        ∧ getLengthString ⟨5872693914091127, -46⟩ true = some "01:23:44"
        ∧ positionStringSpec (F64.toRat ⟨5872693914091127, -46⟩) = "01:23:45"
        ∧ sec ⟨5872693914091127, -46⟩ 1 = F64.ofRatio 2345 100
        ∧ (F64.ofRatio 2345 100).bind miniSec = some 44)
      ∧ (F64.ofRatio 359999 100 = some ⟨7916461729754644, -41⟩
        ∧ getLengthString ⟨7916461729754644, -41⟩ true = some "59:59:97"
        ∧ positionStringSpec (F64.toRat ⟨7916461729754644, -41⟩) = "59:59:98") :=
  ⟨⟨by decide, by decide, positionStringSpec_83456, by decide, by decide⟩,
    ⟨by decide, by decide, positionStringSpec_359999⟩⟩

end track

namespace PlaylistComponent

/-- Reading a list through all its indices, in order, gives the list back. -/
theorem range_filterMap_getElem_all {α : Type} (l : List α) :
    (List.range l.length).filterMap (fun i => l[i]?) = l := by
  induction l using List.reverseRecOn with
  | nil => rfl
  | append_singleton l a ih =>
    rw [List.length_append, List.length_singleton, List.range_succ, List.filterMap_append]
    have h1 : (List.range l.length).filterMap (fun i => (l ++ [a])[i]?)
        = (List.range l.length).filterMap (fun i => l[i]?) := by
      apply List.filterMap_congr
      intro i hi
      exact List.getElem?_append_left (List.mem_range.mp hi)
    rw [h1, ih]
    simp

/-- Reading a list through those of its indices whose element satisfies a test gives the
elements that satisfy the test, in order. -/
theorem range_filterMap_getElem_matching {α : Type} (l : List α) (P : α → Bool) :
    ((List.range l.length).filter (fun i => ((l[i]?).map P).getD false)).filterMap
        (fun i => l[i]?)
      = l.filter P := by
  rw [List.filterMap_filter]
  have h : (fun (i : ℕ) => if ((l[i]?).map P).getD false = true then l[i]? else none)
      = (fun (i : ℕ) => (l[i]?).bind (Option.guard (fun a => P a = true))) := by
    funext i
    cases hi : l[i]? with
    | none => simp
    | some a => by_cases hP : P a = true <;> simp [Option.guard, hP]
  rw [h, ← List.filterMap_filterMap, range_filterMap_getElem_all l]
  induction l with
  | nil => rfl
  | cons a l ih =>
    by_cases hP : P a = true <;> simp [List.filterMap_cons, List.filter_cons, Option.guard, hP, ih]

/-- The loop that shows every track appends all the indices. -/
theorem foldl_push_all (l : List ℕ) (q : PlaylistComponent) :
    l.foldl (fun q i => { q with displayTrackTitles := q.displayTrackTitles ++ [i] }) q
      = { q with displayTrackTitles := q.displayTrackTitles ++ l } := by
  induction l generalizing q with
  | nil => simp
  | cons i l ih => simp [List.foldl_cons, ih]

/-- The loop that shows the matching tracks appends the indices of the matching tracks. -/
theorem foldl_push_matching (text : String) (l : List ℕ) (q : PlaylistComponent) :
    l.foldl
        (fun q i =>
          if ((q.deref i).map (fun t => juce.containsIgnoreCase t.title text)).getD false then
            { q with displayTrackTitles := q.displayTrackTitles ++ [i] }
          else q)
        q
      = { q with
          displayTrackTitles :=
            q.displayTrackTitles
              ++ l.filter (fun i =>
                ((q.deref i).map (fun t => juce.containsIgnoreCase t.title text)).getD false) } := by
  induction l generalizing q with
  | nil => simp
  | cons i l ih =>
    rw [List.foldl_cons]
    by_cases h : ((q.deref i).map (fun t => juce.containsIgnoreCase t.title text)).getD false
        = true
    · rw [if_pos h, ih]
      simp only [List.filter_cons, h, if_true, List.append_assoc, List.singleton_append]
      rfl
    · rw [if_neg h, ih]
      simp only [List.filter_cons, h, if_false, Bool.false_eq_true]

/-- C28. After `textEditorTextChanged` with query text q, on a playlist that shows the
tracks of a folder, the displayed track list is exactly the sub-list of the tracks of the
folder whose title contains q ignoring case, in their original order; for the empty query
it is the whole list of the folder. -/
theorem textEditorTextChanged_displays_matches (pl : PlaylistComponent) (tracks : List track)
    (q : String) (h : pl.trackTitles = some tracks) :
    (q.isEmpty = false →
        (pl.textEditorTextChanged q).displayedTracks
          = tracks.filter (fun t => juce.containsIgnoreCase t.title q))
      ∧ (q.isEmpty = true → (pl.textEditorTextChanged q).displayedTracks = tracks) := by
  constructor
  · intro hq
    unfold textEditorTextChanged
    simp only [hq, h, Option.map_some', Option.getD_some, Bool.false_eq_true, if_false]
    rw [foldl_push_matching]
    simp only [displayedTracks, List.nil_append, deref, h]
    have := range_filterMap_getElem_matching tracks (fun t => juce.containsIgnoreCase t.title q)
    convert this using 2
  · intro hq
    unfold textEditorTextChanged
    simp only [hq, h, Option.map_some', Option.getD_some, if_true]
    rw [foldl_push_all]
    simp only [displayedTracks, List.nil_append, deref, h]
    exact range_filterMap_getElem_all tracks

/-- C28, at a concrete input: a playlist that shows a folder of three tracks, with the
query text `kick`. -/
theorem textEditorTextChanged_displays_matches_witness :
    ({ trackTitles := some [{ title := "Kick drum" }, { title := "Snare" },
          { title := "Sidekick" }] } : PlaylistComponent).trackTitles
        = some [{ title := "Kick drum" }, { title := "Snare" }, { title := "Sidekick" }]
      ∧ (("kick".isEmpty = false →
            (({ trackTitles := some [{ title := "Kick drum" }, { title := "Snare" },
                  { title := "Sidekick" }] } : PlaylistComponent).textEditorTextChanged
                "kick").displayedTracks
              = ([{ title := "Kick drum" }, { title := "Snare" },
                  { title := "Sidekick" }] : List track).filter
                  (fun t => juce.containsIgnoreCase t.title "kick"))
          ∧ ("kick".isEmpty = true →
            (({ trackTitles := some [{ title := "Kick drum" }, { title := "Snare" },
                  { title := "Sidekick" }] } : PlaylistComponent).textEditorTextChanged
                "kick").displayedTracks
              = [{ title := "Kick drum" }, { title := "Snare" }, { title := "Sidekick" }])) :=
  ⟨rfl, textEditorTextChanged_displays_matches _ _ "kick" rfl⟩

end PlaylistComponent
namespace Library

/-- After `setTrackTitles` the playlist points to the given tracks through valid pointers. -/
theorem setTrackTitles_shows (pl : PlaylistComponent) (tracks : List track) :
    (pl.setTrackTitles tracks).trackTitles = some tracks
      ∧ ∀ i ∈ (pl.setTrackTitles tracks).displayTrackTitles, i < tracks.length :=
  ⟨rfl, fun _ hi => List.mem_range.mp hi⟩

/-- A click on the row of a folder makes the playlist show the selected folder. -/
theorem cellClicked_showsSelectedFolder (lib : Library) (rowNumber : ℤ)
    (h0 : 0 ≤ rowNumber) (h1 : rowNumber < lib.trackFolders.length) :
    (lib.cellClicked rowNumber).showsSelectedFolder := by
  have hn : rowNumber.toNat < lib.trackFolders.length := by omega
  refine ⟨h0, lib.trackFolders[rowNumber.toNat], ?_, ?_, ?_⟩
  · exact List.getElem?_eq_getElem hn
  · simp only [cellClicked, List.getElem?_eq_getElem hn, Option.map_some', Option.getD_some]
    rfl
  · simp only [cellClicked, List.getElem?_eq_getElem hn, Option.map_some', Option.getD_some]
    exact (setTrackTitles_shows _ _).2

/-- After `deleteItem` the playlist shows the selected folder again. -/
theorem deleteItem_showsSelectedFolder (lib : Library) (h : lib.showsSelectedFolder) :
    lib.deleteItem.showsSelectedFolder := by
  obtain ⟨h0, folder, hfolder, halias, hptr⟩ := h
  unfold deleteItem
  split_ifs with hin hsel hmany
  · have hn : lib.selectedFolderIndex.toNat < lib.trackFolders.length := by omega
    rw [hfolder]
    simp only []
    exact ⟨h0, _, List.getElem?_set_eq_of_lt _ hn, rfl,
      (setTrackTitles_shows lib.playlist _).2⟩
  · have hlen : 0 < (lib.trackFolders.eraseIdx lib.selectedFolderIndex.toNat).length := by
      rw [List.length_eraseIdx]
      split_ifs <;> omega
    refine ⟨le_refl _, (lib.trackFolders.eraseIdx lib.selectedFolderIndex.toNat)[0], ?_, ?_, ?_⟩
    · exact List.getElem?_eq_getElem hlen
    · simp only [List.getElem?_eq_getElem hlen, Option.map_some', Option.getD_some]
      rfl
    · simp only [List.getElem?_eq_getElem hlen, Option.map_some', Option.getD_some]
      exact (setTrackTitles_shows _ _).2
  · exact ⟨h0, folder, hfolder, halias, hptr⟩
  · exact ⟨h0, folder, hfolder, halias, hptr⟩

/-- A change of the search text leaves the playlist showing the selected folder. -/
theorem searchTextChanged_showsSelectedFolder (lib : Library) (text : String)
    (h : lib.showsSelectedFolder) : (lib.searchTextChanged text).showsSelectedFolder := by
  obtain ⟨h0, folder, hfolder, halias, _⟩ := h
  refine ⟨h0, folder, hfolder, ?_, ?_⟩
  · unfold searchTextChanged PlaylistComponent.textEditorTextChanged
    simp only []
    split_ifs
    · rw [PlaylistComponent.foldl_push_all]; exact halias
    · rw [PlaylistComponent.foldl_push_matching]; exact halias
  · unfold searchTextChanged PlaylistComponent.textEditorTextChanged
    simp only [halias, Option.map_some', Option.getD_some]
    split_ifs
    · rw [PlaylistComponent.foldl_push_all]
      intro i hi
      simp only [List.nil_append] at hi
      exact List.mem_range.mp hi
    · rw [PlaylistComponent.foldl_push_matching]
      intro i hi
      simp only [List.nil_append] at hi
      exact List.mem_range.mp (List.mem_of_mem_filter hi)

/-- With a track selected in a playlist that shows the tracks `tracks` through valid
pointers, the selected track is an element of `tracks`. -/
theorem getSelectedTrack_mem (pl : PlaylistComponent) (tracks : List track)
    (hsel : pl.trackIsSelected = true) (halias : pl.trackTitles = some tracks)
    (hptr : ∀ i ∈ pl.displayTrackTitles, i < tracks.length) :
    ∃ sel : track, pl.getSelectedTrack = some sel ∧ sel ∈ tracks := by
  simp only [PlaylistComponent.trackIsSelected, decide_eq_true_eq] at hsel
  obtain ⟨h0, h1⟩ := hsel
  have hrow : pl.selectedRow.toNat < pl.displayTrackTitles.length := by omega
  have hi : pl.displayTrackTitles[pl.selectedRow.toNat] < tracks.length :=
    hptr _ (List.getElem_mem hrow)
  refine ⟨tracks[pl.displayTrackTitles[pl.selectedRow.toNat]], ?_, List.getElem_mem hi⟩
  simp only [PlaylistComponent.getSelectedTrack, PlaylistComponent.getSelectedTrackIndex, h0,
    if_true, List.getElem?_eq_getElem hrow, PlaylistComponent.deref, halias,
    List.getElem?_eq_getElem hi]

/-- C25. With a valid folder selected and a track selected in the playlist, the playlist
showing the tracks of the selected folder, `deleteItem` removes exactly one track from the
selected folder: the track at the first position k, in folder order, whose identity is the
identity of the selected track. The tracks before k and the tracks after k stay, in their
order; every other folder and the selected folder index are unchanged. -/
theorem deleteItem_removes_first_match (lib : Library) (folder : String × List track)
    (hidx0 : 0 ≤ lib.selectedFolderIndex)
    (hidx1 : lib.selectedFolderIndex < lib.trackFolders.length)
    (hsel : lib.playlist.trackIsSelected = true)
    (hfolder : lib.trackFolders[lib.selectedFolderIndex.toNat]? = some folder)
    (halias : lib.playlist.trackTitles = some folder.2)
    (hptr : ∀ i ∈ lib.playlist.displayTrackTitles, i < folder.2.length) :
    ∃ (sel : track) (k : ℕ),
      lib.getSelectedTrack = some sel
        ∧ k < folder.2.length
        ∧ (folder.2[k]?).map (fun t => t.identity) = some sel.identity
        ∧ (∀ j, j < k → (folder.2[j]?).map (fun t => t.identity) ≠ some sel.identity)
        ∧ lib.deleteItem.trackFolders
            = lib.trackFolders.set lib.selectedFolderIndex.toNat
                (folder.1, folder.2.take k ++ folder.2.drop (k + 1))
        ∧ (folder.2.take k ++ folder.2.drop (k + 1)).length + 1 = folder.2.length
        ∧ (∀ j, j ≠ lib.selectedFolderIndex.toNat →
            lib.deleteItem.trackFolders[j]? = lib.trackFolders[j]?)
        ∧ lib.deleteItem.trackFolders.length = lib.trackFolders.length
        ∧ lib.deleteItem.selectedFolderIndex = lib.selectedFolderIndex := by
  obtain ⟨sel, hget, hmem⟩ := getSelectedTrack_mem lib.playlist folder.2 hsel halias hptr
  have hget2 : lib.getSelectedTrack = some sel := hget
  have hlt : folder.2.findIdx (fun t => decide (some t.identity = some sel.identity))
      < folder.2.length :=
    List.findIdx_lt_length_of_exists ⟨sel, hmem, by simp⟩
  have hfind : lib.findSelectedTrack folder.2
      = ((folder.2.findIdx (fun t => decide (some t.identity = some sel.identity)) : ℕ) : ℤ) := by
    simp only [findSelectedTrack, hget2, Option.map_some', hlt, if_true]
  have hdel : lib.deleteItem.trackFolders
        = lib.trackFolders.set lib.selectedFolderIndex.toNat
            (folder.1,
              folder.2.eraseIdx
                (folder.2.findIdx (fun t => decide (some t.identity = some sel.identity))))
      ∧ lib.deleteItem.selectedFolderIndex = lib.selectedFolderIndex := by
    unfold deleteItem
    rw [if_pos ⟨hidx0, hidx1⟩, if_pos hsel, hfolder]
    simp only [hfind]
    have hk : ((folder.2.findIdx (fun t => decide (some t.identity = some sel.identity)) : ℕ) : ℤ)
        > -1 := by omega
    simp only [hk, if_true, Int.toNat_ofNat, and_self]
  refine ⟨sel, _, hget2, hlt, ?_, ?_, ?_, ?_, ?_, ?_, hdel.2⟩
  · have := List.findIdx_getElem (w := hlt)
    simp only [decide_eq_true_eq, Option.some.injEq] at this
    rw [List.getElem?_eq_getElem hlt]
    simp only [Option.map_some', Option.some.injEq]
    exact this
  · intro j hj
    have hjl : j < folder.2.length := lt_trans hj hlt
    have := List.not_of_lt_findIdx hj
    simp only [Option.some.injEq, decide_eq_false_iff_not, decide_eq_true_eq,
      Bool.not_eq_true] at this
    rw [List.getElem?_eq_getElem hjl]
    simp only [Option.map_some', ne_eq, Option.some.injEq]
    exact this
  · rw [hdel.1, List.eraseIdx_eq_take_drop_succ]
  · rw [List.length_append, List.length_take, List.length_drop]
    omega
  · intro j hj
    rw [hdel.1, List.getElem?_set_ne (Ne.symm hj)]
  · rw [hdel.1, List.length_set]

/-- C25, at a concrete input: `probeLibrary`, where the selected track is the third of the
folder and the first track has its identity. -/
theorem deleteItem_removes_first_match_witness :
    (0 ≤ probeLibrary.selectedFolderIndex
        ∧ probeLibrary.selectedFolderIndex < probeLibrary.trackFolders.length
        ∧ probeLibrary.playlist.trackIsSelected = true
        ∧ probeLibrary.trackFolders[probeLibrary.selectedFolderIndex.toNat]?
            = some ("Main", probeTracks)
        ∧ probeLibrary.playlist.trackTitles = some probeTracks
        ∧ ∀ i ∈ probeLibrary.playlist.displayTrackTitles, i < probeTracks.length)
      ∧ ∃ (sel : track) (k : ℕ),
          probeLibrary.getSelectedTrack = some sel
            ∧ k < probeTracks.length
            ∧ (probeTracks[k]?).map (fun t => t.identity) = some sel.identity
            ∧ (∀ j, j < k → (probeTracks[j]?).map (fun t => t.identity) ≠ some sel.identity)
            ∧ probeLibrary.deleteItem.trackFolders
                = probeLibrary.trackFolders.set probeLibrary.selectedFolderIndex.toNat
                    ("Main", probeTracks.take k ++ probeTracks.drop (k + 1))
            ∧ (probeTracks.take k ++ probeTracks.drop (k + 1)).length + 1 = probeTracks.length
            ∧ (∀ j, j ≠ probeLibrary.selectedFolderIndex.toNat →
                probeLibrary.deleteItem.trackFolders[j]? = probeLibrary.trackFolders[j]?)
            ∧ probeLibrary.deleteItem.trackFolders.length = probeLibrary.trackFolders.length
            ∧ probeLibrary.deleteItem.selectedFolderIndex = probeLibrary.selectedFolderIndex :=
  ⟨⟨by decide, by decide, by decide, rfl, rfl, by decide⟩,
    deleteItem_removes_first_match probeLibrary ("Main", probeTracks) (by decide) (by decide)
      (by decide) rfl rfl (by decide)⟩

/-- On `probeLibrary` the third row is selected and `deleteItem` removes the first track of
the folder, which has the identity of the selected track. -/
theorem deleteItem_probeLibrary :
    probeLibrary.deleteItem.trackFolders
      = [("Main", [{ title := "Verse", identity := "23" },
            { title := "Intro again", identity := "17" }]),
          ("Other", [{ title := "Outro", identity := "31" }])] := by
  decide

end Library
namespace Library

/-- C29. `deleteItem` never removes the last folder: on a library that holds at least one
folder, with the selected folder index in range, the library still holds at least one
folder afterwards and the selected folder index is again in range, so that the folder at
that index exists. After a folder deletion (no track selected, more than one folder) the
index is 0 and one folder is gone; with a single folder and no track selected nothing
changes. -/
theorem deleteItem_keeps_a_folder (lib : Library) (hlen : 1 ≤ lib.trackFolders.length)
    (hidx0 : 0 ≤ lib.selectedFolderIndex)
    (hidx1 : lib.selectedFolderIndex < lib.trackFolders.length) :
    1 ≤ lib.deleteItem.trackFolders.length
      ∧ 0 ≤ lib.deleteItem.selectedFolderIndex
      ∧ lib.deleteItem.selectedFolderIndex < lib.deleteItem.trackFolders.length
      ∧ (lib.deleteItem.trackFolders[lib.deleteItem.selectedFolderIndex.toNat]?).isSome = true
      ∧ (lib.playlist.trackIsSelected = false → 1 < lib.trackFolders.length →
          lib.deleteItem.selectedFolderIndex = 0
            ∧ lib.deleteItem.trackFolders.length + 1 = lib.trackFolders.length)
      ∧ (lib.playlist.trackIsSelected = false → lib.trackFolders.length = 1 →
          lib.deleteItem = lib) := by
  have hnat : lib.selectedFolderIndex.toNat < lib.trackFolders.length := by omega
  have key : 1 ≤ lib.deleteItem.trackFolders.length
      ∧ 0 ≤ lib.deleteItem.selectedFolderIndex
      ∧ lib.deleteItem.selectedFolderIndex < lib.deleteItem.trackFolders.length
      ∧ (lib.playlist.trackIsSelected = false → 1 < lib.trackFolders.length →
          lib.deleteItem.selectedFolderIndex = 0
            ∧ lib.deleteItem.trackFolders.length + 1 = lib.trackFolders.length)
      ∧ (lib.playlist.trackIsSelected = false → lib.trackFolders.length = 1 →
          lib.deleteItem = lib) := by
    unfold deleteItem
    rw [if_pos ⟨hidx0, hidx1⟩]
    by_cases hsel : lib.playlist.trackIsSelected = true
    · rw [if_pos hsel, List.getElem?_eq_getElem hnat]
      simp only [List.length_set, hsel, Bool.true_eq_false, false_implies, and_true]
      exact ⟨hlen, hidx0, hidx1⟩
    · rw [if_neg hsel]
      by_cases hmany : lib.trackFolders.length > 1
      · rw [if_pos hmany]
        simp only [List.length_eraseIdx, hnat, if_true]
        refine ⟨by omega, le_refl _, by omega, fun _ _ => ⟨trivial, by omega⟩, fun _ h1 => by omega⟩
      · rw [if_neg hmany]
        exact ⟨hlen, hidx0, hidx1, fun _ h => absurd h hmany, fun _ _ => rfl⟩
  refine ⟨key.1, key.2.1, key.2.2.1, ?_, key.2.2.2⟩
  rw [Option.isSome_iff_exists]
  have h0 := key.2.1
  have h1 := key.2.2.1
  have hn : lib.deleteItem.selectedFolderIndex.toNat < lib.deleteItem.trackFolders.length := by
    omega
  exact ⟨_, List.getElem?_eq_getElem hn⟩

/-- C29, at a concrete input: a library of a single empty folder, selected, with no track
selected. -/
theorem deleteItem_keeps_a_folder_witness :
    (1 ≤ ({ trackFolders := [("Main", [])], selectedFolderIndex := 0 } : Library).trackFolders.length
        ∧ 0 ≤ ({ trackFolders := [("Main", [])], selectedFolderIndex := 0 } : Library).selectedFolderIndex
        ∧ ({ trackFolders := [("Main", [])], selectedFolderIndex := 0 } : Library).selectedFolderIndex
            < ({ trackFolders := [("Main", [])], selectedFolderIndex := 0 } : Library).trackFolders.length)
      ∧ ({ trackFolders := [("Main", [])], selectedFolderIndex := 0 } : Library).deleteItem
          = { trackFolders := [("Main", [])], selectedFolderIndex := 0 } :=
  ⟨⟨by decide, by decide, by decide⟩,
    (deleteItem_keeps_a_folder { trackFolders := [("Main", [])], selectedFolderIndex := 0 }
      (by decide) (by decide) (by decide)).2.2.2.2.2 (by decide) (by decide)⟩

/-- On `probeLibrary` without a selected track, `deleteItem` removes the selected folder,
selects the first of the folders that are left and shows it in the playlist. -/
theorem deleteItem_probeLibrary_folder :
    ({ probeLibrary with playlist := probeLibrary.playlist.setTrackTitles probeTracks }
        : Library).deleteItem
      = { playlist := { selectedRow := -1,
                        trackTitles := some [{ title := "Outro", identity := "31" }],
                        displayTrackTitles := [0] }
          trackFolders := [("Other", [{ title := "Outro", identity := "31" }])]
          selectedFolderIndex := 0 } := by
  decide

end Library

end DJApp
